import Mathlib

/-!
# ISO 14443-3 Type A anti-collision and selection (`src/iso14443a.c`)

A shallow embedding of the selection engine of `iso14443a.c`.

* Bytes and machine words are natural numbers; every store into an
  `unsigned char` is reduced modulo 256.
* The RC632 front end (`_clrc632_*`) is not part of the sources: it is an
  arbitrary deterministic service `Rf σ` over a device state `σ`.  Every call
  made to it is appended to a log, so that statements about the frames that
  are issued can be made.
* The anti-collision command `struct iso14443a_anticol_cmd` is seven bytes
  (`sel_code`, `nvb`, `uid_bits[5]`).  A store through `uid_bits[i]` that
  falls outside these seven bytes, or a transmit that reads past them, leaves
  the model: the run ends with `Res.fault`.
* The collision loop of `_iso14443a_select` has no counter in the source; the
  embedding runs it on fuel and ends with `Res.nofuel` when the fuel is spent.
-/

namespace Iso14443a

/-! ## Declarations of the headers -/

/-- Constants and bit-field readers declared in `iso14443a.h` and
`ccid-internal.h`, which are not among the sources; they are parameters of
the embedding. -/
structure Decls where
  RF_PARITY_ENABLE : Nat
  RF_TX_CRC : Nat
  RF_RX_CRC : Nat
  RF_ERR_COLLISION : Nat
  ISO14443A_FDT_ANTICOL_LAST1 : Nat
  ISO14443A_AC_SEL_CODE_CL1 : Nat
  ISO14443A_AC_SEL_CODE_CL2 : Nat
  ISO14443A_AC_SEL_CODE_CL3 : Nat
  /-- The field `bf_anticol` of `struct iso14443a_atqa`, read from its two bytes. -/
  bf_anticol : Nat → Nat → Nat
  /-- The field `uid_size` of `struct iso14443a_atqa`, read from its two bytes. -/
  uid_size : Nat → Nat → Nat
  /-- The width of `unsigned long` in bits. -/
  ulong_bits : Nat

/-- The three select codes are distinct (they are the case labels of the two
`switch (acf.sel_code)` statements, which do not compile otherwise) and fit the
`unsigned char` field `sel_code`. -/
def Decls.sel_codes_ok (D : Decls) : Prop :=
  D.ISO14443A_AC_SEL_CODE_CL1 ≠ D.ISO14443A_AC_SEL_CODE_CL2 ∧
  D.ISO14443A_AC_SEL_CODE_CL1 ≠ D.ISO14443A_AC_SEL_CODE_CL3 ∧
  D.ISO14443A_AC_SEL_CODE_CL2 ≠ D.ISO14443A_AC_SEL_CODE_CL3 ∧
  D.ISO14443A_AC_SEL_CODE_CL1 < 256 ∧
  D.ISO14443A_AC_SEL_CODE_CL2 < 256 ∧
  D.ISO14443A_AC_SEL_CODE_CL3 < 256

instance (D : Decls) : Decidable D.sel_codes_ok := by
  unfold Decls.sel_codes_ok; infer_instance

def ISO14443A_SF_CMD_REQA : Nat := 0x26
def ISO14443A_SF_CMD_WUPA : Nat := 0x52
def ISO14443A_BITOFCOL_NONE : Nat := 0xffffffff
def TIMEOUT : Nat := 1236

def RFID_14443A_FRAME_REGULAR : Nat := 0
def RFID_14443B_FRAME_REGULAR : Nat := 1
def RFID_MIFARE_FRAME : Nat := 2
def RFID_15693_FRAME : Nat := 3
def RFID_15693_FRAME_ICODE1 : Nat := 4

def RFID_PROTOCOL_UNKNOWN : Nat := 0
def RFID_PROTOCOL_TCL : Nat := 1
def RFID_PROTOCOL_MIFARE_UL : Nat := 2
def RFID_PROTOCOL_MIFARE_CLASSIC : Nat := 3

inductive iso14443a_level where
  | ISO14443A_LEVEL_NONE
  | ISO14443A_LEVEL_CL1
  | ISO14443A_LEVEL_CL2
  | ISO14443A_LEVEL_CL3
deriving DecidableEq, Repr

inductive iso14443a_state where
  | ISO14443A_STATE_ERROR
  | ISO14443A_STATE_NONE
  | ISO14443A_STATE_REQA_SENT
  | ISO14443A_STATE_ATQA_RCVD
  | ISO14443A_STATE_NO_BITFRAME_ANTICOL
  | ISO14443A_STATE_ANTICOL_RUNNING
  | ISO14443A_STATE_SELECTED
deriving DecidableEq, Repr

open iso14443a_level iso14443a_state

/-! ## The RF service -/

structure rf_mode where
  tx_last_bits : Nat
  rx_align : Nat
  flags : Nat
deriving DecidableEq, Repr

/-- What `_clrc632_transceive` hands back: its return value, the bytes it
wrote into the receive buffer (from index 0 on) and the value it left in
`*rx_len`. -/
structure RfReply where
  ok : Bool
  rx_buf : List Nat
  rx_len : Nat
deriving DecidableEq, Repr

/-- The RC632 front end as an arbitrary deterministic service over a device
state `σ`.  `transceive` receives the transmitted bytes, `tx_len`, the
capacity passed in `*rx_len`, the timeout and the flags. -/
structure Rf (σ : Type) where
  set_rf_mode : σ → rf_mode → σ × Bool
  transceive : σ → List Nat → Nat → Nat → Nat → Nat → σ × RfReply
  get_error : σ → σ × Bool × Nat
  get_coll_pos : σ → σ × Bool × Nat

/-- Which function of `iso14443a.c` issued a frame. -/
inductive FrameKind where
  | sf
  | acf
  | regular
deriving DecidableEq, Repr

/-- One call of the RF service. -/
inductive RfCall where
  | set_rf_mode (m : rf_mode)
  | transceive (kind : FrameKind) (tx : List Nat) (tx_len rx_cap timeout flags : Nat)
  | get_error
  | get_coll_pos
deriving DecidableEq, Repr

/-- The device state together with the calls made so far. -/
structure World (σ : Type) where
  dev : σ
  log : List RfCall

variable {σ : Type}

def _clrc632_set_rf_mode (rf : Rf σ) (w : World σ) (m : rf_mode) : World σ × Bool :=
  let r := rf.set_rf_mode w.dev m
  (⟨r.1, w.log ++ [RfCall.set_rf_mode m]⟩, r.2)

def _clrc632_transceive (rf : Rf σ) (w : World σ) (kind : FrameKind) (tx : List Nat)
    (tx_len rx_cap timeout flags : Nat) : World σ × RfReply :=
  let r := rf.transceive w.dev tx tx_len rx_cap timeout flags
  (⟨r.1, w.log ++ [RfCall.transceive kind tx tx_len rx_cap timeout flags]⟩, r.2)

def _clrc632_get_error (rf : Rf σ) (w : World σ) : World σ × Bool × Nat :=
  let r := rf.get_error w.dev
  (⟨r.1, w.log ++ [RfCall.get_error]⟩, r.2.1, r.2.2 % 256)

def _clrc632_get_coll_pos (rf : Rf σ) (w : World σ) : World σ × Bool × Nat :=
  let r := rf.get_coll_pos w.dev
  (⟨r.1, w.log ++ [RfCall.get_coll_pos]⟩, r.2.1, r.2.2 % 256)

/-- The byte `buf[i]` of a receive buffer that was zeroed before the service
wrote `written` into it. -/
def rx_byte (written : List Nat) (i : Nat) : Nat := written.getD i 0 % 256

/-! ## The anti-collision command frame -/

structure iso14443a_anticol_cmd where
  sel_code : Nat
  nvb : Nat
  uid_bits : List Nat
deriving DecidableEq, Repr

/-- The frame after `memset(&acf, 0, sizeof(acf))`. -/
def acf_zero : iso14443a_anticol_cmd := ⟨0, 0, [0, 0, 0, 0, 0]⟩

/-- The frame seen as `(uint8_t *)acf`. -/
def acf_bytes (acf : iso14443a_anticol_cmd) : List Nat :=
  acf.sel_code :: acf.nvb :: acf.uid_bits

/-- Store of one byte at offset `off` from the start of the frame
(`uid_bits[i]` is offset `i + 2`); `none` when the offset is outside the
seven bytes of the frame. -/
def acf_store (acf : iso14443a_anticol_cmd) (off : Nat) (v : Nat) :
    Option iso14443a_anticol_cmd :=
  match off with
  | 0 => some { acf with sel_code := v % 256 }
  | 1 => some { acf with nvb := v % 256 }
  | j + 2 => if j < 5 then some { acf with uid_bits := acf.uid_bits.set j (v % 256) } else none

/-- The call `memcpy((uint8_t *)acf + off, &rx_buf[src], count)`. -/
def acf_memcpy (acf : iso14443a_anticol_cmd) (off : Nat) (written : List Nat) (src : Nat) :
    Nat → Option iso14443a_anticol_cmd
  | 0 => some acf
  | count + 1 =>
    match acf_store acf off (rx_byte written src) with
    | none => none
    | some acf1 => acf_memcpy acf1 (off + 1) written (src + 1) count

/-! ## NVB codec -/

/-- `iso14443a_code_nvb_bits`: the return value and the value of `*nvb`
afterwards. -/
def iso14443a_code_nvb_bits (nvb : Nat) (bits : Nat) : Int × Nat :=
  let byte_count := bits / 8
  let bit_count := bits % 8
  if byte_count < 2 ∨ byte_count > 7 then (-1, nvb)
  else (0, (((byte_count &&& 0xf) <<< 4) ||| bit_count) % 256)

/-- How `_iso14443a_transceive_acf` reads an NVB: `tx_last_bits`. -/
def nvb_tx_last_bits (nvb : Nat) : Nat := nvb &&& 0x07

/-- How `_iso14443a_transceive_acf` reads an NVB: `tx_bytes`. -/
def nvb_tx_bytes (nvb : Nat) : Nat := (nvb >>> 4) &&& 0x07

/-! ## Frame transceive functions -/

/-- How a function of the embedding ends: it returns a value, it accesses
memory outside the anti-collision frame, or the fuel of the collision loop is
spent. -/
inductive Res where
  | ret (v : Int)
  | fault
  | nofuel
deriving DecidableEq, Repr

/-- Outcome of `_iso14443a_transceive_acf`: the frame and `*bit_of_col` as
they are left. -/
structure AcfOut (σ : Type) where
  res : Res
  w : World σ
  acf : iso14443a_anticol_cmd
  bit_of_col : Nat

/-- The merge of a response into the frame (the statements between the
transceive and `_clrc632_get_error`): the split byte `uid_bits[tx_bytes-2]`,
then the `memcpy` of the remaining received bytes. -/
def acf_merge (acf : iso14443a_anticol_cmd) (rx_buf : List Nat) (rx_len : Nat) :
    Option iso14443a_anticol_cmd :=
  let tx_last_bits := nvb_tx_last_bits acf.nvb
  let tx_bytes := nvb_tx_bytes acf.nvb
  match (acf_bytes acf).get? tx_bytes with
  | none => none
  | some old =>
    match acf_store acf tx_bytes ((old &&& (0xff >>> (8 - tx_last_bits))) ||| rx_byte rx_buf 0) with
    | none => none
    | some acf1 =>
      if rx_len ≠ 0 then acf_memcpy acf1 (tx_bytes + 1) rx_buf 1 (rx_len - 1)
      else some acf1

/-- The tail of `_iso14443a_transceive_acf` from `_clrc632_get_error` on. -/
def acf_collision (D : Decls) (rf : Rf σ) (w : World σ) (acf : iso14443a_anticol_cmd) :
    AcfOut σ :=
  let e := _clrc632_get_error rf w
  if !e.2.1 then ⟨Res.ret 0, e.1, acf, ISO14443A_BITOFCOL_NONE⟩
  else if e.2.2 &&& D.RF_ERR_COLLISION ≠ 0 then
    let c := _clrc632_get_coll_pos rf e.1
    if !c.2.1 then ⟨Res.ret 0, c.1, acf, ISO14443A_BITOFCOL_NONE⟩
    else ⟨Res.ret 1, c.1, acf, 2 * 8 + c.2.2⟩
  else ⟨Res.ret 1, e.1, acf, ISO14443A_BITOFCOL_NONE⟩

def _iso14443a_transceive_acf (D : Decls) (rf : Rf σ) (w : World σ)
    (acf : iso14443a_anticol_cmd) : AcfOut σ :=
  let tx_last_bits := nvb_tx_last_bits acf.nvb
  let tx_bytes := nvb_tx_bytes acf.nvb
  let tx_bytes_total := if tx_last_bits ≠ 0 then tx_bytes + 1 else tx_bytes
  let rx_align := if tx_last_bits ≠ 0 then tx_last_bits &&& 0x07 else 0
  let mode : rf_mode := ⟨tx_last_bits, rx_align, D.RF_PARITY_ENABLE⟩
  let m := _clrc632_set_rf_mode rf w mode
  if !m.2 then ⟨Res.ret 0, m.1, acf, ISO14443A_BITOFCOL_NONE⟩
  else if 7 < tx_bytes_total then
    -- the transmit reads past the seven bytes of the frame
    ⟨Res.fault,
      ⟨m.1.dev, m.1.log ++ [RfCall.transceive FrameKind.acf (acf_bytes acf) tx_bytes_total 64 0x32 0]⟩,
      acf, ISO14443A_BITOFCOL_NONE⟩
  else
    let t := _clrc632_transceive rf m.1 FrameKind.acf ((acf_bytes acf).take tx_bytes_total)
      tx_bytes_total 64 0x32 0
    if !t.2.ok then ⟨Res.ret 0, t.1, acf, ISO14443A_BITOFCOL_NONE⟩
    else
      match acf_merge acf t.2.rx_buf (t.2.rx_len % 256) with
      | none => ⟨Res.fault, t.1, acf, ISO14443A_BITOFCOL_NONE⟩
      | some acf1 => acf_collision D rf t.1 acf1

/-- Outcome of `_iso14443ab_transceive`: the receive buffer and `*rx_len` as
they are left. -/
structure AbOut (σ : Type) where
  ret : Int
  w : World σ
  rx_buf : List Nat
  rx_len : Nat

/-- The `switch (frametype)` of `_iso14443ab_transceive`: the mode flags, or
`none` for the `default` branch. -/
def frametype_flags (D : Decls) (frametype : Nat) : Option Nat :=
  if frametype = RFID_14443A_FRAME_REGULAR ∨ frametype = RFID_MIFARE_FRAME then
    some (D.RF_PARITY_ENABLE ||| D.RF_TX_CRC ||| D.RF_RX_CRC)
  else if frametype = RFID_14443B_FRAME_REGULAR then some (D.RF_TX_CRC ||| D.RF_RX_CRC)
  else if frametype = RFID_15693_FRAME then some (D.RF_TX_CRC ||| D.RF_RX_CRC)
  else none

/-- `_iso14443ab_transceive`; `rx_len` is the value of `*rx_len` on entry, which
is also the number of bytes of `rx_buf` that are zeroed. -/
def _iso14443ab_transceive (D : Decls) (rf : Rf σ) (w : World σ) (frametype : Nat)
    (tx_buf : List Nat) (tx_len : Nat) (rx_len : Nat) (timeout : Nat) (_flags : Nat) :
    AbOut σ :=
  let rxl := if rx_len > 0xff then 0xff else rx_len
  let zeroed := List.replicate rx_len 0
  match frametype_flags D frametype with
  | none => ⟨0, w, zeroed, rx_len⟩
  | some fl =>
    let m := _clrc632_set_rf_mode rf w ⟨0, 0, fl⟩
    if !m.2 then ⟨0, m.1, zeroed, rx_len⟩
    else
      let t := _clrc632_transceive rf m.1 FrameKind.regular tx_buf tx_len rxl timeout 0
      ⟨if t.2.ok then 1 else 0, t.1, (List.range rx_len).map (rx_byte t.2.rx_buf),
        t.2.rx_len % 256⟩

/-- Outcome of `_iso14443a_transceive_sf`: the two bytes of `*atqa` as they
are left. -/
structure SfOut (σ : Type) where
  ret : Int
  w : World σ
  atqa : List Nat

def _iso14443a_transceive_sf (D : Decls) (rf : Rf σ) (w : World σ) (cmd : Nat)
    (atqa : List Nat) : SfOut σ :=
  let mode : rf_mode := ⟨7, 0, D.RF_PARITY_ENABLE⟩
  let m := _clrc632_set_rf_mode rf w mode
  if !m.2 then ⟨0, m.1, atqa⟩
  else
    let t := _clrc632_transceive rf m.1 FrameKind.sf [cmd % 256] 1 2
      D.ISO14443A_FDT_ANTICOL_LAST1 0
    let atqa1 := [rx_byte t.2.rx_buf 0, rx_byte t.2.rx_buf 1]
    let rx_len := t.2.rx_len % 256
    if !t.2.ok then ⟨0, t.1, atqa1⟩
    else
      let e := _clrc632_get_error rf t.1
      if !e.2.1 then ⟨0, e.1, atqa1⟩
      else if e.2.2 &&& D.RF_ERR_COLLISION ≠ 0 then
        let c := _clrc632_get_coll_pos rf e.1
        if !c.2.1 then ⟨0, c.1, atqa1⟩
        else if rx_len ≠ 2 then ⟨0, c.1, atqa1⟩
        else ⟨1, c.1, atqa1⟩
      else if rx_len ≠ 2 then ⟨0, e.1, atqa1⟩
      else ⟨1, e.1, atqa1⟩

/-! ## Random collision-bit resolution -/

/-- The static `randctx[4]` of `random_bit`. -/
structure RandCtx where
  r0 : Nat
  r1 : Nat
  r2 : Nat
  r3 : Nat
deriving DecidableEq, Repr

/-- The initialiser of `randctx`. -/
def randctx_init : RandCtx := ⟨0x22d4a017, 0x773a1f44, 0xc39e1460, 0x9cde8801⟩

/-- `random_bit`: the returned bit and the new `randctx` (arithmetic of
`unsigned long`, modulo `2 ^ ulong_bits`). -/
def random_bit (D : Decls) (c : RandCtx) : Nat × RandCtx :=
  let M := 2 ^ D.ulong_bits
  let e := c.r0
  let n0 := c.r1
  let n1 := (((c.r2 <<< 19) % M) + (c.r2 >>> 13) + c.r3) % M
  let n2 := c.r3 ^^^ n0
  let n3 := (e + n1) % M
  (n1 &&& 1, ⟨n0, n1, n2, n3⟩)

/-- `rnd_toggle_bit_in_field`: the field and `randctx` afterwards. -/
def rnd_toggle_bit_in_field (D : Decls) (bitfield : List Nat) (size bit : Nat)
    (c : RandCtx) : List Nat × RandCtx :=
  if bit ≠ 0 ∧ bit ≤ (size * 8) % 2 ^ 32 then
    let r := random_bit D c
    let bit1 := bit - 1
    let byte := bit1 / 8
    let mask := (r.1 <<< (bit1 % 8)) % 2 ^ 32
    (bitfield.set byte ((bitfield.getD byte 0 ^^^ mask) % 256), r.2)
  else (bitfield, c)

/-! ## Selection -/

/-- The local variables of `_iso14443a_select`. -/
structure SelectLocals where
  state : iso14443a_state
  level : iso14443a_level
  atqa : List Nat
  uid_size : Nat
  acf : iso14443a_anticol_cmd
  bit_of_col : Nat
  sak : List Nat
  rx_len : Nat
  uid : List Nat
  uid_len : Nat
  tcl_capable : Nat
  proto_supported : Nat
deriving DecidableEq, Repr

/-- The locals after the `memset`s and initialisations at the head of
`_iso14443a_select`. -/
def locals_init : SelectLocals :=
  { state := ISO14443A_STATE_NONE, level := ISO14443A_LEVEL_NONE, atqa := [0, 0],
    uid_size := 0, acf := acf_zero, bit_of_col := 0, sak := [0, 0, 0], rx_len := 3,
    uid := List.replicate 10 0, uid_len := 0, tcl_capable := 0, proto_supported := 0 }

/-- A run of `_iso14443a_select`: how it ended, the locals at that point, the
RF service and its log, and the static `randctx`. -/
structure Run (σ : Type) where
  res : Res
  loc : SelectLocals
  w : World σ
  randctx : RandCtx

/-- The call `memcpy(&uid[dst], &acf.uid_bits[src], n)`. -/
def uid_copy (uid : List Nat) (dst : Nat) (bits : List Nat) (src : Nat) : Nat → List Nat
  | 0 => uid
  | n + 1 => uid_copy (uid.set dst (bits.getD src 0)) (dst + 1) bits (src + 1) n

/-- The loop `while (bit_of_col != ISO14443A_BITOFCOL_NONE)` of
`_iso14443a_select`, one iteration per unit of fuel.  The result is
`Res.ret 1` when the loop is left at its condition and `Res.ret 0` when it is
left by `return 0`. -/
def collision_loop (D : Decls) (rf : Rf σ) :
    Nat → World σ → RandCtx → iso14443a_anticol_cmd → Nat → AcfOut σ × RandCtx
  | 0, w, c, acf, bit_of_col =>
    if bit_of_col ≠ ISO14443A_BITOFCOL_NONE then (⟨Res.nofuel, w, acf, bit_of_col⟩, c)
    else (⟨Res.ret 1, w, acf, bit_of_col⟩, c)
  | fuel + 1, w, c, acf, bit_of_col =>
    if bit_of_col ≠ ISO14443A_BITOFCOL_NONE then
      let nvb1 := (iso14443a_code_nvb_bits acf.nvb bit_of_col).2
      let t := rnd_toggle_bit_in_field D acf.uid_bits 5 bit_of_col c
      let acf1 : iso14443a_anticol_cmd := { acf with nvb := nvb1, uid_bits := t.1 }
      let r := _iso14443a_transceive_acf D rf w acf1
      match r.res with
      | Res.ret v =>
        if v = 0 then (⟨Res.ret 0, r.w, r.acf, r.bit_of_col⟩, t.2)
        else collision_loop D rf fuel r.w t.2 r.acf r.bit_of_col
      | other => (⟨other, r.w, r.acf, r.bit_of_col⟩, t.2)
    else (⟨Res.ret 1, w, acf, bit_of_col⟩, c)

/-- The end of `_iso14443a_select`, from `if (level == ISO14443A_LEVEL_CL1)` on. -/
def select_finish (loc : SelectLocals) (w : World σ) (c : RandCtx) : Run σ :=
  let uid_len :=
    if loc.level = ISO14443A_LEVEL_CL1 then 4
    else if loc.level = ISO14443A_LEVEL_CL2 then 7
    else 10
  let loc1 := { loc with uid_len := uid_len, level := ISO14443A_LEVEL_NONE,
                         state := ISO14443A_STATE_SELECTED }
  if loc.sak.getD 0 0 &&& 0x20 ≠ 0 then
    ⟨Res.ret 1, { loc1 with proto_supported := 1 <<< RFID_PROTOCOL_TCL, tcl_capable := 1 }, w, c⟩
  else
    ⟨Res.ret 1, { loc1 with
        proto_supported := (1 <<< RFID_PROTOCOL_MIFARE_UL) ||| (1 <<< RFID_PROTOCOL_MIFARE_CLASSIC),
        tcl_capable := 0 }, w, c⟩

/-- The anti-collision part of one cascade level: the statements of
`_iso14443a_select` from `iso14443a_code_nvb_bits(&acf.nvb, 16)` to the end of
the collision loop.  The result is `Res.ret 1` when the loop is left at its
condition and `Res.ret 0` when one of the two `return 0` is taken. -/
def anticol_phase (D : Decls) (rf : Rf σ) (fuel : Nat) (w : World σ) (c : RandCtx)
    (acf : iso14443a_anticol_cmd) : AcfOut σ × RandCtx :=
  let acf := { acf with nvb := (iso14443a_code_nvb_bits acf.nvb 16).2 }
  let r := _iso14443a_transceive_acf D rf w acf
  match r.res with
  | Res.ret v =>
    if v = 0 then (⟨Res.ret 0, r.w, r.acf, r.bit_of_col⟩, c)
    else collision_loop D rf fuel r.w c r.acf r.bit_of_col
  | other => (⟨other, r.w, r.acf, r.bit_of_col⟩, c)

/-- The select part of one cascade level: `iso14443a_code_nvb_bits(&acf.nvb, 7*8)`
and the call of `_iso14443ab_transceive` on the whole frame, with `rx_len`
the value of the local of that name.  The frame is returned with the outcome. -/
def select_phase (D : Decls) (rf : Rf σ) (w : World σ) (acf : iso14443a_anticol_cmd)
    (rx_len : Nat) : AbOut σ × iso14443a_anticol_cmd :=
  let acf := { acf with nvb := (iso14443a_code_nvb_bits acf.nvb (7 * 8)).2 }
  (_iso14443ab_transceive D rf w RFID_14443A_FRAME_REGULAR (acf_bytes acf) 7 rx_len TIMEOUT 0,
    acf)

/-- The code of `_iso14443a_select` from the label `cascade:` on; one unit of
fuel per pass through the label, the rest going to the collision loop. -/
def cascade (D : Decls) (rf : Rf σ) : Nat → SelectLocals → World σ → RandCtx → Run σ
  | 0, loc, w, c => ⟨Res.nofuel, loc, w, c⟩
  | fuel + 1, loc, w, c =>
    let loc := { loc with rx_len := 3 }
    let p := anticol_phase D rf fuel w c loc.acf
    let loc := { loc with acf := p.1.acf, bit_of_col := p.1.bit_of_col }
    match p.1.res with
    | Res.ret v =>
      if v = 0 then ⟨Res.ret 0, loc, p.1.w, p.2⟩
      else
        let s := select_phase D rf p.1.w loc.acf loc.rx_len
        let loc := { loc with acf := s.2, sak := s.1.rx_buf, rx_len := s.1.rx_len }
        if s.1.ret = 0 then ⟨Res.ret 0, loc, s.1.w, p.2⟩
        else if loc.sak.getD 0 0 &&& 0x04 ≠ 0 then
          if loc.acf.sel_code = D.ISO14443A_AC_SEL_CODE_CL1 then
            if loc.acf.uid_bits.getD 0 0 ≠ 0x88 then ⟨Res.ret 0, loc, s.1.w, p.2⟩
            else
              cascade D rf fuel
                { loc with uid := uid_copy loc.uid 0 loc.acf.uid_bits 1 3,
                           acf := { loc.acf with sel_code := D.ISO14443A_AC_SEL_CODE_CL2 % 256 },
                           level := ISO14443A_LEVEL_CL2 } s.1.w p.2
          else if loc.acf.sel_code = D.ISO14443A_AC_SEL_CODE_CL2 then
            cascade D rf fuel
              { loc with uid := uid_copy loc.uid 3 loc.acf.uid_bits 1 3,
                         acf := { loc.acf with sel_code := D.ISO14443A_AC_SEL_CODE_CL3 % 256 },
                         level := ISO14443A_LEVEL_CL3 } s.1.w p.2
          else ⟨Res.ret 0, { loc with state := ISO14443A_STATE_ERROR }, s.1.w, p.2⟩
        else
          let uid :=
            if loc.acf.sel_code = D.ISO14443A_AC_SEL_CODE_CL1 then
              uid_copy loc.uid 0 loc.acf.uid_bits 0 4
            else if loc.acf.sel_code = D.ISO14443A_AC_SEL_CODE_CL2 then
              uid_copy loc.uid 3 loc.acf.uid_bits 0 4
            else if loc.acf.sel_code = D.ISO14443A_AC_SEL_CODE_CL3 then
              uid_copy loc.uid 6 loc.acf.uid_bits 0 4
            else loc.uid
          select_finish { loc with uid := uid } s.1.w p.2
    | other => ⟨other, loc, p.1.w, p.2⟩

def _iso14443a_select (D : Decls) (rf : Rf σ) (fuel : Nat) (w : World σ) (c : RandCtx)
    (wup : Int) : Run σ :=
  let loc := locals_init
  let sf :=
    if wup ≠ 0 then _iso14443a_transceive_sf D rf w ISO14443A_SF_CMD_WUPA loc.atqa
    else _iso14443a_transceive_sf D rf w ISO14443A_SF_CMD_REQA loc.atqa
  let loc := { loc with atqa := sf.atqa }
  if sf.ret = 0 then ⟨Res.ret 0, { loc with state := ISO14443A_STATE_REQA_SENT }, sf.w, c⟩
  else if D.bf_anticol (loc.atqa.getD 0 0) (loc.atqa.getD 1 0) = 0 then
    ⟨Res.ret (-1), { loc with state := ISO14443A_STATE_NO_BITFRAME_ANTICOL }, sf.w, c⟩
  else
    let f := D.uid_size (loc.atqa.getD 0 0) (loc.atqa.getD 1 0)
    let uid_size := if f = 2 ∨ f = 3 then 3 else if f = 1 then 2 else 1
    let loc := { loc with uid_size := uid_size,
                          acf := { loc.acf with sel_code := D.ISO14443A_AC_SEL_CODE_CL1 % 256 },
                          state := ISO14443A_STATE_ANTICOL_RUNNING,
                          level := ISO14443A_LEVEL_CL1 }
    cascade D rf fuel loc sf.w c

/-! ## Concrete services, used to run the embedding -/

/-- The values of ISO 14443-3 for the select codes and the ATQA fields, and
one choice of flag bits. -/
def decls_iso : Decls :=
  { RF_PARITY_ENABLE := 1, RF_TX_CRC := 2, RF_RX_CRC := 4, RF_ERR_COLLISION := 1,
    ISO14443A_FDT_ANTICOL_LAST1 := 1236,
    ISO14443A_AC_SEL_CODE_CL1 := 0x93, ISO14443A_AC_SEL_CODE_CL2 := 0x95,
    ISO14443A_AC_SEL_CODE_CL3 := 0x97,
    bf_anticol := fun a0 _ => a0 &&& 0x1f,
    uid_size := fun a0 _ => a0 >>> 6,
    ulong_bits := 64 }

/-- One scripted exchange: the reply of `_clrc632_transceive` and what
`_clrc632_get_error` and `_clrc632_get_coll_pos` report after it. -/
structure Scripted where
  reply : RfReply
  err : Nat
  boc : Nat
deriving DecidableEq, Repr

/-- A service that answers the `n`-th transceive with the `n`-th entry of a
script (and fails once the script is over); its state is the number of
transceives so far. -/
def script_rf (script : List Scripted) : Rf Nat :=
  { set_rf_mode := fun n _ => (n, true),
    transceive := fun n _ _ _ _ _ =>
      (n + 1, match script.get? n with
              | some x => x.reply
              | none => ⟨false, [], 0⟩),
    get_error := fun n =>
      (n, true, match script.get? (n - 1) with
                | some x => x.err
                | none => 0),
    get_coll_pos := fun n =>
      (n, true, match script.get? (n - 1) with
                | some x => x.boc
                | none => 0) }

/-- A successful exchange without collision. -/
def answer (rx : List Nat) : Scripted := ⟨⟨true, rx, rx.length⟩, 0, 0⟩

/-- A successful exchange with a collision reported at front-end position `boc`. -/
def collide (rx : List Nat) (boc : Nat) : Scripted := ⟨⟨true, rx, rx.length⟩, 1, boc⟩

/-- The world before the first call. -/
def world0 : World Nat := ⟨0, []⟩

/-! ## Vocabulary of the theorems -/

/-- A card with a double-size UID: ATQA, CL1 answer `88 01 02 03`, SAK `0x24`,
CL2 answer `04 05 06 07`, SAK `0x20`. -/
def card_double : List Scripted :=
  [answer [0x44, 0], answer [0x88, 0x01, 0x02, 0x03, 0x88], answer [0x24],
   answer [0x04, 0x05, 0x06, 0x07, 0x04], answer [0x20]]

/-- A card that keeps asking for another cascade level: SAK `0x04` at CL1, CL2
and CL3. -/
def card_too_deep : List Scripted :=
  [answer [0x44, 0], answer [0x88, 0x01, 0x02, 0x03, 0x88], answer [0x04],
   answer [0x88, 0x04, 0x05, 0x06, 0x8f], answer [0x04],
   answer [0x07, 0x08, 0x09, 0x0a, 0x04], answer [0x04]]

/-- A triple-size exchange whose CL2 answer starts with `0x11` instead of the
cascade tag `0x88`, with the cascade bit set in the SAK of CL1 and of CL2. -/
def card_bad_tag_cl2 : List Scripted :=
  [answer [0x44, 0], answer [0x88, 0x01, 0x02, 0x03, 0x88], answer [0x04],
   answer [0x11, 0x04, 0x05, 0x06, 0x16], answer [0x04],
   answer [0x07, 0x08, 0x09, 0x0a, 0x04], answer [0x00]]

/-- A card whose ATQA has no bit-frame-anticollision bit. -/
def card_no_bitframe : List Scripted := [answer [0x40, 0]]

/-- The transmitted bytes of a call when it is a transceive issued by the
function `k`. -/
def frame_of (k : FrameKind) : RfCall → Option (List Nat)
  | RfCall.transceive k1 tx _ _ _ _ => if k1 = k then some tx else none
  | _ => none

/-- The frames that the function `k` transmitted, in the order of the log. -/
def frames (k : FrameKind) (log : List RfCall) : List (List Nat) :=
  log.filterMap (frame_of k)

/-- The select codes (first bytes) of the regular frames of a log. -/
def select_codes (log : List RfCall) : List Nat :=
  (frames FrameKind.regular log).map (fun tx => tx.headD 0)


/-- The short-frame call made by `_iso14443a_select`: WUPA when `wup` is
non-zero, REQA otherwise. -/
def select_sf (D : Decls) (rf : Rf σ) (w : World σ) (wup : Int) : SfOut σ :=
  _iso14443a_transceive_sf D rf w
    (if wup ≠ 0 then ISO14443A_SF_CMD_WUPA else ISO14443A_SF_CMD_REQA) [0, 0]

/-- The locals of `_iso14443a_select` when the label `cascade:` is reached for
the first time, after the ATQA `atqa` was received. -/
def locals_cl1 (D : Decls) (atqa : List Nat) : SelectLocals :=
  { locals_init with
      atqa := atqa
      uid_size :=
        (if D.uid_size (atqa.getD 0 0) (atqa.getD 1 0) = 2 ∨
            D.uid_size (atqa.getD 0 0) (atqa.getD 1 0) = 3 then 3
         else if D.uid_size (atqa.getD 0 0) (atqa.getD 1 0) = 1 then 2 else 1)
      acf := { acf_zero with sel_code := D.ISO14443A_AC_SEL_CODE_CL1 % 256 }
      state := ISO14443A_STATE_ANTICOL_RUNNING
      level := ISO14443A_LEVEL_CL1 }

/-- The outcome of the anti-collision part of the cascade level that starts
with the locals `loc`. -/
def level_anticol (D : Decls) (rf : Rf σ) (fuel : Nat) (loc : SelectLocals) (w : World σ)
    (c : RandCtx) : AcfOut σ × RandCtx :=
  anticol_phase D rf fuel w c loc.acf

/-- The outcome of the select part of the cascade level that starts with the
locals `loc`, run after its anti-collision part. -/
def level_select (D : Decls) (rf : Rf σ) (fuel : Nat) (loc : SelectLocals) (w : World σ)
    (c : RandCtx) : AbOut σ × iso14443a_anticol_cmd :=
  select_phase D rf (level_anticol D rf fuel loc w c).1.w
    (level_anticol D rf fuel loc w c).1.acf 3

/-- The locals of `_iso14443a_select` after the select exchange of the cascade
level that starts with the locals `loc`. -/
def level_locals (D : Decls) (rf : Rf σ) (fuel : Nat) (loc : SelectLocals) (w : World σ)
    (c : RandCtx) : SelectLocals :=
  { loc with
      rx_len := (level_select D rf fuel loc w c).1.rx_len
      acf := (level_select D rf fuel loc w c).2
      bit_of_col := (level_anticol D rf fuel loc w c).1.bit_of_col
      sak := (level_select D rf fuel loc w c).1.rx_buf }

/-- The locals with which the next cascade level starts: three bytes of the
UID buffer copied to `uid[dst..]`, the select code `code` and the level `lv`. -/
def level_next (D : Decls) (rf : Rf σ) (fuel : Nat) (loc : SelectLocals) (w : World σ)
    (c : RandCtx) (dst code : Nat) (lv : iso14443a_level) : SelectLocals :=
  { level_locals D rf fuel loc w c with
      uid := uid_copy loc.uid dst (level_anticol D rf fuel loc w c).1.acf.uid_bits 1 3
      acf := { (level_select D rf fuel loc w c).2 with sel_code := code % 256 }
      level := lv }

/-- The protocol set that the classification at the end of `_iso14443a_select`
derives from the first SAK byte. -/
def proto_of_sak (sak0 : Nat) : Nat :=
  if sak0 &&& 0x20 ≠ 0 then 1 <<< RFID_PROTOCOL_TCL
  else (1 <<< RFID_PROTOCOL_MIFARE_UL) ||| (1 <<< RFID_PROTOCOL_MIFARE_CLASSIC)

/-- The mode set last after the calls of a log, `m` being the mode before it. -/
def mode_after (m : Option rf_mode) : List RfCall → Option rf_mode
  | [] => m
  | RfCall.set_rf_mode m1 :: rest => mode_after (some m1) rest
  | RfCall.transceive _ _ _ _ _ _ :: rest => mode_after m rest
  | RfCall.get_error :: rest => mode_after m rest
  | RfCall.get_coll_pos :: rest => mode_after m rest

/-- The transceive calls of a log, each paired with the mode that was set last
before it (`m` before the first call of the log). -/
def exchanges_from (m : Option rf_mode) : List RfCall → List (Option rf_mode × RfCall)
  | [] => []
  | RfCall.set_rf_mode m1 :: rest => exchanges_from (some m1) rest
  | RfCall.transceive k tx a b c d :: rest =>
    (m, RfCall.transceive k tx a b c d) :: exchanges_from m rest
  | RfCall.get_error :: rest => exchanges_from m rest
  | RfCall.get_coll_pos :: rest => exchanges_from m rest

/-- The exchanges of a log that starts with no mode set. -/
def exchanges (log : List RfCall) : List (Option rf_mode × RfCall) :=
  exchanges_from none log

/-- The shape of the three kinds of exchange that `iso14443a.c` issues: mode,
transmitted length, receive capacity, timeout and flags; for an anti-collision
frame the NVB is its second byte, for a select frame the NVB is `0x70`. -/
def exchange_ok (D : Decls) (x : Option rf_mode × RfCall) : Prop :=
  match x.2 with
  | RfCall.transceive FrameKind.sf tx tx_len rx_cap timeout flags =>
    x.1 = some ⟨7, 0, D.RF_PARITY_ENABLE⟩ ∧ tx.length = 1 ∧ tx_len = 1 ∧ rx_cap = 2 ∧
      timeout = D.ISO14443A_FDT_ANTICOL_LAST1 ∧ flags = 0
  | RfCall.transceive FrameKind.acf tx tx_len rx_cap timeout flags =>
    x.1 = some ⟨nvb_tx_last_bits (tx.getD 1 0), nvb_tx_last_bits (tx.getD 1 0),
                D.RF_PARITY_ENABLE⟩ ∧
      2 ≤ tx.getD 1 0 >>> 4 ∧ tx.getD 1 0 >>> 4 ≤ 7 ∧
      tx_len = (if nvb_tx_last_bits (tx.getD 1 0) = 0 then tx.getD 1 0 >>> 4
                else tx.getD 1 0 >>> 4 + 1) ∧
      rx_cap = 64 ∧ timeout = 0x32 ∧ flags = 0
  | RfCall.transceive FrameKind.regular tx tx_len rx_cap timeout flags =>
    x.1 = some ⟨0, 0, D.RF_PARITY_ENABLE ||| D.RF_TX_CRC ||| D.RF_RX_CRC⟩ ∧
      tx.length = 7 ∧ tx.getD 1 0 = 0x70 ∧ tx_len = 7 ∧ rx_cap = 3 ∧ timeout = TIMEOUT ∧
      flags = 0
  | _ => True

/-- The calls `ext` contain each of their exchanges together with the
`set_rf_mode` that precedes it, and all these exchanges satisfy `P`. -/
def Sealed (P : Option rf_mode × RfCall → Prop) (ext : List RfCall) : Prop :=
  ∀ m, ∀ x ∈ exchanges_from m ext, P x

/-- The world `w1` continues `w` by calls that are sealed for `P`. -/
def Ext (P : Option rf_mode × RfCall → Prop) (w w1 : World σ) : Prop :=
  ∃ ext, w1.log = w.log ++ ext ∧ Sealed P ext

/-- A working frame as `_iso14443a_select` keeps it: five UID-buffer bytes and
an NVB whose high nibble is in [2,7]. -/
def acf_wf (acf : iso14443a_anticol_cmd) : Prop :=
  acf.uid_bits.length = 5 ∧ 2 ≤ acf.nvb >>> 4 ∧ acf.nvb >>> 4 ≤ 7

/-- The mode that `_iso14443a_transceive_acf` sets for the NVB `nvb`. -/
def acf_mode (D : Decls) (nvb : Nat) : rf_mode :=
  ⟨nvb_tx_last_bits nvb, if nvb_tx_last_bits nvb ≠ 0 then nvb_tx_last_bits nvb &&& 0x07 else 0,
    D.RF_PARITY_ENABLE⟩

/-- The value of `tx_bytes_total` in `_iso14443a_transceive_acf` for the NVB `nvb`. -/
def acf_total (nvb : Nat) : Nat :=
  if nvb_tx_last_bits nvb ≠ 0 then nvb_tx_bytes nvb + 1 else nvb_tx_bytes nvb

/-- The transceive call of `_iso14443a_transceive_acf`, made after the mode
was set. -/
def acf_xcv (D : Decls) (rf : Rf σ) (w : World σ) (acf : iso14443a_anticol_cmd) :
    World σ × RfReply :=
  _clrc632_transceive rf (_clrc632_set_rf_mode rf w (acf_mode D acf.nvb)).1 FrameKind.acf
    ((acf_bytes acf).take (acf_total acf.nvb)) (acf_total acf.nvb) 64 0x32 0

/-- The `_clrc632_get_error` call of `_iso14443a_transceive_acf`. -/
def acf_err (D : Decls) (rf : Rf σ) (w : World σ) (acf : iso14443a_anticol_cmd) :
    World σ × Bool × Nat :=
  _clrc632_get_error rf (acf_xcv D rf w acf).1

/-- The `_clrc632_get_coll_pos` call of `_iso14443a_transceive_acf`. -/
def acf_pos (D : Decls) (rf : Rf σ) (w : World σ) (acf : iso14443a_anticol_cmd) :
    World σ × Bool × Nat :=
  _clrc632_get_coll_pos rf (acf_err D rf w acf).1

/-- Two cards in the field: ATQA, a probe answer with a collision that the
front end reports at its position 8 (frame bit 24), the answer to the retry,
SAK `0x00`. -/
def card_collision : List Scripted :=
  [answer [0x44, 0], collide [0x01, 0x02, 0x03, 0x04, 0x04] 8,
   answer [0x02, 0x03, 0x04, 0x05], answer [0x00]]

/-- The `_clrc632_set_rf_mode` call of `_iso14443a_transceive_sf`. -/
def sf_set (D : Decls) (rf : Rf σ) (w : World σ) : World σ × Bool :=
  _clrc632_set_rf_mode rf w ⟨7, 0, D.RF_PARITY_ENABLE⟩

/-- The transceive call of `_iso14443a_transceive_sf`, made after the mode
was set. -/
def sf_xcv (D : Decls) (rf : Rf σ) (w : World σ) (cmd : Nat) : World σ × RfReply :=
  _clrc632_transceive rf (sf_set D rf w).1 FrameKind.sf [cmd % 256] 1 2
    D.ISO14443A_FDT_ANTICOL_LAST1 0

/-- The `_clrc632_get_error` call of `_iso14443a_transceive_sf`. -/
def sf_err (D : Decls) (rf : Rf σ) (w : World σ) (cmd : Nat) : World σ × Bool × Nat :=
  _clrc632_get_error rf (sf_xcv D rf w cmd).1

/-- The `_clrc632_get_coll_pos` call of `_iso14443a_transceive_sf`. -/
def sf_pos (D : Decls) (rf : Rf σ) (w : World σ) (cmd : Nat) : World σ × Bool × Nat :=
  _clrc632_get_coll_pos rf (sf_err D rf w cmd).1

/-- The command byte of the short frame of `_iso14443a_select`. -/
def sf_cmd (wup : Int) : Nat :=
  if wup ≠ 0 then ISO14443A_SF_CMD_WUPA else ISO14443A_SF_CMD_REQA

/-- Two cards in the field whose collision the front end reports at its
position 40 (frame bit 56): ATQA, the probe answer with that collision, and
the answer to the retry. -/
def card_overrun : List Scripted :=
  [answer [0x44, 0], collide [0x01, 0x02, 0x03, 0x04, 0x04] 40, answer [0xFF]]

/-- What `_iso14443a_select` keeps in step at the label `cascade:`: ten UID
bytes, five UID-buffer bytes, and the level together with its select code. -/
def cascade_inv (D : Decls) (loc : SelectLocals) : Prop :=
  loc.uid.length = 10 ∧ loc.acf.uid_bits.length = 5 ∧
    ((loc.level = ISO14443A_LEVEL_CL1 ∧ loc.acf.sel_code = D.ISO14443A_AC_SEL_CODE_CL1) ∨
      (loc.level = ISO14443A_LEVEL_CL2 ∧ loc.acf.sel_code = D.ISO14443A_AC_SEL_CODE_CL2) ∨
      (loc.level = ISO14443A_LEVEL_CL3 ∧ loc.acf.sel_code = D.ISO14443A_AC_SEL_CODE_CL3))

/-- The UID of a selected card: its length and the place of the four bytes of
the terminal level, by the select code of that level. -/
def uid_placed (D : Decls) (loc : SelectLocals) : Prop :=
  loc.uid.length = 10 ∧ loc.acf.uid_bits.length = 5 ∧
    ((loc.acf.sel_code = D.ISO14443A_AC_SEL_CODE_CL1 ∧ loc.uid_len = 4 ∧
        loc.uid.take 4 = loc.acf.uid_bits.take 4) ∨
      (loc.acf.sel_code = D.ISO14443A_AC_SEL_CODE_CL2 ∧ loc.uid_len = 7 ∧
        (loc.uid.drop 3).take 4 = loc.acf.uid_bits.take 4) ∨
      (loc.acf.sel_code = D.ISO14443A_AC_SEL_CODE_CL3 ∧ loc.uid_len = 10 ∧
        (loc.uid.drop 6).take 4 = loc.acf.uid_bits.take 4))

/-- A card with a triple-size UID: ATQA, CL1 answer `88 01 02 03`, SAK `0x04`,
CL2 answer `88 04 05 06`, SAK `0x04`, CL3 answer `07 08 09 0a`, SAK `0x00`. -/
def card_triple : List Scripted :=
  [answer [0x44, 0], answer [0x88, 0x01, 0x02, 0x03, 0x88], answer [0x04],
   answer [0x88, 0x04, 0x05, 0x06, 0x8f], answer [0x04],
   answer [0x07, 0x08, 0x09, 0x0a, 0x04], answer [0x00]]

/-! ## Theorems -/

/-- C1: `iso14443a_code_nvb_bits` fails with -1 and leaves the NVB alone
exactly when the byte count `b / 8` is below 2 or above 7; otherwise it
returns 0 and the NVB is `((b / 8) << 4) | (b % 8)`. -/
theorem code_nvb_bits_spec (nvb b : Nat) :
    iso14443a_code_nvb_bits nvb b =
        (if b / 8 < 2 ∨ 7 < b / 8 then ((-1 : Int), nvb)
         else ((0 : Int), ((b / 8) <<< 4) ||| (b % 8))) ∧
      ((iso14443a_code_nvb_bits nvb b).1 = -1 ↔ (b / 8 < 2 ∨ 7 < b / 8)) ∧
      ((iso14443a_code_nvb_bits nvb b).1 = 0 ↔ ¬ (b / 8 < 2 ∨ 7 < b / 8)) := by
  have hm : b % 8 < 8 := Nat.mod_lt _ (by decide)
  unfold iso14443a_code_nvb_bits
  by_cases h : b / 8 < 2 ∨ 7 < b / 8
  · have h' : b / 8 < 2 ∨ b / 8 > 7 := h
    simp [h, h']
  · have h' : ¬ (b / 8 < 2 ∨ b / 8 > 7) := h
    have h2 : 2 ≤ b / 8 := by omega
    have h7 : b / 8 ≤ 7 := by omega
    simp only [h, h', if_false, true_and, not_false_eq_true, iff_true]
    generalize b / 8 = k at *
    generalize b % 8 = m at *
    refine ⟨?_, by decide, trivial⟩
    interval_cases k <;> interval_cases m <;> rfl

/-- C2: for every bit count `b` with `16 ≤ b ≤ 56` the encoding succeeds and
the decoding of `_iso14443a_transceive_acf` (eight times the byte count plus
the bit count) gives `b` back. -/
theorem nvb_roundtrip (nvb b : Nat) (hlo : 16 ≤ b) (hhi : b ≤ 56) :
    (iso14443a_code_nvb_bits nvb b).1 = 0 ∧
      8 * nvb_tx_bytes (iso14443a_code_nvb_bits nvb b).2
        + nvb_tx_last_bits (iso14443a_code_nvb_bits nvb b).2 = b := by
  interval_cases b <;>
    simp [iso14443a_code_nvb_bits, nvb_tx_bytes, nvb_tx_last_bits] <;> rfl

theorem nvb_roundtrip_witness :
    (iso14443a_code_nvb_bits 0 21).1 = 0 ∧
      8 * nvb_tx_bytes (iso14443a_code_nvb_bits 0 21).2
        + nvb_tx_last_bits (iso14443a_code_nvb_bits 0 21).2 = 21 :=
  nvb_roundtrip 0 21 (by decide) (by decide)

theorem take4_getD {l : List Nat} {a b c d : Nat} (h : l.take 4 = [a, b, c, d]) :
    l.getD 0 0 = a ∧ l.getD 1 0 = b ∧ l.getD 2 0 = c ∧ l.getD 3 0 = d := by
  match l, h with
  | x0 :: x1 :: x2 :: x3 :: _, h =>
    simp only [List.take_succ_cons, List.take_zero, List.cons.injEq, and_true] at h
    obtain ⟨h0, h1, h2, h3⟩ := h
    subst h0 h1 h2 h3
    simp

theorem merge_probe (s u0 u1 u2 u3 u4 : Nat) (rx : List Nat) :
    acf_merge ⟨s, 0x20, [u0, u1, u2, u3, u4]⟩ rx 5 =
      some ⟨s, 0x20, (List.range 5).map (rx_byte rx)⟩ := by
  have h1 : nvb_tx_bytes 0x20 = 2 := rfl
  have h2 : nvb_tx_last_bits 0x20 = 0 := rfl
  simp [acf_merge, h1, h2, acf_bytes, acf_store, acf_memcpy, rx_byte,
    List.range, List.range.loop]

theorem select_unfold (D : Decls) (rf : Rf σ) (fuel : Nat) (w : World σ) (c : RandCtx)
    (wup : Int) :
    _iso14443a_select D rf fuel w c wup =
      if (select_sf D rf w wup).ret = 0 then
        ⟨Res.ret 0, { locals_init with atqa := (select_sf D rf w wup).atqa,
                                       state := ISO14443A_STATE_REQA_SENT },
          (select_sf D rf w wup).w, c⟩
      else if D.bf_anticol ((select_sf D rf w wup).atqa.getD 0 0)
          ((select_sf D rf w wup).atqa.getD 1 0) = 0 then
        ⟨Res.ret (-1), { locals_init with atqa := (select_sf D rf w wup).atqa,
                                          state := ISO14443A_STATE_NO_BITFRAME_ANTICOL },
          (select_sf D rf w wup).w, c⟩
      else cascade D rf fuel (locals_cl1 D (select_sf D rf w wup).atqa) (select_sf D rf w wup).w c := by
  unfold _iso14443a_select select_sf locals_cl1
  by_cases hw : wup = 0
  · subst hw; rfl
  · simp only [ne_eq, hw, not_false_eq_true, if_true]; rfl

theorem collision_loop_none (D : Decls) (rf : Rf σ) (fuel : Nat) (w : World σ) (c : RandCtx)
    (acf : iso14443a_anticol_cmd) :
    collision_loop D rf fuel w c acf ISO14443A_BITOFCOL_NONE =
      (⟨Res.ret 1, w, acf, ISO14443A_BITOFCOL_NONE⟩, c) := by
  cases fuel <;> simp [collision_loop]

theorem code_nvb_16 (nvb : Nat) : (iso14443a_code_nvb_bits nvb 16).2 = 0x20 := rfl

theorem code_nvb_56 (nvb : Nat) : (iso14443a_code_nvb_bits nvb (7 * 8)).2 = 0x70 := rfl

theorem select_finish_res (loc : SelectLocals) (w : World σ) (c : RandCtx) :
    (select_finish loc w c).res = Res.ret 1 := by
  unfold select_finish; simp only []; split <;> rfl

theorem select_finish_uid (loc : SelectLocals) (w : World σ) (c : RandCtx) :
    (select_finish loc w c).loc.uid = loc.uid := by
  unfold select_finish; simp only []; split <;> rfl

theorem select_finish_sak (loc : SelectLocals) (w : World σ) (c : RandCtx) :
    (select_finish loc w c).loc.sak = loc.sak := by
  unfold select_finish; simp only []; split <;> rfl

theorem select_finish_uid_len (loc : SelectLocals) (w : World σ) (c : RandCtx) :
    (select_finish loc w c).loc.uid_len =
      if loc.level = ISO14443A_LEVEL_CL1 then 4
      else if loc.level = ISO14443A_LEVEL_CL2 then 7 else 10 := by
  unfold select_finish; simp only []; split <;> rfl

theorem select_finish_proto (loc : SelectLocals) (w : World σ) (c : RandCtx) :
    (select_finish loc w c).loc.proto_supported =
      if loc.sak.getD 0 0 &&& 0x20 ≠ 0 then 1 <<< RFID_PROTOCOL_TCL
      else (1 <<< RFID_PROTOCOL_MIFARE_UL) ||| (1 <<< RFID_PROTOCOL_MIFARE_CLASSIC) := by
  unfold select_finish; simp only []; split <;> rfl

/-- C3: single-level selection.  When the short frame succeeds with an ATQA
whose bit-frame-anticollision field is set, the 16-bit probe at CL1 is
answered by five bytes `r0..r4` with no collision flagged, and the full select
succeeds with a SAK whose cascade bit is clear, `_iso14443a_select` returns 1
with `uid_len = 4` and the UID `[r0, r1, r2, r3]`. -/
theorem select_single_level (D : Decls) (rf : Rf σ) (w : World σ) (c : RandCtx) (wup : Int)
    (fuel : Nat) (r0 r1 r2 r3 r4 : Nat) (hcl1 : D.ISO14443A_AC_SEL_CODE_CL1 < 256) :
    let sf := select_sf D rf w wup
    let m := _clrc632_set_rf_mode rf sf.w ⟨0, 0, D.RF_PARITY_ENABLE⟩
    let t := _clrc632_transceive rf m.1 FrameKind.acf [D.ISO14443A_AC_SEL_CODE_CL1, 0x20] 2 64 0x32 0
    let e := _clrc632_get_error rf t.1
    let s := _iso14443ab_transceive D rf e.1 RFID_14443A_FRAME_REGULAR
      [D.ISO14443A_AC_SEL_CODE_CL1, 0x70, r0, r1, r2, r3, r4] 7 3 TIMEOUT 0
    sf.ret ≠ 0 → D.bf_anticol (sf.atqa.getD 0 0) (sf.atqa.getD 1 0) ≠ 0 →
    m.2 = true → t.2.ok = true → t.2.rx_len % 256 = 5 →
    (List.range 5).map (rx_byte t.2.rx_buf) = [r0, r1, r2, r3, r4] →
    e.2.1 = true → e.2.2 &&& D.RF_ERR_COLLISION = 0 →
    s.ret ≠ 0 → s.rx_buf.getD 0 0 &&& 0x04 = 0 →
    (_iso14443a_select D rf (fuel + 1) w c wup).res = Res.ret 1 ∧
      (_iso14443a_select D rf (fuel + 1) w c wup).loc.uid_len = 4 ∧
      (_iso14443a_select D rf (fuel + 1) w c wup).loc.uid.take 4 = [r0, r1, r2, r3] := by
  intro sf m t e s hsf hbf hm ht hlen hrx he hnc hs hsak
  have hmod : D.ISO14443A_AC_SEL_CODE_CL1 % 256 = D.ISO14443A_AC_SEL_CODE_CL1 :=
    Nat.mod_eq_of_lt hcl1
  have hacf : _iso14443a_transceive_acf D rf sf.w ⟨D.ISO14443A_AC_SEL_CODE_CL1, 0x20, [0, 0, 0, 0, 0]⟩
      = ⟨Res.ret 1, e.1, ⟨D.ISO14443A_AC_SEL_CODE_CL1, 0x20, [r0, r1, r2, r3, r4]⟩,
          ISO14443A_BITOFCOL_NONE⟩ := by
    have h1 : nvb_tx_bytes 0x20 = 2 := rfl
    have h2 : nvb_tx_last_bits 0x20 = 0 := rfl
    simp only [_iso14443a_transceive_acf, h1, h2]
    simp only [ne_eq, not_true_eq_false, if_false]
    have hm' : (_clrc632_set_rf_mode rf sf.w ⟨0, 0, D.RF_PARITY_ENABLE⟩).2 = true := hm
    simp only [hm', Bool.not_true, Bool.false_eq_true, if_false]
    have h7 : ¬ (7 < 2) := by decide
    simp only [h7, if_false, acf_bytes, List.take]
    have ht' : (_clrc632_transceive rf
        (_clrc632_set_rf_mode rf sf.w ⟨0, 0, D.RF_PARITY_ENABLE⟩).1 FrameKind.acf
        [D.ISO14443A_AC_SEL_CODE_CL1, 0x20] 2 64 0x32 0).2.ok = true := ht
    simp only [ht', Bool.not_true, Bool.false_eq_true, if_false]
    have hlen' : (_clrc632_transceive rf
        (_clrc632_set_rf_mode rf sf.w ⟨0, 0, D.RF_PARITY_ENABLE⟩).1 FrameKind.acf
        [D.ISO14443A_AC_SEL_CODE_CL1, 0x20] 2 64 0x32 0).2.rx_len % 256 = 5 := hlen
    rw [hlen', merge_probe]
    have hrx' : (List.range 5).map (rx_byte (_clrc632_transceive rf
        (_clrc632_set_rf_mode rf sf.w ⟨0, 0, D.RF_PARITY_ENABLE⟩).1 FrameKind.acf
        [D.ISO14443A_AC_SEL_CODE_CL1, 0x20] 2 64 0x32 0).2.rx_buf) = [r0, r1, r2, r3, r4] := hrx
    rw [hrx']
    simp only [acf_collision]
    have he' : (_clrc632_get_error rf (_clrc632_transceive rf
        (_clrc632_set_rf_mode rf sf.w ⟨0, 0, D.RF_PARITY_ENABLE⟩).1 FrameKind.acf
        [D.ISO14443A_AC_SEL_CODE_CL1, 0x20] 2 64 0x32 0).1).2.1 = true := he
    have hnc' : (_clrc632_get_error rf (_clrc632_transceive rf
        (_clrc632_set_rf_mode rf sf.w ⟨0, 0, D.RF_PARITY_ENABLE⟩).1 FrameKind.acf
        [D.ISO14443A_AC_SEL_CODE_CL1, 0x20] 2 64 0x32 0).1).2.2 &&& D.RF_ERR_COLLISION = 0 := hnc
    simp only [he', hnc', Bool.not_true, Bool.false_eq_true, if_false, ne_eq, not_true_eq_false]
  have hph : anticol_phase D rf fuel sf.w c ⟨D.ISO14443A_AC_SEL_CODE_CL1, 0, [0, 0, 0, 0, 0]⟩
      = (⟨Res.ret 1, e.1, ⟨D.ISO14443A_AC_SEL_CODE_CL1, 0x20, [r0, r1, r2, r3, r4]⟩,
          ISO14443A_BITOFCOL_NONE⟩, c) := by
    simp only [anticol_phase, code_nvb_16, hacf]
    simp [collision_loop_none]
  have hsp : select_phase D rf e.1 ⟨D.ISO14443A_AC_SEL_CODE_CL1, 0x20, [r0, r1, r2, r3, r4]⟩ 3
      = (s, ⟨D.ISO14443A_AC_SEL_CODE_CL1, 0x70, [r0, r1, r2, r3, r4]⟩) := by
    simp only [select_phase, code_nvb_56, acf_bytes]
  have hs' : ¬ s.ret = 0 := hs
  have hrun : _iso14443a_select D rf (fuel + 1) w c wup =
      select_finish
        { locals_cl1 D sf.atqa with
            rx_len := s.rx_len
            acf := ⟨D.ISO14443A_AC_SEL_CODE_CL1, 0x70, [r0, r1, r2, r3, r4]⟩
            bit_of_col := ISO14443A_BITOFCOL_NONE
            sak := s.rx_buf
            uid := [r0, r1, r2, r3, 0, 0, 0, 0, 0, 0] } s.w c := by
    rw [select_unfold, if_neg hsf, if_neg hbf, cascade]
    simp only [locals_cl1, acf_zero, hmod, hph, hsp]
    have hsak' := hsak
    simp only [List.getD_eq_getElem?_getD] at hsak'
    simp [hs', hsak', uid_copy, locals_init]
  rw [hrun]
  rw [select_finish_res, select_finish_uid, select_finish_uid_len]
  simp [locals_cl1, locals_init]

theorem select_single_level_witness :
    (_iso14443a_select decls_iso
        (script_rf [answer [0x44, 0], answer [0xDE, 0xAD, 0xBE, 0xEF, 0x22], answer [0x00]])
        1 world0 randctx_init 0).res = Res.ret 1 ∧
      (_iso14443a_select decls_iso
        (script_rf [answer [0x44, 0], answer [0xDE, 0xAD, 0xBE, 0xEF, 0x22], answer [0x00]])
        1 world0 randctx_init 0).loc.uid_len = 4 ∧
      (_iso14443a_select decls_iso
        (script_rf [answer [0x44, 0], answer [0xDE, 0xAD, 0xBE, 0xEF, 0x22], answer [0x00]])
        1 world0 randctx_init 0).loc.uid.take 4 = [0xDE, 0xAD, 0xBE, 0xEF] :=
  select_single_level decls_iso
    (script_rf [answer [0x44, 0], answer [0xDE, 0xAD, 0xBE, 0xEF, 0x22], answer [0x00]])
    world0 randctx_init 0 0 0xDE 0xAD 0xBE 0xEF 0x22 (by decide)
    (by decide) (by decide) (by decide) (by decide) (by decide) (by decide) (by decide)
    (by decide) (by decide) (by decide)

/-! ### Frame invariants -/

theorem acf_store_keeps {acf acf1 : iso14443a_anticol_cmd} {off v : Nat} (hoff : 2 ≤ off)
    (h : acf_store acf off v = some acf1) :
    acf1.sel_code = acf.sel_code ∧ acf1.nvb = acf.nvb := by
  match off, hoff with
  | j + 2, _ =>
    unfold acf_store at h
    by_cases hj : j < 5
    · simp only [hj, if_true, Option.some.injEq] at h
      subst h
      exact ⟨rfl, rfl⟩
    · simp [hj] at h

theorem acf_memcpy_keeps (written : List Nat) (count : Nat) :
    ∀ (acf acf1 : iso14443a_anticol_cmd) (off src : Nat), 2 ≤ off →
      acf_memcpy acf off written src count = some acf1 →
      acf1.sel_code = acf.sel_code ∧ acf1.nvb = acf.nvb := by
  induction count with
  | zero =>
    intro acf acf1 off src _ h
    simp only [acf_memcpy, Option.some.injEq] at h
    subst h
    exact ⟨rfl, rfl⟩
  | succ n ih =>
    intro acf acf1 off src hoff h
    unfold acf_memcpy at h
    cases hst : acf_store acf off (rx_byte written src) with
    | none => simp [hst] at h
    | some a =>
      simp only [hst] at h
      have h1 := acf_store_keeps hoff hst
      have h2 := ih a acf1 (off + 1) (src + 1) (by omega) h
      exact ⟨h2.1.trans h1.1, h2.2.trans h1.2⟩

theorem acf_merge_keeps {acf acf1 : iso14443a_anticol_cmd} {rx : List Nat} {n : Nat}
    (hn : 2 ≤ nvb_tx_bytes acf.nvb) (h : acf_merge acf rx n = some acf1) :
    acf1.sel_code = acf.sel_code ∧ acf1.nvb = acf.nvb := by
  simp only [acf_merge] at h
  by_cases hz : n = 0
  · simp only [hz, ne_eq, not_true_eq_false, if_false] at h
    split at h
    · exact absurd h (by simp)
    · split at h
      · exact absurd h (by simp)
      · rename_i a hst
        simp only [Option.some.injEq] at h
        subst h
        exact acf_store_keeps hn hst
  · simp only [ne_eq, hz, not_false_eq_true, if_true] at h
    split at h
    · exact absurd h (by simp)
    · split at h
      · exact absurd h (by simp)
      · rename_i a hst
        have h1 := acf_store_keeps hn hst
        have h2 := acf_memcpy_keeps rx (n - 1) a acf1 _ 1 (by omega) h
        exact ⟨h2.1.trans h1.1, h2.2.trans h1.2⟩

theorem acf_collision_acf (D : Decls) (rf : Rf σ) (w : World σ) (acf : iso14443a_anticol_cmd) :
    (acf_collision D rf w acf).acf = acf := by
  unfold acf_collision
  simp only []
  split_ifs <;> rfl

theorem transceive_acf_keeps (D : Decls) (rf : Rf σ) (w : World σ) (acf : iso14443a_anticol_cmd)
    (hn : 2 ≤ nvb_tx_bytes acf.nvb) :
    (_iso14443a_transceive_acf D rf w acf).acf.sel_code = acf.sel_code ∧
      (_iso14443a_transceive_acf D rf w acf).acf.nvb = acf.nvb := by
  unfold _iso14443a_transceive_acf
  simp only []
  split_ifs
  all_goals first
    | exact ⟨rfl, rfl⟩
    | (split
       · exact ⟨rfl, rfl⟩
       · rename_i a hmerge
         rw [acf_collision_acf]
         exact acf_merge_keeps hn hmerge)

theorem code_nvb_bits_ok (nvb b : Nat) (hn : 2 ≤ nvb_tx_bytes nvb) :
    2 ≤ nvb_tx_bytes (iso14443a_code_nvb_bits nvb b).2 := by
  unfold iso14443a_code_nvb_bits
  simp only []
  by_cases h : b / 8 < 2 ∨ b / 8 > 7
  · simp only [h, if_true]; exact hn
  · simp only [h, if_false]
    have hm : b % 8 < 8 := Nat.mod_lt _ (by decide)
    have h2 : 2 ≤ b / 8 := by omega
    have h7 : b / 8 ≤ 7 := by omega
    generalize b / 8 = k at *
    generalize b % 8 = m at *
    interval_cases k <;> interval_cases m <;> decide

theorem collision_loop_keeps (D : Decls) (rf : Rf σ) (fuel : Nat) :
    ∀ (w : World σ) (c : RandCtx) (acf : iso14443a_anticol_cmd) (boc : Nat),
      2 ≤ nvb_tx_bytes acf.nvb →
      (collision_loop D rf fuel w c acf boc).1.acf.sel_code = acf.sel_code ∧
        2 ≤ nvb_tx_bytes (collision_loop D rf fuel w c acf boc).1.acf.nvb := by
  induction fuel with
  | zero =>
    intro w c acf boc hn
    unfold collision_loop
    split_ifs <;> exact ⟨rfl, hn⟩
  | succ n ih =>
    intro w c acf boc hn
    unfold collision_loop
    by_cases hb : boc ≠ ISO14443A_BITOFCOL_NONE
    · rw [if_pos hb]
      simp only []
      have hn1 := code_nvb_bits_ok acf.nvb boc hn
      have hk := transceive_acf_keeps D rf w
        { acf with nvb := (iso14443a_code_nvb_bits acf.nvb boc).2,
                   uid_bits := (rnd_toggle_bit_in_field D acf.uid_bits 5 boc c).1 } hn1
      split
      · split_ifs
        · exact ⟨hk.1, by rw [hk.2]; exact hn1⟩
        · have hi := ih (_iso14443a_transceive_acf D rf w
              { acf with nvb := (iso14443a_code_nvb_bits acf.nvb boc).2,
                         uid_bits := (rnd_toggle_bit_in_field D acf.uid_bits 5 boc c).1 }).w
            (rnd_toggle_bit_in_field D acf.uid_bits 5 boc c).2
            (_iso14443a_transceive_acf D rf w
              { acf with nvb := (iso14443a_code_nvb_bits acf.nvb boc).2,
                         uid_bits := (rnd_toggle_bit_in_field D acf.uid_bits 5 boc c).1 }).acf
            (_iso14443a_transceive_acf D rf w
              { acf with nvb := (iso14443a_code_nvb_bits acf.nvb boc).2,
                         uid_bits := (rnd_toggle_bit_in_field D acf.uid_bits 5 boc c).1 }).bit_of_col
            (by rw [hk.2]; exact hn1)
          exact ⟨hi.1.trans hk.1, hi.2⟩
      · exact ⟨hk.1, by rw [hk.2]; exact hn1⟩
    · rw [if_neg hb]
      exact ⟨rfl, hn⟩

theorem anticol_phase_keeps (D : Decls) (rf : Rf σ) (fuel : Nat) (w : World σ) (c : RandCtx)
    (acf : iso14443a_anticol_cmd) :
    (anticol_phase D rf fuel w c acf).1.acf.sel_code = acf.sel_code ∧
      2 ≤ nvb_tx_bytes (anticol_phase D rf fuel w c acf).1.acf.nvb := by
  unfold anticol_phase
  simp only [code_nvb_16]
  have h20 : 2 ≤ nvb_tx_bytes 0x20 := by decide
  have hk := transceive_acf_keeps D rf w { acf with nvb := 0x20 } h20
  split
  · split_ifs
    · exact ⟨hk.1, by rw [hk.2]; exact h20⟩
    · have hi := collision_loop_keeps D rf fuel
        (_iso14443a_transceive_acf D rf w { acf with nvb := 0x20 }).w c
        (_iso14443a_transceive_acf D rf w { acf with nvb := 0x20 }).acf
        (_iso14443a_transceive_acf D rf w { acf with nvb := 0x20 }).bit_of_col
        (by rw [hk.2]; exact h20)
      exact ⟨hi.1.trans hk.1, hi.2⟩
  · exact ⟨hk.1, by rw [hk.2]; exact h20⟩

/-! ### One cascade level -/

theorem level_select_acf (D : Decls) (rf : Rf σ) (fuel : Nat) (loc : SelectLocals) (w : World σ)
    (c : RandCtx) :
    (level_select D rf fuel loc w c).2 =
      { (level_anticol D rf fuel loc w c).1.acf with nvb := 0x70 } := rfl

theorem level_locals_sel_code (D : Decls) (rf : Rf σ) (fuel : Nat) (loc : SelectLocals)
    (w : World σ) (c : RandCtx) :
    (level_locals D rf fuel loc w c).acf.sel_code = loc.acf.sel_code :=
  (anticol_phase_keeps D rf fuel w c loc.acf).1

/-- The terminal level: the select succeeds and the SAK has no cascade bit. -/
theorem cascade_terminal (D : Decls) (rf : Rf σ) (fuel : Nat) (loc : SelectLocals)
    (w : World σ) (c : RandCtx)
    (hp : (level_anticol D rf fuel loc w c).1.res = Res.ret 1)
    (hs : (level_select D rf fuel loc w c).1.ret ≠ 0)
    (hsak : (level_select D rf fuel loc w c).1.rx_buf.getD 0 0 &&& 0x04 = 0) :
    cascade D rf (fuel + 1) loc w c =
      select_finish
        { level_locals D rf fuel loc w c with
            uid :=
              if loc.acf.sel_code = D.ISO14443A_AC_SEL_CODE_CL1 then
                uid_copy loc.uid 0 (level_anticol D rf fuel loc w c).1.acf.uid_bits 0 4
              else if loc.acf.sel_code = D.ISO14443A_AC_SEL_CODE_CL2 then
                uid_copy loc.uid 3 (level_anticol D rf fuel loc w c).1.acf.uid_bits 0 4
              else if loc.acf.sel_code = D.ISO14443A_AC_SEL_CODE_CL3 then
                uid_copy loc.uid 6 (level_anticol D rf fuel loc w c).1.acf.uid_bits 0 4
              else loc.uid }
        (level_select D rf fuel loc w c).1.w (level_anticol D rf fuel loc w c).2 := by
  have hk := (anticol_phase_keeps D rf fuel w c loc.acf).1
  simp only [level_anticol, level_select, level_locals] at hp hs hsak ⊢
  rw [cascade]
  simp only [hp, one_ne_zero, if_false, hs, hsak, ne_eq, not_true_eq_false]
  simp only [select_phase, hk]

/-- The select exchange fails. -/
theorem cascade_select_fails (D : Decls) (rf : Rf σ) (fuel : Nat) (loc : SelectLocals)
    (w : World σ) (c : RandCtx)
    (hp : (level_anticol D rf fuel loc w c).1.res = Res.ret 1)
    (hs : (level_select D rf fuel loc w c).1.ret = 0) :
    cascade D rf (fuel + 1) loc w c =
      ⟨Res.ret 0, level_locals D rf fuel loc w c, (level_select D rf fuel loc w c).1.w,
        (level_anticol D rf fuel loc w c).2⟩ := by
  simp only [level_anticol, level_select, level_locals] at hp hs ⊢
  rw [cascade]
  simp only [hp, one_ne_zero, if_false, hs, if_true]

/-- Cascading from CL1 to CL2. -/
theorem cascade_cl1_next (D : Decls) (rf : Rf σ) (fuel : Nat) (loc : SelectLocals)
    (w : World σ) (c : RandCtx)
    (hsel : loc.acf.sel_code = D.ISO14443A_AC_SEL_CODE_CL1)
    (hp : (level_anticol D rf fuel loc w c).1.res = Res.ret 1)
    (hs : (level_select D rf fuel loc w c).1.ret ≠ 0)
    (hsak : (level_select D rf fuel loc w c).1.rx_buf.getD 0 0 &&& 0x04 ≠ 0)
    (h88 : (level_anticol D rf fuel loc w c).1.acf.uid_bits.getD 0 0 = 0x88) :
    cascade D rf (fuel + 1) loc w c =
      cascade D rf fuel
        { level_locals D rf fuel loc w c with
            uid := uid_copy loc.uid 0 (level_anticol D rf fuel loc w c).1.acf.uid_bits 1 3
            acf := { (level_select D rf fuel loc w c).2 with
                       sel_code := D.ISO14443A_AC_SEL_CODE_CL2 % 256 }
            level := ISO14443A_LEVEL_CL2 }
        (level_select D rf fuel loc w c).1.w (level_anticol D rf fuel loc w c).2 := by
  have hk := (anticol_phase_keeps D rf fuel w c loc.acf).1
  simp only [level_anticol, level_select, level_locals] at hp hs hsak h88 ⊢
  rw [cascade]
  simp only [hp, one_ne_zero, if_false, hs, hsak, ne_eq, not_false_eq_true, if_true]
  simp only [select_phase, hk, hsel, h88, not_true_eq_false, if_false, if_true]

/-- The cascade bit is set at CL1 but the first UID byte is not the cascade tag. -/
theorem cascade_cl1_bad_tag (D : Decls) (rf : Rf σ) (fuel : Nat) (loc : SelectLocals)
    (w : World σ) (c : RandCtx)
    (hsel : loc.acf.sel_code = D.ISO14443A_AC_SEL_CODE_CL1)
    (hp : (level_anticol D rf fuel loc w c).1.res = Res.ret 1)
    (hs : (level_select D rf fuel loc w c).1.ret ≠ 0)
    (hsak : (level_select D rf fuel loc w c).1.rx_buf.getD 0 0 &&& 0x04 ≠ 0)
    (h88 : (level_anticol D rf fuel loc w c).1.acf.uid_bits.getD 0 0 ≠ 0x88) :
    cascade D rf (fuel + 1) loc w c =
      ⟨Res.ret 0, level_locals D rf fuel loc w c, (level_select D rf fuel loc w c).1.w,
        (level_anticol D rf fuel loc w c).2⟩ := by
  have hk := (anticol_phase_keeps D rf fuel w c loc.acf).1
  simp only [level_anticol, level_select, level_locals] at hp hs hsak h88 ⊢
  rw [cascade]
  simp only [hp, one_ne_zero, if_false, hs, hsak, ne_eq, not_false_eq_true, if_true]
  simp only [select_phase, hk, hsel, h88, ne_eq, not_false_eq_true, if_true]

/-- Cascading from CL2 to CL3. -/
theorem cascade_cl2_next (D : Decls) (rf : Rf σ) (fuel : Nat) (loc : SelectLocals)
    (w : World σ) (c : RandCtx)
    (hsel : loc.acf.sel_code = D.ISO14443A_AC_SEL_CODE_CL2)
    (hne : D.ISO14443A_AC_SEL_CODE_CL1 ≠ D.ISO14443A_AC_SEL_CODE_CL2)
    (hp : (level_anticol D rf fuel loc w c).1.res = Res.ret 1)
    (hs : (level_select D rf fuel loc w c).1.ret ≠ 0)
    (hsak : (level_select D rf fuel loc w c).1.rx_buf.getD 0 0 &&& 0x04 ≠ 0) :
    cascade D rf (fuel + 1) loc w c =
      cascade D rf fuel
        { level_locals D rf fuel loc w c with
            uid := uid_copy loc.uid 3 (level_anticol D rf fuel loc w c).1.acf.uid_bits 1 3
            acf := { (level_select D rf fuel loc w c).2 with
                       sel_code := D.ISO14443A_AC_SEL_CODE_CL3 % 256 }
            level := ISO14443A_LEVEL_CL3 }
        (level_select D rf fuel loc w c).1.w (level_anticol D rf fuel loc w c).2 := by
  have hk := (anticol_phase_keeps D rf fuel w c loc.acf).1
  simp only [level_anticol, level_select, level_locals] at hp hs hsak ⊢
  rw [cascade]
  simp only [hp, one_ne_zero, if_false, hs, hsak, ne_eq, not_false_eq_true, if_true]
  simp only [select_phase, hk, hsel, hne.symm, if_false, if_true]

/-- The cascade bit is set at a level that is neither CL1 nor CL2. -/
theorem cascade_too_deep (D : Decls) (rf : Rf σ) (fuel : Nat) (loc : SelectLocals)
    (w : World σ) (c : RandCtx)
    (h1 : loc.acf.sel_code ≠ D.ISO14443A_AC_SEL_CODE_CL1)
    (h2 : loc.acf.sel_code ≠ D.ISO14443A_AC_SEL_CODE_CL2)
    (hp : (level_anticol D rf fuel loc w c).1.res = Res.ret 1)
    (hs : (level_select D rf fuel loc w c).1.ret ≠ 0)
    (hsak : (level_select D rf fuel loc w c).1.rx_buf.getD 0 0 &&& 0x04 ≠ 0) :
    cascade D rf (fuel + 1) loc w c =
      ⟨Res.ret 0, { level_locals D rf fuel loc w c with state := ISO14443A_STATE_ERROR },
        (level_select D rf fuel loc w c).1.w, (level_anticol D rf fuel loc w c).2⟩ := by
  have hk := (anticol_phase_keeps D rf fuel w c loc.acf).1
  simp only [level_anticol, level_select, level_locals] at hp hs hsak ⊢
  rw [cascade]
  simp only [hp, one_ne_zero, if_false, hs, hsak, ne_eq, not_false_eq_true, if_true]
  simp only [select_phase, hk, h1, h2, if_false]

theorem select_finish_acf (loc : SelectLocals) (w : World σ) (c : RandCtx) :
    (select_finish loc w c).loc.acf = loc.acf := by
  unfold select_finish; simp only []; split <;> rfl

/-- Two-level selection at the fuel at which both anti-collision parts end. -/
theorem two_level_exact (D : Decls) (rf : Rf σ) (w : World σ) (c : RandCtx) (wup : Int)
    (fuel : Nat) (a b c' d e f g : Nat) (hD : D.sel_codes_ok) :
    let sf := select_sf D rf w wup
    let p1 := anticol_phase D rf (fuel + 1) sf.w c ⟨D.ISO14443A_AC_SEL_CODE_CL1, 0, [0, 0, 0, 0, 0]⟩
    let s1 := select_phase D rf p1.1.w p1.1.acf 3
    let p2 := anticol_phase D rf fuel s1.1.w p1.2
      ⟨D.ISO14443A_AC_SEL_CODE_CL2, 0x70, p1.1.acf.uid_bits⟩
    let s2 := select_phase D rf p2.1.w p2.1.acf 3
    sf.ret ≠ 0 → D.bf_anticol (sf.atqa.getD 0 0) (sf.atqa.getD 1 0) ≠ 0 →
    p1.1.res = Res.ret 1 → p1.1.acf.uid_bits.take 4 = [0x88, a, b, c'] →
    s1.1.ret ≠ 0 → s1.1.rx_buf.getD 0 0 &&& 0x04 ≠ 0 →
    p2.1.res = Res.ret 1 → p2.1.acf.uid_bits.take 4 = [d, e, f, g] →
    s2.1.ret ≠ 0 → s2.1.rx_buf.getD 0 0 &&& 0x04 = 0 →
    (_iso14443a_select D rf (fuel + 2) w c wup).res = Res.ret 1 ∧
      (_iso14443a_select D rf (fuel + 2) w c wup).loc.acf.sel_code
        = D.ISO14443A_AC_SEL_CODE_CL2 ∧
      (_iso14443a_select D rf (fuel + 2) w c wup).loc.uid_len = 7 ∧
      ((_iso14443a_select D rf (fuel + 2) w c wup).loc.uid.drop 3).take 4 = [d, e, f, g] ∧
      (_iso14443a_select D rf (fuel + 2) w c wup).loc.uid.take 7 = [a, b, c', d, e, f, g] := by
  intro sf p1 s1 p2 s2 hsf hbf hp1 hu1 hs1 hk1 hp2 hu2 hs2 hk2
  obtain ⟨h12, h13, h23, hl1, hl2, hl3⟩ := hD
  have hm1 : D.ISO14443A_AC_SEL_CODE_CL1 % 256 = D.ISO14443A_AC_SEL_CODE_CL1 :=
    Nat.mod_eq_of_lt hl1
  have hm2 : D.ISO14443A_AC_SEL_CODE_CL2 % 256 = D.ISO14443A_AC_SEL_CODE_CL2 :=
    Nat.mod_eq_of_lt hl2
  obtain ⟨g0, g1, g2, g3⟩ := take4_getD hu1
  obtain ⟨k0, k1, k2, k3⟩ := take4_getD hu2
  -- level CL1
  have ea1 : level_anticol D rf (fuel + 1) (locals_cl1 D sf.atqa) sf.w c = p1 := by
    simp only [level_anticol, locals_cl1, acf_zero, hm1, p1]
  have es1 : level_select D rf (fuel + 1) (locals_cl1 D sf.atqa) sf.w c = s1 := by
    simp only [level_select, ea1, s1]
  have step1 := cascade_cl1_next D rf (fuel + 1) (locals_cl1 D sf.atqa) sf.w c
    (by simp only [locals_cl1, hm1]) (by rw [ea1]; exact hp1) (by rw [es1]; exact hs1)
    (by rw [es1]; exact hk1) (by rw [ea1]; exact g0)
  simp only [level_locals, ea1, es1] at step1
  -- level CL2
  have hacf2 : ({ s1.2 with sel_code := D.ISO14443A_AC_SEL_CODE_CL2 % 256 } :
      iso14443a_anticol_cmd) = ⟨D.ISO14443A_AC_SEL_CODE_CL2, 0x70, p1.1.acf.uid_bits⟩ := by
    simp only [s1, select_phase, code_nvb_56, hm2]
  rw [hacf2] at step1
  have ea2 : ∀ l : SelectLocals,
      l.acf = ⟨D.ISO14443A_AC_SEL_CODE_CL2, 0x70, p1.1.acf.uid_bits⟩ →
      level_anticol D rf fuel l s1.1.w p1.2 = p2 := by
    intro l hl
    simp only [level_anticol, hl, p2]
  have es2 : ∀ l : SelectLocals,
      l.acf = ⟨D.ISO14443A_AC_SEL_CODE_CL2, 0x70, p1.1.acf.uid_bits⟩ →
      level_select D rf fuel l s1.1.w p1.2 = s2 := by
    intro l hl
    simp only [level_select, ea2 l hl, s2]
  let l2 : SelectLocals :=
    { locals_cl1 D sf.atqa with
        level := ISO14443A_LEVEL_CL2
        acf := ⟨D.ISO14443A_AC_SEL_CODE_CL2, 0x70, p1.1.acf.uid_bits⟩
        bit_of_col := p1.1.bit_of_col
        sak := s1.1.rx_buf
        rx_len := s1.1.rx_len
        uid := uid_copy (locals_cl1 D sf.atqa).uid 0 p1.1.acf.uid_bits 1 3 }
  have step1' : cascade D rf (fuel + 1 + 1) (locals_cl1 D sf.atqa) sf.w c =
      cascade D rf (fuel + 1) l2 s1.1.w p1.2 := step1
  have step2 := cascade_terminal D rf fuel l2 s1.1.w p1.2
    (by rw [ea2 l2 rfl]; exact hp2) (by rw [es2 l2 rfl]; exact hs2)
    (by rw [es2 l2 rfl]; exact hk2)
  have hrun : _iso14443a_select D rf (fuel + 2) w c wup = _ :=
    (select_unfold D rf (fuel + 2) w c wup).trans
      ((if_neg hsf).trans ((if_neg hbf).trans (step1'.trans step2)))
  rw [hrun, select_finish_res, select_finish_uid, select_finish_uid_len]
  simp only [level_locals, ea2 l2 rfl, es2 l2 rfl]
  have hsel2 : l2.acf.sel_code = D.ISO14443A_AC_SEL_CODE_CL2 := rfl
  have hlev2 : l2.level = ISO14443A_LEVEL_CL2 := rfl
  have huid2 : l2.uid = [a, b, c', 0, 0, 0, 0, 0, 0, 0] := by
    simp only [l2, locals_cl1, locals_init, uid_copy, g1, g2, g3, List.replicate, List.set]
  simp only [hsel2, hlev2, huid2, h12.symm, if_false, if_true, uid_copy, k0, k1, k2, k3,
    List.set, select_phase]
  have hsc : p2.1.acf.sel_code = D.ISO14443A_AC_SEL_CODE_CL2 :=
    (anticol_phase_keeps D rf fuel s1.1.w p1.2
      ⟨D.ISO14443A_AC_SEL_CODE_CL2, 0x70, p1.1.acf.uid_bits⟩).1
  rw [select_finish_acf]
  simp only [List.getD_eq_getElem?_getD] at g1 g2 g3
  simp [s2, select_phase, hsc, g1, g2, g3]

/-! ### The log -/

theorem frames_append (k : FrameKind) (l1 l2 : List RfCall) :
    frames k (l1 ++ l2) = frames k l1 ++ frames k l2 := by
  simp [frames, List.filterMap_append]

theorem frames_set_rf_mode (k : FrameKind) (rf : Rf σ) (w : World σ) (m : rf_mode) :
    frames k (_clrc632_set_rf_mode rf w m).1.log = frames k w.log := by
  simp [_clrc632_set_rf_mode, frames_append, frames, frame_of]

theorem frames_get_error (k : FrameKind) (rf : Rf σ) (w : World σ) :
    frames k (_clrc632_get_error rf w).1.log = frames k w.log := by
  simp [_clrc632_get_error, frames_append, frames, frame_of]

theorem frames_get_coll_pos (k : FrameKind) (rf : Rf σ) (w : World σ) :
    frames k (_clrc632_get_coll_pos rf w).1.log = frames k w.log := by
  simp [_clrc632_get_coll_pos, frames_append, frames, frame_of]

theorem frames_transceive (k k1 : FrameKind) (rf : Rf σ) (w : World σ) (tx : List Nat)
    (a b c d : Nat) :
    frames k (_clrc632_transceive rf w k1 tx a b c d).1.log =
      frames k w.log ++ (if k1 = k then [tx] else []) := by
  by_cases h : k1 = k <;> simp [_clrc632_transceive, frames_append, frames, frame_of, h]

theorem frames_single (k k1 : FrameKind) (tx : List Nat) (a b c d : Nat) :
    frames k [RfCall.transceive k1 tx a b c d] = if k1 = k then [tx] else [] := by
  by_cases h : k1 = k <;> simp [frames, frame_of, h]

theorem frames_acf_collision (k : FrameKind) (D : Decls) (rf : Rf σ) (w : World σ)
    (acf : iso14443a_anticol_cmd) :
    frames k (acf_collision D rf w acf).w.log = frames k w.log := by
  unfold acf_collision
  simp only []
  split_ifs <;> simp only [frames_get_error, frames_get_coll_pos]

theorem frames_transceive_acf (D : Decls) (rf : Rf σ) (w : World σ)
    (acf : iso14443a_anticol_cmd) (k : FrameKind) (hk : k ≠ FrameKind.acf) :
    frames k (_iso14443a_transceive_acf D rf w acf).w.log = frames k w.log := by
  have hk' : ¬ FrameKind.acf = k := fun h => hk h.symm
  unfold _iso14443a_transceive_acf
  simp only []
  split_ifs
  all_goals first
    | (simp [frames_append, frames_single, frames_acf_collision, frames_transceive,
        frames_set_rf_mode, hk'])
    | (split <;>
        simp [frames_append, frames_single, frames_acf_collision, frames_transceive,
          frames_set_rf_mode, hk'])

theorem frames_collision_loop (D : Decls) (rf : Rf σ) (k : FrameKind) (hk : k ≠ FrameKind.acf)
    (fuel : Nat) :
    ∀ (w : World σ) (c : RandCtx) (acf : iso14443a_anticol_cmd) (boc : Nat),
      frames k (collision_loop D rf fuel w c acf boc).1.w.log = frames k w.log := by
  induction fuel with
  | zero =>
    intro w c acf boc
    unfold collision_loop
    split_ifs <;> rfl
  | succ n ih =>
    intro w c acf boc
    unfold collision_loop
    by_cases hb : boc ≠ ISO14443A_BITOFCOL_NONE
    · rw [if_pos hb]
      simp only []
      split
      · split_ifs
        · exact frames_transceive_acf D rf w _ k hk
        · rw [ih]
          exact frames_transceive_acf D rf w _ k hk
      · exact frames_transceive_acf D rf w _ k hk
    · rw [if_neg hb]

theorem frames_anticol_phase (D : Decls) (rf : Rf σ) (k : FrameKind) (hk : k ≠ FrameKind.acf)
    (fuel : Nat) (w : World σ) (c : RandCtx) (acf : iso14443a_anticol_cmd) :
    frames k (anticol_phase D rf fuel w c acf).1.w.log = frames k w.log := by
  unfold anticol_phase
  simp only []
  split
  · split_ifs
    · exact frames_transceive_acf D rf w _ k hk
    · rw [frames_collision_loop D rf k hk]
      exact frames_transceive_acf D rf w _ k hk
  · exact frames_transceive_acf D rf w _ k hk

theorem frames_transceive_sf (D : Decls) (rf : Rf σ) (w : World σ) (cmd : Nat)
    (atqa : List Nat) (k : FrameKind) (hk : k ≠ FrameKind.sf) :
    frames k (_iso14443a_transceive_sf D rf w cmd atqa).w.log = frames k w.log := by
  have hk' : ¬ FrameKind.sf = k := fun h => hk h.symm
  unfold _iso14443a_transceive_sf
  simp only []
  split_ifs <;>
    simp [frames_get_coll_pos, frames_get_error, frames_transceive, frames_set_rf_mode, hk']

/-! ### Return values of the anti-collision part -/

theorem acf_collision_res (D : Decls) (rf : Rf σ) (w : World σ) (acf : iso14443a_anticol_cmd) :
    (acf_collision D rf w acf).res = Res.ret 0 ∨ (acf_collision D rf w acf).res = Res.ret 1 := by
  unfold acf_collision
  simp only []
  split_ifs <;> simp

theorem transceive_acf_res (D : Decls) (rf : Rf σ) (w : World σ) (acf : iso14443a_anticol_cmd)
    (v : Int) (h : (_iso14443a_transceive_acf D rf w acf).res = Res.ret v) : v = 0 ∨ v = 1 := by
  unfold _iso14443a_transceive_acf at h
  simp only [] at h
  split_ifs at h
  all_goals first
    | (simp only [Res.ret.injEq] at h; exact Or.inl h.symm)
    | (exact absurd h (by simp))
    | (split at h
       · exact absurd h (by simp)
       · rename_i a _
         rcases acf_collision_res D rf _ a with h0 | h1
         · rw [h0] at h; simp only [Res.ret.injEq] at h; exact Or.inl h.symm
         · rw [h1] at h; simp only [Res.ret.injEq] at h; exact Or.inr h.symm)

theorem collision_loop_res (D : Decls) (rf : Rf σ) (fuel : Nat) :
    ∀ (w : World σ) (c : RandCtx) (acf : iso14443a_anticol_cmd) (boc : Nat) (v : Int),
      (collision_loop D rf fuel w c acf boc).1.res = Res.ret v → v = 0 ∨ v = 1 := by
  induction fuel with
  | zero =>
    intro w c acf boc v h
    unfold collision_loop at h
    by_cases hb : boc ≠ ISO14443A_BITOFCOL_NONE
    · rw [if_pos hb] at h
      exact absurd h (by simp)
    · rw [if_neg hb] at h
      simp only [Res.ret.injEq] at h; exact Or.inr h.symm
  | succ n ih =>
    intro w c acf boc v h
    unfold collision_loop at h
    by_cases hb : boc ≠ ISO14443A_BITOFCOL_NONE
    · rw [if_pos hb] at h
      simp only [] at h
      split at h
      · split_ifs at h
        · simp only [Res.ret.injEq] at h; exact Or.inl h.symm
        · exact ih _ _ _ _ v h
      · rename_i other hne
        simp only at h
        exact absurd h (fun hh => hne v hh)
    · rw [if_neg hb] at h
      simp only [Res.ret.injEq] at h; exact Or.inr h.symm

theorem anticol_phase_res (D : Decls) (rf : Rf σ) (fuel : Nat) (w : World σ) (c : RandCtx)
    (acf : iso14443a_anticol_cmd) (v : Int)
    (h : (anticol_phase D rf fuel w c acf).1.res = Res.ret v) : v = 0 ∨ v = 1 := by
  unfold anticol_phase at h
  simp only [] at h
  split at h
  · split_ifs at h
    · simp only [Res.ret.injEq] at h; exact Or.inl h.symm
    · exact collision_loop_res D rf fuel _ _ _ _ v h
  · rename_i other hne
    simp only at h
    exact absurd h (fun hh => hne v hh)

/-- The anti-collision part of a level ends by `return 0`, outside the frame
or without fuel: nothing more is sent. -/
theorem cascade_anticol_stop (D : Decls) (rf : Rf σ) (fuel : Nat) (loc : SelectLocals)
    (w : World σ) (c : RandCtx)
    (hp : (level_anticol D rf fuel loc w c).1.res ≠ Res.ret 1) :
    (cascade D rf (fuel + 1) loc w c).w = (level_anticol D rf fuel loc w c).1.w ∧
      (cascade D rf (fuel + 1) loc w c).res = (level_anticol D rf fuel loc w c).1.res ∧
      (cascade D rf (fuel + 1) loc w c).loc.sak = loc.sak := by
  simp only [level_anticol] at hp ⊢
  rw [cascade]
  simp only []
  split
  · rename_i v hv
    rcases anticol_phase_res D rf fuel w c loc.acf v hv with h0 | h1
    · subst h0
      simp [hv]
    · subst h1
      exact absurd hv hp
  · rename_i other hne
    exact ⟨rfl, rfl, rfl⟩

theorem select_phase_frames (D : Decls) (rf : Rf σ) (w : World σ) (acf : iso14443a_anticol_cmd)
    (n : Nat) :
    ((select_phase D rf w acf n).1.ret = 0 ∧
        frames FrameKind.regular (select_phase D rf w acf n).1.w.log
          = frames FrameKind.regular w.log) ∨
      frames FrameKind.regular (select_phase D rf w acf n).1.w.log
        = frames FrameKind.regular w.log ++ [acf.sel_code :: 0x70 :: acf.uid_bits] := by
  have hf : frametype_flags D RFID_14443A_FRAME_REGULAR
      = some (D.RF_PARITY_ENABLE ||| D.RF_TX_CRC ||| D.RF_RX_CRC) := by
    simp [frametype_flags]
  simp only [select_phase, _iso14443ab_transceive, hf, code_nvb_56, acf_bytes]
  by_cases hm : (_clrc632_set_rf_mode rf w
      ⟨0, 0, D.RF_PARITY_ENABLE ||| D.RF_TX_CRC ||| D.RF_RX_CRC⟩).2 = true
  · right
    simp [hm, frames_transceive, frames_set_rf_mode]
  · left
    simp [hm, frames_set_rf_mode]

/-! ### Select frames of a run -/

theorem select_finish_w (loc : SelectLocals) (w : World σ) (c : RandCtx) :
    (select_finish loc w c).w = w := by
  unfold select_finish; simp only []; split <;> rfl

theorem select_codes_anticol (D : Decls) (rf : Rf σ) (fuel : Nat) (loc : SelectLocals)
    (w : World σ) (c : RandCtx) :
    select_codes (level_anticol D rf fuel loc w c).1.w.log = select_codes w.log := by
  simp only [select_codes, level_anticol,
    frames_anticol_phase D rf FrameKind.regular (by decide) fuel w c loc.acf]

theorem level_codes (D : Decls) (rf : Rf σ) (fuel : Nat) (loc : SelectLocals) (w : World σ)
    (c : RandCtx) :
    ((level_select D rf fuel loc w c).1.ret = 0 ∧
        select_codes (level_select D rf fuel loc w c).1.w.log = select_codes w.log) ∨
      select_codes (level_select D rf fuel loc w c).1.w.log
        = select_codes w.log ++ [loc.acf.sel_code] := by
  have hk := (anticol_phase_keeps D rf fuel w c loc.acf).1
  have ha := select_codes_anticol D rf fuel loc w c
  simp only [level_anticol] at ha
  simp only [level_select, level_anticol]
  rcases select_phase_frames D rf (anticol_phase D rf fuel w c loc.acf).1.w
    (anticol_phase D rf fuel w c loc.acf).1.acf 3 with ⟨h0, hf⟩ | hf
  · left
    refine ⟨h0, ?_⟩
    rw [← ha]
    simp only [select_codes, hf]
  · right
    rw [← ha, ← hk]
    simp only [select_codes, hf, List.map_append, List.map_cons, List.map_nil, List.headD_cons]

theorem cascade_cl1_step (D : Decls) (rf : Rf σ) (fuel : Nat) (loc : SelectLocals)
    (w : World σ) (c : RandCtx)
    (hsel : loc.acf.sel_code = D.ISO14443A_AC_SEL_CODE_CL1)
    (hp : (level_anticol D rf fuel loc w c).1.res = Res.ret 1)
    (hs : (level_select D rf fuel loc w c).1.ret ≠ 0)
    (hsak : (level_select D rf fuel loc w c).1.rx_buf.getD 0 0 &&& 0x04 ≠ 0)
    (h88 : (level_anticol D rf fuel loc w c).1.acf.uid_bits.getD 0 0 = 0x88) :
    cascade D rf (fuel + 1) loc w c =
      cascade D rf fuel
        (level_next D rf fuel loc w c 0 D.ISO14443A_AC_SEL_CODE_CL2 ISO14443A_LEVEL_CL2)
        (level_select D rf fuel loc w c).1.w (level_anticol D rf fuel loc w c).2 :=
  cascade_cl1_next D rf fuel loc w c hsel hp hs hsak h88

theorem cascade_cl2_step (D : Decls) (rf : Rf σ) (fuel : Nat) (loc : SelectLocals)
    (w : World σ) (c : RandCtx)
    (hsel : loc.acf.sel_code = D.ISO14443A_AC_SEL_CODE_CL2)
    (hne : D.ISO14443A_AC_SEL_CODE_CL1 ≠ D.ISO14443A_AC_SEL_CODE_CL2)
    (hp : (level_anticol D rf fuel loc w c).1.res = Res.ret 1)
    (hs : (level_select D rf fuel loc w c).1.ret ≠ 0)
    (hsak : (level_select D rf fuel loc w c).1.rx_buf.getD 0 0 &&& 0x04 ≠ 0) :
    cascade D rf (fuel + 1) loc w c =
      cascade D rf fuel
        (level_next D rf fuel loc w c 3 D.ISO14443A_AC_SEL_CODE_CL3 ISO14443A_LEVEL_CL3)
        (level_select D rf fuel loc w c).1.w (level_anticol D rf fuel loc w c).2 :=
  cascade_cl2_next D rf fuel loc w c hsel hne hp hs hsak

/-- Runs of the cascade that start at CL3. -/
theorem cascade_codes_cl3 (D : Decls) (rf : Rf σ) (hD : D.sel_codes_ok) (fuel : Nat)
    (loc : SelectLocals) (w : World σ) (c : RandCtx)
    (hsel : loc.acf.sel_code = D.ISO14443A_AC_SEL_CODE_CL3) :
    select_codes (cascade D rf fuel loc w c).w.log = select_codes w.log ∨
      (select_codes (cascade D rf fuel loc w c).w.log
          = select_codes w.log ++ [D.ISO14443A_AC_SEL_CODE_CL3] ∧
        ((cascade D rf fuel loc w c).loc.sak.getD 0 0 &&& 0x04 ≠ 0 →
          (cascade D rf fuel loc w c).res = Res.ret 0)) := by
  obtain ⟨h12, h13, h23, hl1, hl2, hl3⟩ := hD
  cases fuel with
  | zero => left; rfl
  | succ n =>
    by_cases hp : (level_anticol D rf n loc w c).1.res = Res.ret 1
    · rcases level_codes D rf n loc w c with ⟨h0, hc⟩ | hc
      · left
        rw [cascade_select_fails D rf n loc w c hp h0]
        exact hc
      · right
        rw [hsel] at hc
        by_cases hs : (level_select D rf n loc w c).1.ret = 0
        · rw [cascade_select_fails D rf n loc w c hp hs]
          exact ⟨hc, fun _ => rfl⟩
        · by_cases hk : (level_select D rf n loc w c).1.rx_buf.getD 0 0 &&& 0x04 = 0
          · rw [cascade_terminal D rf n loc w c hp hs hk, select_finish_w, select_finish_sak]
            refine ⟨hc, fun h => absurd hk ?_⟩
            simpa [level_locals] using h
          · rw [cascade_too_deep D rf n loc w c (by rw [hsel]; exact h13.symm)
              (by rw [hsel]; exact h23.symm) hp hs hk]
            exact ⟨hc, fun _ => rfl⟩
    · left
      rw [(cascade_anticol_stop D rf n loc w c hp).1]
      exact select_codes_anticol D rf n loc w c

/-- Runs of the cascade that start at CL2. -/
theorem cascade_codes_cl2 (D : Decls) (rf : Rf σ) (hD : D.sel_codes_ok) (fuel : Nat)
    (loc : SelectLocals) (w : World σ) (c : RandCtx)
    (hsel : loc.acf.sel_code = D.ISO14443A_AC_SEL_CODE_CL2) :
    select_codes (cascade D rf fuel loc w c).w.log = select_codes w.log ∨
      select_codes (cascade D rf fuel loc w c).w.log
        = select_codes w.log ++ [D.ISO14443A_AC_SEL_CODE_CL2] ∨
      (select_codes (cascade D rf fuel loc w c).w.log
          = select_codes w.log ++
              [D.ISO14443A_AC_SEL_CODE_CL2, D.ISO14443A_AC_SEL_CODE_CL3] ∧
        ((cascade D rf fuel loc w c).loc.sak.getD 0 0 &&& 0x04 ≠ 0 →
          (cascade D rf fuel loc w c).res = Res.ret 0)) := by
  have hD' := hD
  obtain ⟨h12, h13, h23, hl1, hl2, hl3⟩ := hD
  cases fuel with
  | zero => left; rfl
  | succ n =>
    by_cases hp : (level_anticol D rf n loc w c).1.res = Res.ret 1
    · rcases level_codes D rf n loc w c with ⟨h0, hc⟩ | hc
      · left
        rw [cascade_select_fails D rf n loc w c hp h0]
        exact hc
      · rw [hsel] at hc
        by_cases hs : (level_select D rf n loc w c).1.ret = 0
        · right; left
          rw [cascade_select_fails D rf n loc w c hp hs]
          exact hc
        · by_cases hk : (level_select D rf n loc w c).1.rx_buf.getD 0 0 &&& 0x04 = 0
          · right; left
            rw [cascade_terminal D rf n loc w c hp hs hk, select_finish_w]
            exact hc
          · rw [cascade_cl2_step D rf n loc w c hsel h12 hp hs hk]
            rcases cascade_codes_cl3 D rf hD' n
              (level_next D rf n loc w c 3 D.ISO14443A_AC_SEL_CODE_CL3 ISO14443A_LEVEL_CL3)
              (level_select D rf n loc w c).1.w
              (level_anticol D rf n loc w c).2 (Nat.mod_eq_of_lt hl3) with h3 | ⟨h3, hprop⟩
            · right; left
              rw [h3]; exact hc
            · right; right
              refine ⟨?_, hprop⟩
              rw [h3, hc, List.append_assoc]
              rfl
    · left
      rw [(cascade_anticol_stop D rf n loc w c hp).1]
      exact select_codes_anticol D rf n loc w c

/-- Runs of the cascade that start at CL1. -/
theorem cascade_codes_cl1 (D : Decls) (rf : Rf σ) (hD : D.sel_codes_ok) (fuel : Nat)
    (loc : SelectLocals) (w : World σ) (c : RandCtx)
    (hsel : loc.acf.sel_code = D.ISO14443A_AC_SEL_CODE_CL1) :
    select_codes (cascade D rf fuel loc w c).w.log = select_codes w.log ∨
      select_codes (cascade D rf fuel loc w c).w.log
        = select_codes w.log ++ [D.ISO14443A_AC_SEL_CODE_CL1] ∨
      select_codes (cascade D rf fuel loc w c).w.log
        = select_codes w.log ++
            [D.ISO14443A_AC_SEL_CODE_CL1, D.ISO14443A_AC_SEL_CODE_CL2] ∨
      (select_codes (cascade D rf fuel loc w c).w.log
          = select_codes w.log ++
              [D.ISO14443A_AC_SEL_CODE_CL1, D.ISO14443A_AC_SEL_CODE_CL2,
               D.ISO14443A_AC_SEL_CODE_CL3] ∧
        ((cascade D rf fuel loc w c).loc.sak.getD 0 0 &&& 0x04 ≠ 0 →
          (cascade D rf fuel loc w c).res = Res.ret 0)) := by
  have hD' := hD
  obtain ⟨h12, h13, h23, hl1, hl2, hl3⟩ := hD
  cases fuel with
  | zero => left; rfl
  | succ n =>
    by_cases hp : (level_anticol D rf n loc w c).1.res = Res.ret 1
    · rcases level_codes D rf n loc w c with ⟨h0, hc⟩ | hc
      · left
        rw [cascade_select_fails D rf n loc w c hp h0]
        exact hc
      · rw [hsel] at hc
        by_cases hs : (level_select D rf n loc w c).1.ret = 0
        · right; left
          rw [cascade_select_fails D rf n loc w c hp hs]
          exact hc
        · by_cases hk : (level_select D rf n loc w c).1.rx_buf.getD 0 0 &&& 0x04 = 0
          · right; left
            rw [cascade_terminal D rf n loc w c hp hs hk, select_finish_w]
            exact hc
          · by_cases h88 : (level_anticol D rf n loc w c).1.acf.uid_bits.getD 0 0 = 0x88
            · rw [cascade_cl1_step D rf n loc w c hsel hp hs hk h88]
              rcases cascade_codes_cl2 D rf hD' n
                (level_next D rf n loc w c 0 D.ISO14443A_AC_SEL_CODE_CL2 ISO14443A_LEVEL_CL2)
                (level_select D rf n loc w c).1.w
                (level_anticol D rf n loc w c).2 (Nat.mod_eq_of_lt hl2) with h2 | h2 | ⟨h2, hprop⟩
              · right; left
                rw [h2]; exact hc
              · right; right; left
                rw [h2, hc, List.append_assoc]
                rfl
              · right; right; right
                refine ⟨?_, hprop⟩
                rw [h2, hc, List.append_assoc]
                rfl
            · right; left
              rw [cascade_cl1_bad_tag D rf n loc w c hsel hp hs hk h88]
              exact hc
    · left
      rw [(cascade_anticol_stop D rf n loc w c hp).1]
      exact select_codes_anticol D rf n loc w c

theorem select_codes_sf (D : Decls) (rf : Rf σ) (w : World σ) (wup : Int) :
    select_codes (select_sf D rf w wup).w.log = select_codes w.log := by
  simp only [select_codes, select_sf,
    frames_transceive_sf D rf w _ _ FrameKind.regular (by decide)]

/-- C6: cascade depth.  Whatever the RF service does, the select frames of one
run of `_iso14443a_select` carry the select codes CL1, CL2, CL3 in that order
(a prefix of that list, so at most three), and when three were issued and the
last SAK has the cascade bit the selection returns 0. -/
theorem select_cascade_depth (D : Decls) (rf : Rf σ) (dev : σ) (c : RandCtx) (wup : Int)
    (fuel : Nat) (hD : D.sel_codes_ok) :
    select_codes (_iso14443a_select D rf fuel ⟨dev, []⟩ c wup).w.log <+:
        [D.ISO14443A_AC_SEL_CODE_CL1, D.ISO14443A_AC_SEL_CODE_CL2,
         D.ISO14443A_AC_SEL_CODE_CL3] ∧
      ((select_codes (_iso14443a_select D rf fuel ⟨dev, []⟩ c wup).w.log).length = 3 →
        (_iso14443a_select D rf fuel ⟨dev, []⟩ c wup).loc.sak.getD 0 0 &&& 0x04 ≠ 0 →
        (_iso14443a_select D rf fuel ⟨dev, []⟩ c wup).res = Res.ret 0) := by
  have hbase : select_codes (select_sf D rf ⟨dev, []⟩ wup).w.log = [] := by
    rw [select_codes_sf]; rfl
  rw [select_unfold]
  split_ifs with h1 h2
  · simp [hbase]
  · simp [hbase]
  · rcases cascade_codes_cl1 D rf hD fuel (locals_cl1 D (select_sf D rf ⟨dev, []⟩ wup).atqa)
      (select_sf D rf ⟨dev, []⟩ wup).w c
      (by simp only [locals_cl1]; exact Nat.mod_eq_of_lt hD.2.2.2.1) with h | h | h | ⟨h, hprop⟩
    · rw [h, hbase]; simp
    · rw [h, hbase]; simp [List.prefix_iff_eq_take]
    · rw [h, hbase]; simp [List.prefix_iff_eq_take]
    · rw [h, hbase]
      exact ⟨by simp, fun _ => hprop⟩

/-! ### Protocol classification -/

theorem cascade_success_proto (D : Decls) (rf : Rf σ) (fuel : Nat) :
    ∀ (loc : SelectLocals) (w : World σ) (c : RandCtx),
      (cascade D rf fuel loc w c).res = Res.ret 1 →
      (cascade D rf fuel loc w c).loc.proto_supported =
        proto_of_sak ((cascade D rf fuel loc w c).loc.sak.getD 0 0) := by
  induction fuel with
  | zero =>
    intro loc w c h
    exact absurd h (by simp [cascade])
  | succ n ih =>
    intro loc w c
    rw [cascade]
    simp only []
    split
    · split_ifs
      all_goals first
        | (intro h; exact absurd h (by simp))
        | exact ih _ _ _
        | (intro _; rw [select_finish_proto, select_finish_sak]; rfl)
    · rename_i other hne
      intro h
      exact absurd h (hne 1)

/-- C7: protocol classification.  On every successful selection the reported
protocol set is `1 << RFID_PROTOCOL_TCL` when bit 5 (0x20) of the first byte
of the last SAK is set, and
`(1 << RFID_PROTOCOL_MIFARE_UL) | (1 << RFID_PROTOCOL_MIFARE_CLASSIC)` when it
is clear: it is a function of that bit alone. -/
theorem select_protocol (D : Decls) (rf : Rf σ) (w : World σ) (c : RandCtx) (wup : Int)
    (fuel : Nat) (h : (_iso14443a_select D rf fuel w c wup).res = Res.ret 1) :
    (_iso14443a_select D rf fuel w c wup).loc.proto_supported =
      if (_iso14443a_select D rf fuel w c wup).loc.sak.getD 0 0 &&& 0x20 ≠ 0 then
        1 <<< RFID_PROTOCOL_TCL
      else (1 <<< RFID_PROTOCOL_MIFARE_UL) ||| (1 <<< RFID_PROTOCOL_MIFARE_CLASSIC) := by
  have key : (_iso14443a_select D rf fuel w c wup).loc.proto_supported =
      proto_of_sak ((_iso14443a_select D rf fuel w c wup).loc.sak.getD 0 0) := by
    rw [select_unfold] at h ⊢
    split_ifs at h ⊢
    all_goals first
      | exact absurd h (by simp)
      | exact cascade_success_proto D rf fuel _ _ _ h
  exact key

theorem select_protocol_witness :
    (_iso14443a_select decls_iso (script_rf card_double) 2 world0 randctx_init 0).res
        = Res.ret 1 ∧
      (_iso14443a_select decls_iso (script_rf card_double) 2 world0 randctx_init 0).loc.proto_supported
        = (if (_iso14443a_select decls_iso (script_rf card_double) 2 world0 randctx_init
                0).loc.sak.getD 0 0 &&& 0x20 ≠ 0 then
            1 <<< RFID_PROTOCOL_TCL
          else (1 <<< RFID_PROTOCOL_MIFARE_UL) ||| (1 <<< RFID_PROTOCOL_MIFARE_CLASSIC)) :=
  ⟨by decide, select_protocol decls_iso (script_rf card_double) world0 randctx_init 0 2
    (by decide)⟩

theorem select_cascade_depth_witness :
    decls_iso.sel_codes_ok ∧
      (select_codes (_iso14443a_select decls_iso (script_rf card_too_deep) 3 ⟨0, []⟩
          randctx_init 0).w.log <+:
        [decls_iso.ISO14443A_AC_SEL_CODE_CL1, decls_iso.ISO14443A_AC_SEL_CODE_CL2,
         decls_iso.ISO14443A_AC_SEL_CODE_CL3] ∧
      ((select_codes (_iso14443a_select decls_iso (script_rf card_too_deep) 3 ⟨0, []⟩
          randctx_init 0).w.log).length = 3 →
        (_iso14443a_select decls_iso (script_rf card_too_deep) 3 ⟨0, []⟩
          randctx_init 0).loc.sak.getD 0 0 &&& 0x04 ≠ 0 →
        (_iso14443a_select decls_iso (script_rf card_too_deep) 3 ⟨0, []⟩
          randctx_init 0).res = Res.ret 0)) ∧
      select_codes (_iso14443a_select decls_iso (script_rf card_too_deep) 3 ⟨0, []⟩
          randctx_init 0).w.log = [0x93, 0x95, 0x97] ∧
      (_iso14443a_select decls_iso (script_rf card_too_deep) 3 ⟨0, []⟩
          randctx_init 0).loc.sak.getD 0 0 &&& 0x04 ≠ 0 :=
  ⟨by decide,
    select_cascade_depth decls_iso (script_rf card_too_deep) 0 randctx_init 0 3 (by decide),
    by decide, by decide⟩

/-- C5 (evaluation of the code): with the cascade bit set in the SAK of CL2 and
a CL2 UID buffer that starts with `0x11`, not `0x88`, `_iso14443a_select` goes on
to CL3 and returns 1 with a 10-byte UID; the check made at CL1 is not made at
CL2. -/
theorem select_cl2_tag_unchecked :
    (_iso14443a_select decls_iso (script_rf card_bad_tag_cl2) 3 world0 randctx_init 0).res
        = Res.ret 1 ∧
      (_iso14443a_select decls_iso (script_rf card_bad_tag_cl2) 3 world0 randctx_init 0).loc.uid_len
        = 10 ∧
      (_iso14443a_select decls_iso (script_rf card_bad_tag_cl2) 3 world0 randctx_init 0).loc.uid
        = [0x01, 0x02, 0x03, 0x04, 0x05, 0x06, 0x07, 0x08, 0x09, 0x0a] ∧
      select_codes (_iso14443a_select decls_iso (script_rf card_bad_tag_cl2) 3 world0
        randctx_init 0).w.log = [0x93, 0x95, 0x97] := by
  decide

/-- C8: when the short frame succeeds and the bit-frame-anticollision field of
the ATQA is 0, `_iso14443a_select` returns -1 (not the success value 1) in state
`ISO14443A_STATE_NO_BITFRAME_ANTICOL`, having issued no anti-collision frame
and no select frame. -/
theorem select_no_bitframe (D : Decls) (rf : Rf σ) (dev : σ) (c : RandCtx) (wup : Int)
    (fuel : Nat)
    (hsf : (select_sf D rf ⟨dev, []⟩ wup).ret ≠ 0)
    (hbf : D.bf_anticol ((select_sf D rf ⟨dev, []⟩ wup).atqa.getD 0 0)
      ((select_sf D rf ⟨dev, []⟩ wup).atqa.getD 1 0) = 0) :
    (_iso14443a_select D rf fuel ⟨dev, []⟩ c wup).res = Res.ret (-1) ∧
      (_iso14443a_select D rf fuel ⟨dev, []⟩ c wup).res ≠ Res.ret 1 ∧
      (_iso14443a_select D rf fuel ⟨dev, []⟩ c wup).loc.state
        = ISO14443A_STATE_NO_BITFRAME_ANTICOL ∧
      frames FrameKind.acf (_iso14443a_select D rf fuel ⟨dev, []⟩ c wup).w.log = [] ∧
      frames FrameKind.regular (_iso14443a_select D rf fuel ⟨dev, []⟩ c wup).w.log = [] := by
  rw [select_unfold, if_neg hsf, if_pos hbf]
  refine ⟨rfl, by simp, rfl, ?_, ?_⟩
  · simp only [select_sf, frames_transceive_sf D rf _ _ _ FrameKind.acf (by decide)]
    rfl
  · simp only [select_sf, frames_transceive_sf D rf _ _ _ FrameKind.regular (by decide)]
    rfl

theorem select_no_bitframe_witness :
    (_iso14443a_select decls_iso (script_rf card_no_bitframe) 5 ⟨0, []⟩ randctx_init 0).res
        = Res.ret (-1) ∧
      (_iso14443a_select decls_iso (script_rf card_no_bitframe) 5 ⟨0, []⟩ randctx_init 0).res
        ≠ Res.ret 1 ∧
      (_iso14443a_select decls_iso (script_rf card_no_bitframe) 5 ⟨0, []⟩ randctx_init
        0).loc.state = ISO14443A_STATE_NO_BITFRAME_ANTICOL ∧
      frames FrameKind.acf (_iso14443a_select decls_iso (script_rf card_no_bitframe) 5 ⟨0, []⟩
        randctx_init 0).w.log = [] ∧
      frames FrameKind.regular (_iso14443a_select decls_iso (script_rf card_no_bitframe) 5
        ⟨0, []⟩ randctx_init 0).w.log = [] :=
  select_no_bitframe decls_iso (script_rf card_no_bitframe) 0 randctx_init 0 5
    (by decide) (by decide)

/-! ### The jamming service -/

theorem toggle_length (D : Decls) (bits : List Nat) (size bit : Nat) (c : RandCtx) :
    (rnd_toggle_bit_in_field D bits size bit c).1.length = bits.length := by
  unfold rnd_toggle_bit_in_field
  split_ifs <;> simp

theorem list_length_five {l : List Nat} (h : l.length = 5) :
    ∃ u0 u1 u2 u3 u4, l = [u0, u1, u2, u3, u4] := by
  match l, h with
  | [u0, u1, u2, u3, u4], _ => exact ⟨u0, u1, u2, u3, u4, rfl⟩

theorem mask_idem (x m r : Nat) :
    (((x &&& m ||| r) % 256) &&& m ||| r) % 256 = (x &&& m ||| r) % 256 := by
  have h256 : (256 : Nat) = 2 ^ 8 := rfl
  rw [h256]
  apply Nat.eq_of_testBit_eq
  intro i
  simp only [Nat.testBit_mod_two_pow, Nat.testBit_or, Nat.testBit_and]
  by_cases hi : i < 8
  · simp only [hi, decide_True, Bool.true_and]
    cases x.testBit i <;> cases m.testBit i <;> cases r.testBit i <;> rfl
  · simp [hi]

theorem rx_byte_mod (rx : List Nat) (i : Nat) : rx_byte rx i % 256 = rx_byte rx i := by
  unfold rx_byte
  exact Nat.mod_mod _ _

theorem merge_case (s nvb u0 u1 u2 u3 u4 : Nat) (rx : List Nat) (rx_len n k : Nat)
    (hn : nvb_tx_bytes nvb = n) (hk : nvb_tx_last_bits nvb = k) (hlo : 2 ≤ n) (hhi : n ≤ 6) :
    ((acf_merge ⟨s, nvb, [u0, u1, u2, u3, u4]⟩ rx rx_len).bind
        (fun a => acf_merge a rx rx_len)
        = acf_merge ⟨s, nvb, [u0, u1, u2, u3, u4]⟩ rx rx_len) ∧
      (n + rx_len ≤ 7 → (acf_merge ⟨s, nvb, [u0, u1, u2, u3, u4]⟩ rx rx_len).isSome = true) := by
  have hcases : rx_len = 0 ∨ rx_len = 1 ∨ rx_len = 2 ∨ rx_len = 3 ∨ rx_len = 4 ∨ rx_len = 5 ∨
      ∃ m, rx_len = m + 6 := by
    by_cases h : rx_len < 6
    · omega
    · exact Or.inr (Or.inr (Or.inr (Or.inr (Or.inr (Or.inr ⟨rx_len - 6, by omega⟩)))))
  interval_cases n <;>
    rcases hcases with h | h | h | h | h | h | ⟨m, h⟩ <;>
    subst h <;>
    simp [acf_merge, hn, hk, acf_bytes, acf_store, acf_memcpy, mask_idem, rx_byte_mod] <;>
    omega

/-- C10: merge idempotence.  For every anti-collision frame whose NVB has a
byte count in [2,6] and every received response, merging the response a second
time (same NVB, same response) gives the frame that the first merge gave; the
merge stays inside the frame whenever the response fits it. -/
theorem merge_idempotent (acf : iso14443a_anticol_cmd) (rx : List Nat) (rx_len : Nat)
    (hlen : acf.uid_bits.length = 5) (hlo : 2 ≤ nvb_tx_bytes acf.nvb)
    (hhi : nvb_tx_bytes acf.nvb ≤ 6) :
    ((acf_merge acf rx rx_len).bind (fun a => acf_merge a rx rx_len)
        = acf_merge acf rx rx_len) ∧
      (nvb_tx_bytes acf.nvb + rx_len ≤ 7 → (acf_merge acf rx rx_len).isSome = true) := by
  obtain ⟨s, nvb, bits⟩ := acf
  obtain ⟨u0, u1, u2, u3, u4, hb⟩ := list_length_five hlen
  simp only at hb hlo hhi ⊢
  subst hb
  exact merge_case s nvb u0 u1 u2 u3 u4 rx rx_len (nvb_tx_bytes nvb) (nvb_tx_last_bits nvb)
    rfl rfl hlo hhi

theorem merge_idempotent_witness :
    ((acf_merge ⟨0x93, 0x31, [0x88, 0x01, 0, 0, 0]⟩ [0x12, 0x04] 2).bind
        (fun a => acf_merge a [0x12, 0x04] 2)
        = acf_merge ⟨0x93, 0x31, [0x88, 0x01, 0, 0, 0]⟩ [0x12, 0x04] 2) ∧
      (nvb_tx_bytes 0x31 + 2 ≤ 7 →
        (acf_merge ⟨0x93, 0x31, [0x88, 0x01, 0, 0, 0]⟩ [0x12, 0x04] 2).isSome = true) ∧
      acf_merge ⟨0x93, 0x31, [0x88, 0x01, 0, 0, 0]⟩ [0x12, 0x04] 2
        = some ⟨0x93, 0x31, [0x88, 0x13, 0x04, 0, 0]⟩ :=
  ⟨(merge_idempotent ⟨0x93, 0x31, [0x88, 0x01, 0, 0, 0]⟩ [0x12, 0x04] 2 (by decide)
      (by decide) (by decide)).1,
    (merge_idempotent ⟨0x93, 0x31, [0x88, 0x01, 0, 0, 0]⟩ [0x12, 0x04] 2 (by decide)
      (by decide) (by decide)).2, by decide⟩

/-! ### The fuel is immaterial once a run has ended -/

theorem collision_loop_mono (D : Decls) (rf : Rf σ) (fuel : Nat) :
    ∀ (w : World σ) (c : RandCtx) (acf : iso14443a_anticol_cmd) (boc : Nat),
      (collision_loop D rf fuel w c acf boc).1.res ≠ Res.nofuel →
      ∀ d, collision_loop D rf (fuel + d) w c acf boc = collision_loop D rf fuel w c acf boc := by
  induction fuel with
  | zero =>
    intro w c acf boc h d
    by_cases hb : boc ≠ ISO14443A_BITOFCOL_NONE
    · exact absurd (by rw [collision_loop, if_pos hb]) h
    · have hb' : boc = ISO14443A_BITOFCOL_NONE := not_not.mp hb
      subst hb'
      rw [collision_loop_none, collision_loop_none]
  | succ n ih =>
    intro w c acf boc h d
    have e : n + 1 + d = (n + d) + 1 := by omega
    rw [e]
    revert h
    rw [collision_loop, collision_loop]
    by_cases hb : boc ≠ ISO14443A_BITOFCOL_NONE
    · rw [if_pos hb, if_pos hb]
      simp only []
      split
      · split_ifs
        · intro _; rfl
        · intro h; exact ih _ _ _ _ h d
      · intro _; rfl
    · rw [if_neg hb, if_neg hb]
      intro _; rfl

theorem anticol_phase_mono (D : Decls) (rf : Rf σ) (fuel : Nat) (w : World σ) (c : RandCtx)
    (acf : iso14443a_anticol_cmd)
    (h : (anticol_phase D rf fuel w c acf).1.res ≠ Res.nofuel) (d : Nat) :
    anticol_phase D rf (fuel + d) w c acf = anticol_phase D rf fuel w c acf := by
  revert h
  unfold anticol_phase
  simp only []
  split
  · split_ifs
    · intro _; rfl
    · intro h; exact collision_loop_mono D rf fuel _ _ _ _ h d
  · intro _; rfl

theorem cascade_mono (D : Decls) (rf : Rf σ) (fuel : Nat) :
    ∀ (loc : SelectLocals) (w : World σ) (c : RandCtx),
      (cascade D rf fuel loc w c).res ≠ Res.nofuel →
      ∀ d, cascade D rf (fuel + d) loc w c = cascade D rf fuel loc w c := by
  induction fuel with
  | zero =>
    intro loc w c h d
    exact absurd (by rw [cascade]) h
  | succ n ih =>
    intro loc w c h d
    have hP : (anticol_phase D rf n w c loc.acf).1.res ≠ Res.nofuel := by
      intro hP
      have hstop := cascade_anticol_stop D rf n loc w c
        (by simp only [level_anticol]; rw [hP]; simp)
      apply h
      rw [hstop.2.1]
      exact hP
    have hm := anticol_phase_mono D rf n w c loc.acf hP d
    have e : n + 1 + d = (n + d) + 1 := by omega
    rw [e]
    revert h
    rw [cascade, cascade]
    simp only [hm]
    split
    · split_ifs
      all_goals first
        | (intro _; rfl)
        | (intro h; exact ih _ _ _ h d)
    · intro _; rfl

theorem select_mono (D : Decls) (rf : Rf σ) (fuel : Nat) (w : World σ) (c : RandCtx)
    (wup : Int) (h : (_iso14443a_select D rf fuel w c wup).res ≠ Res.nofuel) (d : Nat) :
    _iso14443a_select D rf (fuel + d) w c wup = _iso14443a_select D rf fuel w c wup := by
  revert h
  rw [select_unfold, select_unfold]
  split_ifs
  · intro _; rfl
  · intro _; rfl
  · intro h; exact cascade_mono D rf fuel _ _ _ h d

/-- C4: two-level selection.  When the anti-collision at CL1 ends with the UID
buffer `[0x88, a, b, c, _]` and its select returns a SAK with the cascade bit,
and the anti-collision at CL2 then ends with `[d, e, f, g, _]` and its select
returns a SAK without the cascade bit, `_iso14443a_select` advances from CL1 to
CL2 only, places the CL2 bytes at offset 3 and returns 1 with the 7-byte UID
`[a, b, c, d, e, f, g]` (`fuel + 1` and `fuel` bound the retries of the two
collision loops; the result is the same with any larger fuel). -/
theorem select_two_level (D : Decls) (rf : Rf σ) (w : World σ) (c : RandCtx) (wup : Int)
    (fuel extra : Nat) (a b c' d e f g : Nat) (hD : D.sel_codes_ok) :
    let sf := select_sf D rf w wup
    let p1 := anticol_phase D rf (fuel + 1) sf.w c ⟨D.ISO14443A_AC_SEL_CODE_CL1, 0, [0, 0, 0, 0, 0]⟩
    let s1 := select_phase D rf p1.1.w p1.1.acf 3
    let p2 := anticol_phase D rf fuel s1.1.w p1.2
      ⟨D.ISO14443A_AC_SEL_CODE_CL2, 0x70, p1.1.acf.uid_bits⟩
    let s2 := select_phase D rf p2.1.w p2.1.acf 3
    sf.ret ≠ 0 → D.bf_anticol (sf.atqa.getD 0 0) (sf.atqa.getD 1 0) ≠ 0 →
    p1.1.res = Res.ret 1 → p1.1.acf.uid_bits.take 4 = [0x88, a, b, c'] →
    s1.1.ret ≠ 0 → s1.1.rx_buf.getD 0 0 &&& 0x04 ≠ 0 →
    p2.1.res = Res.ret 1 → p2.1.acf.uid_bits.take 4 = [d, e, f, g] →
    s2.1.ret ≠ 0 → s2.1.rx_buf.getD 0 0 &&& 0x04 = 0 →
    (_iso14443a_select D rf (fuel + 2 + extra) w c wup).res = Res.ret 1 ∧
      (_iso14443a_select D rf (fuel + 2 + extra) w c wup).loc.acf.sel_code
        = D.ISO14443A_AC_SEL_CODE_CL2 ∧
      (_iso14443a_select D rf (fuel + 2 + extra) w c wup).loc.uid_len = 7 ∧
      ((_iso14443a_select D rf (fuel + 2 + extra) w c wup).loc.uid.drop 3).take 4
        = [d, e, f, g] ∧
      (_iso14443a_select D rf (fuel + 2 + extra) w c wup).loc.uid.take 7
        = [a, b, c', d, e, f, g] := by
  intro sf p1 s1 p2 s2 hsf hbf hp1 hu1 hs1 hk1 hp2 hu2 hs2 hk2
  have hx := two_level_exact D rf w c wup fuel a b c' d e f g hD hsf hbf hp1 hu1 hs1 hk1
    hp2 hu2 hs2 hk2
  have hm := select_mono D rf (fuel + 2) w c wup (by rw [hx.1]; simp) extra
  rw [hm]
  exact hx

theorem select_two_level_witness :
    (_iso14443a_select decls_iso (script_rf card_double) 5 world0 randctx_init 0).res
        = Res.ret 1 ∧
      (_iso14443a_select decls_iso (script_rf card_double) 5 world0 randctx_init 0).loc.acf.sel_code
        = decls_iso.ISO14443A_AC_SEL_CODE_CL2 ∧
      (_iso14443a_select decls_iso (script_rf card_double) 5 world0 randctx_init 0).loc.uid_len
        = 7 ∧
      ((_iso14443a_select decls_iso (script_rf card_double) 5 world0 randctx_init 0).loc.uid.drop
        3).take 4 = [0x04, 0x05, 0x06, 0x07] ∧
      (_iso14443a_select decls_iso (script_rf card_double) 5 world0 randctx_init 0).loc.uid.take 7
        = [0x01, 0x02, 0x03, 0x04, 0x05, 0x06, 0x07] :=
  select_two_level decls_iso (script_rf card_double) world0 randctx_init 0 0 3
    0x01 0x02 0x03 0x04 0x05 0x06 0x07 (by decide)
    (by decide) (by decide) (by decide) (by decide) (by decide) (by decide) (by decide)
    (by decide) (by decide) (by decide)

/-! ### Exchanges of a log -/

theorem exchanges_from_append (l1 l2 : List RfCall) :
    ∀ m, exchanges_from m (l1 ++ l2)
      = exchanges_from m l1 ++ exchanges_from (mode_after m l1) l2 := by
  induction l1 with
  | nil => intro m; rfl
  | cons a rest ih =>
    intro m
    cases a <;> simp [exchanges_from, mode_after, ih]

theorem sealed_nil (P : Option rf_mode × RfCall → Prop) : Sealed P [] := by
  intro m x hx
  simp [exchanges_from] at hx

theorem sealed_append {P : Option rf_mode × RfCall → Prop} {a b : List RfCall}
    (ha : Sealed P a) (hb : Sealed P b) : Sealed P (a ++ b) := by
  intro m x hx
  rw [exchanges_from_append, List.mem_append] at hx
  rcases hx with h | h
  · exact ha m x h
  · exact hb _ x h

theorem ext_refl (P : Option rf_mode × RfCall → Prop) (w : World σ) : Ext P w w :=
  ⟨[], by simp, sealed_nil P⟩

theorem ext_trans {P : Option rf_mode × RfCall → Prop} {w1 w2 w3 : World σ}
    (h12 : Ext P w1 w2) (h23 : Ext P w2 w3) : Ext P w1 w3 := by
  obtain ⟨e1, h1, s1⟩ := h12
  obtain ⟨e2, h2, s2⟩ := h23
  exact ⟨e1 ++ e2, by rw [h2, h1, List.append_assoc], sealed_append s1 s2⟩

theorem ext_prefix {P : Option rf_mode × RfCall → Prop} {w1 w2 : World σ}
    (h : Ext P w1 w2) : w1.log <+: w2.log := by
  obtain ⟨e, he, _⟩ := h
  exact ⟨e, he.symm⟩

/-- A call other than a transceive continues a world. -/
theorem ext_set_rf_mode (P : Option rf_mode × RfCall → Prop) (rf : Rf σ) (w : World σ)
    (m : rf_mode) : Ext P w (_clrc632_set_rf_mode rf w m).1 :=
  ⟨[RfCall.set_rf_mode m], rfl, by intro m0 x hx; simp [exchanges_from] at hx⟩

theorem ext_get_error (P : Option rf_mode × RfCall → Prop) (rf : Rf σ) (w : World σ) :
    Ext P w (_clrc632_get_error rf w).1 :=
  ⟨[RfCall.get_error], rfl, by intro m0 x hx; simp [exchanges_from] at hx⟩

theorem ext_get_coll_pos (P : Option rf_mode × RfCall → Prop) (rf : Rf σ) (w : World σ) :
    Ext P w (_clrc632_get_coll_pos rf w).1 :=
  ⟨[RfCall.get_coll_pos], rfl, by intro m0 x hx; simp [exchanges_from] at hx⟩

/-- A transceive made right after setting the mode `m` continues a world when
the exchange under `m` satisfies `P`. -/
theorem ext_mode_transceive (P : Option rf_mode × RfCall → Prop) (rf : Rf σ) (w : World σ)
    (m : rf_mode) (k : FrameKind) (tx : List Nat) (a b c d : Nat)
    (hP : P (some m, RfCall.transceive k tx a b c d)) :
    Ext P w (_clrc632_transceive rf (_clrc632_set_rf_mode rf w m).1 k tx a b c d).1 :=
  ⟨[RfCall.set_rf_mode m, RfCall.transceive k tx a b c d],
    by simp [_clrc632_transceive, _clrc632_set_rf_mode],
    by
      intro m0 x hx
      simp [exchanges_from] at hx
      subst hx
      exact hP⟩

theorem and7_idem (x : Nat) : (x &&& 7) &&& 7 = x &&& 7 := by
  rw [Nat.and_assoc]
  rfl

theorem le7_and7 (x : Nat) (h : x ≤ 7) : x &&& 7 = x := by
  interval_cases x <;> rfl

theorem acf_wf_tx_bytes {acf : iso14443a_anticol_cmd} (h : acf_wf acf) :
    nvb_tx_bytes acf.nvb = acf.nvb >>> 4 ∧ 2 ≤ nvb_tx_bytes acf.nvb := by
  have := le7_and7 _ h.2.2
  unfold nvb_tx_bytes
  rw [this]
  exact ⟨rfl, h.2.1⟩

/-! ### The anti-collision exchange, step by step -/

theorem transceive_acf_eq (D : Decls) (rf : Rf σ) (w : World σ) (acf : iso14443a_anticol_cmd) :
    _iso14443a_transceive_acf D rf w acf =
      if !(_clrc632_set_rf_mode rf w (acf_mode D acf.nvb)).2 then
        ⟨Res.ret 0, (_clrc632_set_rf_mode rf w (acf_mode D acf.nvb)).1, acf,
          ISO14443A_BITOFCOL_NONE⟩
      else if 7 < acf_total acf.nvb then
        ⟨Res.fault,
          ⟨(_clrc632_set_rf_mode rf w (acf_mode D acf.nvb)).1.dev,
            (_clrc632_set_rf_mode rf w (acf_mode D acf.nvb)).1.log ++
              [RfCall.transceive FrameKind.acf (acf_bytes acf) (acf_total acf.nvb) 64 0x32 0]⟩,
          acf, ISO14443A_BITOFCOL_NONE⟩
      else if !(acf_xcv D rf w acf).2.ok then
        ⟨Res.ret 0, (acf_xcv D rf w acf).1, acf, ISO14443A_BITOFCOL_NONE⟩
      else
        match acf_merge acf (acf_xcv D rf w acf).2.rx_buf
            ((acf_xcv D rf w acf).2.rx_len % 256) with
        | none => ⟨Res.fault, (acf_xcv D rf w acf).1, acf, ISO14443A_BITOFCOL_NONE⟩
        | some acf1 => acf_collision D rf (acf_xcv D rf w acf).1 acf1 := rfl

/-- What a successful `_iso14443a_transceive_acf` went through. -/
theorem transceive_acf_success (D : Decls) (rf : Rf σ) (w : World σ)
    (acf : iso14443a_anticol_cmd)
    (h : (_iso14443a_transceive_acf D rf w acf).res = Res.ret 1) :
    (_clrc632_set_rf_mode rf w (acf_mode D acf.nvb)).2 = true ∧
      acf_total acf.nvb ≤ 7 ∧ (acf_xcv D rf w acf).2.ok = true ∧
      ∃ acf1, acf_merge acf (acf_xcv D rf w acf).2.rx_buf
          ((acf_xcv D rf w acf).2.rx_len % 256) = some acf1 ∧
        _iso14443a_transceive_acf D rf w acf = acf_collision D rf (acf_xcv D rf w acf).1 acf1 := by
  rw [transceive_acf_eq] at h ⊢
  by_cases hm : (_clrc632_set_rf_mode rf w (acf_mode D acf.nvb)).2 = true
  · by_cases ht : 7 < acf_total acf.nvb
    · simp [hm, ht] at h
    · by_cases hx : (acf_xcv D rf w acf).2.ok = true
      · simp only [hm, ht, hx, Bool.not_true, Bool.false_eq_true, if_false] at h ⊢
        cases hmg : acf_merge acf (acf_xcv D rf w acf).2.rx_buf
            ((acf_xcv D rf w acf).2.rx_len % 256) with
        | none => rw [hmg] at h; simp at h
        | some a => exact ⟨trivial, by omega, trivial, a, rfl, rfl⟩
      · simp [hm, ht, hx] at h
  · simp [hm] at h

theorem acf_store_length {acf acf1 : iso14443a_anticol_cmd} {off v : Nat}
    (h : acf_store acf off v = some acf1) : acf1.uid_bits.length = acf.uid_bits.length := by
  match off with
  | 0 => simp only [acf_store, Option.some.injEq] at h; subst h; rfl
  | 1 => simp only [acf_store, Option.some.injEq] at h; subst h; rfl
  | j + 2 =>
    unfold acf_store at h
    by_cases hj : j < 5
    · simp only [hj, if_true, Option.some.injEq] at h
      subst h
      simp
    · simp [hj] at h

theorem acf_memcpy_length (written : List Nat) (count : Nat) :
    ∀ (acf acf1 : iso14443a_anticol_cmd) (off src : Nat),
      acf_memcpy acf off written src count = some acf1 →
      acf1.uid_bits.length = acf.uid_bits.length := by
  induction count with
  | zero =>
    intro acf acf1 off src h
    simp only [acf_memcpy, Option.some.injEq] at h
    subst h
    rfl
  | succ n ih =>
    intro acf acf1 off src h
    unfold acf_memcpy at h
    cases hst : acf_store acf off (rx_byte written src) with
    | none => simp [hst] at h
    | some a =>
      simp only [hst] at h
      exact (ih a acf1 (off + 1) (src + 1) h).trans (acf_store_length hst)

theorem acf_merge_length {acf acf1 : iso14443a_anticol_cmd} {rx : List Nat} {n : Nat}
    (h : acf_merge acf rx n = some acf1) : acf1.uid_bits.length = acf.uid_bits.length := by
  simp only [acf_merge] at h
  by_cases hz : n = 0
  · simp only [hz, ne_eq, not_true_eq_false, if_false] at h
    split at h
    · exact absurd h (by simp)
    · split at h
      · exact absurd h (by simp)
      · rename_i a hst
        simp only [Option.some.injEq] at h
        subst h
        exact acf_store_length hst
  · simp only [ne_eq, hz, not_false_eq_true, if_true] at h
    split at h
    · exact absurd h (by simp)
    · split at h
      · exact absurd h (by simp)
      · rename_i a hst
        exact (acf_memcpy_length rx (n - 1) a acf1 _ 1 h).trans (acf_store_length hst)

theorem transceive_acf_wf (D : Decls) (rf : Rf σ) (w : World σ) (acf : iso14443a_anticol_cmd)
    (h : acf_wf acf) : acf_wf (_iso14443a_transceive_acf D rf w acf).acf := by
  have hn := (acf_wf_tx_bytes h).2
  have hk := transceive_acf_keeps D rf w acf hn
  refine ⟨?_, by rw [hk.2]; exact h.2.1, by rw [hk.2]; exact h.2.2⟩
  rw [transceive_acf_eq]
  split_ifs
  all_goals first
    | exact h.1
    | (split
       · exact h.1
       · rename_i a hmerge
         rw [acf_collision_acf]
         exact (acf_merge_length hmerge).trans h.1)

theorem code_nvb_bits_hi (nvb b : Nat) (h : 2 ≤ nvb >>> 4 ∧ nvb >>> 4 ≤ 7) :
    2 ≤ (iso14443a_code_nvb_bits nvb b).2 >>> 4 ∧ (iso14443a_code_nvb_bits nvb b).2 >>> 4 ≤ 7 := by
  unfold iso14443a_code_nvb_bits
  simp only []
  by_cases hb : b / 8 < 2 ∨ b / 8 > 7
  · simp only [hb, if_true]; exact h
  · simp only [hb, if_false]
    have hm : b % 8 < 8 := Nat.mod_lt _ (by decide)
    have h2 : 2 ≤ b / 8 := by omega
    have h7 : b / 8 ≤ 7 := by omega
    generalize b / 8 = k at *
    generalize b % 8 = m at *
    interval_cases k <;> interval_cases m <;> decide

theorem collision_loop_wf (D : Decls) (rf : Rf σ) (fuel : Nat) :
    ∀ (w : World σ) (c : RandCtx) (acf : iso14443a_anticol_cmd) (boc : Nat),
      acf_wf acf → acf_wf (collision_loop D rf fuel w c acf boc).1.acf := by
  induction fuel with
  | zero =>
    intro w c acf boc h
    unfold collision_loop
    split_ifs <;> exact h
  | succ n ih =>
    intro w c acf boc h
    unfold collision_loop
    by_cases hb : boc ≠ ISO14443A_BITOFCOL_NONE
    · rw [if_pos hb]
      simp only []
      have h1 : acf_wf ⟨acf.sel_code, (iso14443a_code_nvb_bits acf.nvb boc).2,
          (rnd_toggle_bit_in_field D acf.uid_bits 5 boc c).1⟩ :=
        ⟨(toggle_length D acf.uid_bits 5 boc c).trans h.1,
          (code_nvb_bits_hi acf.nvb boc h.2).1, (code_nvb_bits_hi acf.nvb boc h.2).2⟩
      have hk := transceive_acf_wf D rf w _ h1
      split
      · split_ifs
        · exact hk
        · exact ih _ _ _ _ hk
      · exact hk
    · rw [if_neg hb]
      exact h

theorem anticol_phase_wf (D : Decls) (rf : Rf σ) (fuel : Nat) (w : World σ) (c : RandCtx)
    (acf : iso14443a_anticol_cmd) (h : acf.uid_bits.length = 5) :
    acf_wf (anticol_phase D rf fuel w c acf).1.acf := by
  unfold anticol_phase
  simp only [code_nvb_16]
  have h20 : 2 ≤ (0x20 : Nat) >>> 4 ∧ (0x20 : Nat) >>> 4 ≤ 7 := by decide
  have h1 : acf_wf { acf with nvb := 0x20 } := ⟨h, h20.1, h20.2⟩
  have hk := transceive_acf_wf D rf w _ h1
  split
  · split_ifs
    · exact hk
    · exact collision_loop_wf D rf fuel _ _ _ _ hk
  · exact hk

/-! ### Every exchange of a run has the shape of its kind -/

theorem acf_bytes_take_nvb (acf : iso14443a_anticol_cmd) (n : Nat) (hn : 2 ≤ n) :
    ((acf_bytes acf).take n).getD 1 0 = acf.nvb := by
  obtain ⟨m, rfl⟩ : ∃ m, n = m + 2 := ⟨n - 2, by omega⟩
  simp [acf_bytes, List.take_succ_cons]

theorem acf_total_ge {acf : iso14443a_anticol_cmd} (h : acf_wf acf) : 2 ≤ acf_total acf.nvb := by
  have := (acf_wf_tx_bytes h).2
  unfold acf_total
  split_ifs <;> omega

theorem acf_exchange_ok (D : Decls) (acf : iso14443a_anticol_cmd) (h : acf_wf acf)
    (tx : List Nat) (htx : tx.getD 1 0 = acf.nvb) :
    exchange_ok D (some (acf_mode D acf.nvb),
      RfCall.transceive FrameKind.acf tx (acf_total acf.nvb) 64 0x32 0) := by
  have hb := (acf_wf_tx_bytes h).1
  have hi : nvb_tx_last_bits acf.nvb &&& 7 = nvb_tx_last_bits acf.nvb := and7_idem acf.nvb
  simp only [exchange_ok, htx, and_true]
  refine ⟨?_, h.2.1, h.2.2, ?_⟩
  · unfold acf_mode
    by_cases hk : nvb_tx_last_bits acf.nvb = 0
    · simp [hk]
    · simp [hk, hi]
  · unfold acf_total
    rw [hb]
    by_cases hk : nvb_tx_last_bits acf.nvb = 0
    · simp [hk]
    · simp [hk]

theorem ext_acf_collision (P : Option rf_mode × RfCall → Prop) (D : Decls) (rf : Rf σ)
    (w : World σ) (acf : iso14443a_anticol_cmd) : Ext P w (acf_collision D rf w acf).w := by
  unfold acf_collision
  simp only []
  split_ifs
  · exact ext_get_error P rf w
  · exact ext_trans (ext_get_error P rf w) (ext_get_coll_pos P rf _)
  · exact ext_trans (ext_get_error P rf w) (ext_get_coll_pos P rf _)
  · exact ext_get_error P rf w

theorem ext_transceive_acf (D : Decls) (rf : Rf σ) (w : World σ) (acf : iso14443a_anticol_cmd)
    (h : acf_wf acf) : Ext (exchange_ok D) w (_iso14443a_transceive_acf D rf w acf).w := by
  have hx : Ext (exchange_ok D) w (acf_xcv D rf w acf).1 :=
    ext_mode_transceive (exchange_ok D) rf w (acf_mode D acf.nvb) FrameKind.acf _ _ 64 0x32 0
      (acf_exchange_ok D acf h _ (acf_bytes_take_nvb acf _ (acf_total_ge h)))
  rw [transceive_acf_eq]
  split_ifs
  · exact ext_set_rf_mode _ rf w _
  · refine ⟨[RfCall.set_rf_mode (acf_mode D acf.nvb),
        RfCall.transceive FrameKind.acf (acf_bytes acf) (acf_total acf.nvb) 64 0x32 0],
      by simp [_clrc632_set_rf_mode], ?_⟩
    intro m0 x hx0
    simp [exchanges_from] at hx0
    subst hx0
    exact acf_exchange_ok D acf h _ rfl
  · exact hx
  · split
    · exact hx
    · exact ext_trans hx (ext_acf_collision _ D rf _ _)

theorem ext_collision_loop (D : Decls) (rf : Rf σ) (fuel : Nat) :
    ∀ (w : World σ) (c : RandCtx) (acf : iso14443a_anticol_cmd) (boc : Nat),
      acf_wf acf → Ext (exchange_ok D) w (collision_loop D rf fuel w c acf boc).1.w := by
  induction fuel with
  | zero =>
    intro w c acf boc h
    unfold collision_loop
    split_ifs <;> exact ext_refl _ w
  | succ n ih =>
    intro w c acf boc h
    unfold collision_loop
    by_cases hb : boc ≠ ISO14443A_BITOFCOL_NONE
    · rw [if_pos hb]
      simp only []
      have h1 : acf_wf ⟨acf.sel_code, (iso14443a_code_nvb_bits acf.nvb boc).2,
          (rnd_toggle_bit_in_field D acf.uid_bits 5 boc c).1⟩ :=
        ⟨(toggle_length D acf.uid_bits 5 boc c).trans h.1,
          (code_nvb_bits_hi acf.nvb boc h.2).1, (code_nvb_bits_hi acf.nvb boc h.2).2⟩
      have hk := transceive_acf_wf D rf w _ h1
      have he := ext_transceive_acf D rf w _ h1
      split
      · split_ifs
        · exact he
        · exact ext_trans he (ih _ _ _ _ hk)
      · exact he
    · rw [if_neg hb]
      exact ext_refl _ w

theorem ext_anticol_phase (D : Decls) (rf : Rf σ) (fuel : Nat) (w : World σ) (c : RandCtx)
    (acf : iso14443a_anticol_cmd) (h : acf.uid_bits.length = 5) :
    Ext (exchange_ok D) w (anticol_phase D rf fuel w c acf).1.w := by
  unfold anticol_phase
  simp only [code_nvb_16]
  have h20 : 2 ≤ (0x20 : Nat) >>> 4 ∧ (0x20 : Nat) >>> 4 ≤ 7 := by decide
  have h1 : acf_wf { acf with nvb := 0x20 } := ⟨h, h20.1, h20.2⟩
  have hk := transceive_acf_wf D rf w _ h1
  have he := ext_transceive_acf D rf w _ h1
  split
  · split_ifs
    · exact he
    · exact ext_trans he (ext_collision_loop D rf fuel _ _ _ _ hk)
  · exact he

theorem ext_select_phase (D : Decls) (rf : Rf σ) (w : World σ) (acf : iso14443a_anticol_cmd)
    (h : acf.uid_bits.length = 5) :
    Ext (exchange_ok D) w (select_phase D rf w acf 3).1.w := by
  have hf : frametype_flags D RFID_14443A_FRAME_REGULAR
      = some (D.RF_PARITY_ENABLE ||| D.RF_TX_CRC ||| D.RF_RX_CRC) := by
    simp [frametype_flags]
  have h3 : ¬ ((3 : Nat) > 0xff) := by decide
  simp only [select_phase, _iso14443ab_transceive, hf, code_nvb_56, h3, if_false]
  split_ifs
  all_goals first
    | exact ext_set_rf_mode _ rf w _
    | exact ext_mode_transceive (exchange_ok D) rf w _ FrameKind.regular _ _ _ _ _
        (by simp [exchange_ok, acf_bytes, h])

theorem ext_transceive_sf (D : Decls) (rf : Rf σ) (w : World σ) (cmd : Nat) (atqa : List Nat) :
    Ext (exchange_ok D) w (_iso14443a_transceive_sf D rf w cmd atqa).w := by
  have hx := ext_mode_transceive (exchange_ok D) rf w ⟨7, 0, D.RF_PARITY_ENABLE⟩ FrameKind.sf
    [cmd % 256] 1 2 D.ISO14443A_FDT_ANTICOL_LAST1 0 (by simp [exchange_ok])
  have he := ext_trans hx (ext_get_error (exchange_ok D) rf _)
  have hc := ext_trans he (ext_get_coll_pos (exchange_ok D) rf _)
  unfold _iso14443a_transceive_sf
  simp only []
  split_ifs
  all_goals first
    | exact ext_set_rf_mode _ rf w _
    | exact hx
    | exact he
    | exact hc

/-- How one pass through the label `cascade:` ends: in its anti-collision
part, after its select exchange, or by going to the next level. -/
theorem cascade_cases (D : Decls) (rf : Rf σ) (fuel : Nat) (loc : SelectLocals) (w : World σ)
    (c : RandCtx) :
    (cascade D rf (fuel + 1) loc w c).w = (level_anticol D rf fuel loc w c).1.w ∨
      (cascade D rf (fuel + 1) loc w c).w = (level_select D rf fuel loc w c).1.w ∨
      ∃ dst code lv, cascade D rf (fuel + 1) loc w c =
        cascade D rf fuel (level_next D rf fuel loc w c dst code lv)
          (level_select D rf fuel loc w c).1.w (level_anticol D rf fuel loc w c).2 := by
  by_cases hp : (level_anticol D rf fuel loc w c).1.res = Res.ret 1
  · right
    by_cases hs : (level_select D rf fuel loc w c).1.ret = 0
    · left
      rw [cascade_select_fails D rf fuel loc w c hp hs]
    · by_cases hk : (level_select D rf fuel loc w c).1.rx_buf.getD 0 0 &&& 0x04 = 0
      · left
        rw [cascade_terminal D rf fuel loc w c hp hs hk, select_finish_w]
      · by_cases h1 : loc.acf.sel_code = D.ISO14443A_AC_SEL_CODE_CL1
        · by_cases h88 : (level_anticol D rf fuel loc w c).1.acf.uid_bits.getD 0 0 = 0x88
          · right
            exact ⟨0, D.ISO14443A_AC_SEL_CODE_CL2, ISO14443A_LEVEL_CL2,
              cascade_cl1_step D rf fuel loc w c h1 hp hs hk h88⟩
          · left
            rw [cascade_cl1_bad_tag D rf fuel loc w c h1 hp hs hk h88]
        · by_cases h2 : loc.acf.sel_code = D.ISO14443A_AC_SEL_CODE_CL2
          · right
            exact ⟨3, D.ISO14443A_AC_SEL_CODE_CL3, ISO14443A_LEVEL_CL3,
              cascade_cl2_step D rf fuel loc w c h2 (fun e => h1 (h2.trans e.symm)) hp hs hk⟩
          · left
            rw [cascade_too_deep D rf fuel loc w c h1 h2 hp hs hk]
  · left
    exact (cascade_anticol_stop D rf fuel loc w c hp).1

theorem level_next_length (D : Decls) (rf : Rf σ) (fuel : Nat) (loc : SelectLocals) (w : World σ)
    (c : RandCtx) (dst code : Nat) (lv : iso14443a_level) (h : loc.acf.uid_bits.length = 5) :
    (level_next D rf fuel loc w c dst code lv).acf.uid_bits.length = 5 :=
  (anticol_phase_wf D rf fuel w c loc.acf h).1

theorem ext_level_select (D : Decls) (rf : Rf σ) (fuel : Nat) (loc : SelectLocals) (w : World σ)
    (c : RandCtx) (h : loc.acf.uid_bits.length = 5) :
    Ext (exchange_ok D) w (level_anticol D rf fuel loc w c).1.w ∧
      Ext (exchange_ok D) w (level_select D rf fuel loc w c).1.w := by
  have ha : Ext (exchange_ok D) w (level_anticol D rf fuel loc w c).1.w :=
    ext_anticol_phase D rf fuel w c loc.acf h
  exact ⟨ha, ext_trans ha
    (ext_select_phase D rf _ _ (anticol_phase_wf D rf fuel w c loc.acf h).1)⟩

theorem ext_cascade (D : Decls) (rf : Rf σ) (fuel : Nat) :
    ∀ (loc : SelectLocals) (w : World σ) (c : RandCtx), loc.acf.uid_bits.length = 5 →
      Ext (exchange_ok D) w (cascade D rf fuel loc w c).w := by
  induction fuel with
  | zero =>
    intro loc w c _
    rw [cascade]
    exact ext_refl _ w
  | succ n ih =>
    intro loc w c h
    have hl := ext_level_select D rf n loc w c h
    rcases cascade_cases D rf n loc w c with h1 | h2 | ⟨dst, code, lv, h3⟩
    · rw [h1]; exact hl.1
    · rw [h2]; exact hl.2
    · rw [h3]
      exact ext_trans hl.2 (ih _ _ _ (level_next_length D rf n loc w c dst code lv h))

theorem ext_select (D : Decls) (rf : Rf σ) (fuel : Nat) (w : World σ) (c : RandCtx)
    (wup : Int) : Ext (exchange_ok D) w (_iso14443a_select D rf fuel w c wup).w := by
  have hsf : Ext (exchange_ok D) w (select_sf D rf w wup).w := ext_transceive_sf D rf w _ _
  rw [select_unfold]
  split_ifs
  · exact hsf
  · exact hsf
  · exact ext_trans hsf (ext_cascade D rf fuel _ _ _ rfl)

theorem frames_exchanges (k : FrameKind) (log : List RfCall) :
    ∀ m, frames k log = (exchanges_from m log).filterMap (fun x => frame_of k x.2) := by
  induction log with
  | nil => intro m; rfl
  | cons a rest ih =>
    intro m
    cases a with
    | set_rf_mode m1 =>
      have := ih (some m1)
      simp only [frames] at this ⊢
      simp [exchanges_from, frame_of, this]
    | transceive k1 tx a b c d =>
      have := ih m
      simp only [frames] at this ⊢
      simp [exchanges_from, List.filterMap_cons, this]
    | get_error =>
      have := ih m
      simp only [frames] at this ⊢
      simp [exchanges_from, frame_of, this]
    | get_coll_pos =>
      have := ih m
      simp only [frames] at this ⊢
      simp [exchanges_from, frame_of, this]

/-- Every exchange of a run of `_iso14443a_select` has the shape of its kind. -/
theorem select_exchanges_ok (D : Decls) (rf : Rf σ) (fuel : Nat) (dev : σ) (c : RandCtx)
    (wup : Int) :
    ∀ x ∈ exchanges (_iso14443a_select D rf fuel ⟨dev, []⟩ c wup).w.log, exchange_ok D x := by
  obtain ⟨ext, he, hs⟩ := ext_select D rf fuel ⟨dev, []⟩ c wup
  intro x hx
  rw [he] at hx
  exact hs none x (by simpa [exchanges] using hx)

theorem frames_mem_exchanges {k : FrameKind} {log : List RfCall} {tx : List Nat}
    (h : tx ∈ frames k log) :
    ∃ m a b c d, (m, RfCall.transceive k tx a b c d) ∈ exchanges log := by
  rw [frames_exchanges k log none, List.mem_filterMap] at h
  obtain ⟨⟨m, call⟩, hx, hf⟩ := h
  cases call with
  | transceive k1 tx1 a b c d =>
    simp only [frame_of] at hf
    by_cases hk : k1 = k
    · simp only [hk, if_true, Option.some.injEq] at hf
      subst hf; subst hk
      exact ⟨m, a, b, c, d, hx⟩
    · simp [hk] at hf
  | set_rf_mode m1 => simp [frame_of] at hf
  | get_error => simp [frame_of] at hf
  | get_coll_pos => simp [frame_of] at hf

/-! ### C16: the NVB of every exchange -/

/-- C16: NVB invariant.  For every RF service, device state, random context
and fuel, every anti-collision frame and every select frame that a run of
`_iso14443a_select` issues (also one that ends outside the frame or without
fuel) carries in its second byte an NVB whose byte count, the high nibble, is
between 2 and 7. -/
theorem select_nvb_invariant (D : Decls) (rf : Rf σ) (dev : σ) (c : RandCtx) (wup : Int)
    (fuel : Nat) (tx : List Nat)
    (h : tx ∈ frames FrameKind.acf (_iso14443a_select D rf fuel ⟨dev, []⟩ c wup).w.log ∨
      tx ∈ frames FrameKind.regular (_iso14443a_select D rf fuel ⟨dev, []⟩ c wup).w.log) :
    2 ≤ tx.getD 1 0 >>> 4 ∧ tx.getD 1 0 >>> 4 ≤ 7 := by
  rcases h with h | h
  · obtain ⟨m, a, b, t, f, hx⟩ := frames_mem_exchanges h
    have hok := select_exchanges_ok D rf fuel dev c wup _ hx
    simp only [exchange_ok] at hok
    exact ⟨hok.2.1, hok.2.2.1⟩
  · obtain ⟨m, a, b, t, f, hx⟩ := frames_mem_exchanges h
    have hok := select_exchanges_ok D rf fuel dev c wup _ hx
    simp only [exchange_ok] at hok
    rw [hok.2.2.1]
    decide

theorem select_nvb_invariant_witness :
    ([0x93, 0x30, 0x01] ∈ frames FrameKind.acf
        (_iso14443a_select decls_iso (script_rf card_collision) 5 ⟨0, []⟩ randctx_init 0).w.log ∨
      [0x93, 0x30, 0x01] ∈ frames FrameKind.regular
        (_iso14443a_select decls_iso (script_rf card_collision) 5 ⟨0, []⟩ randctx_init 0).w.log) ∧
      2 ≤ [0x93, 0x30, 0x01].getD 1 0 >>> 4 ∧ [0x93, 0x30, 0x01].getD 1 0 >>> 4 ≤ 7 :=
  ⟨by decide, select_nvb_invariant decls_iso (script_rf card_collision) 0 randctx_init 0 5
    [0x93, 0x30, 0x01] (by decide)⟩

/-! ### C14: the select frame -/

theorem select_phase_log (D : Decls) (rf : Rf σ) (w : World σ) (acf : iso14443a_anticol_cmd) :
    (select_phase D rf w acf 3).1.w.log =
      w.log ++ RfCall.set_rf_mode ⟨0, 0, D.RF_PARITY_ENABLE ||| D.RF_TX_CRC ||| D.RF_RX_CRC⟩ ::
        (if (_clrc632_set_rf_mode rf w
              ⟨0, 0, D.RF_PARITY_ENABLE ||| D.RF_TX_CRC ||| D.RF_RX_CRC⟩).2 then
          [RfCall.transceive FrameKind.regular (acf.sel_code :: 0x70 :: acf.uid_bits)
            7 3 TIMEOUT 0]
         else []) := by
  have hf : frametype_flags D RFID_14443A_FRAME_REGULAR
      = some (D.RF_PARITY_ENABLE ||| D.RF_TX_CRC ||| D.RF_RX_CRC) := by
    simp [frametype_flags]
  have h3 : ¬ ((3 : Nat) > 0xff) := by decide
  simp only [select_phase, _iso14443ab_transceive, hf, code_nvb_56, h3, if_false, acf_bytes]
  by_cases hm : (_clrc632_set_rf_mode rf w
      ⟨0, 0, D.RF_PARITY_ENABLE ||| D.RF_TX_CRC ||| D.RF_RX_CRC⟩).2 = true
  · simp only [hm, Bool.not_true, Bool.false_eq_true, if_false, if_true]
    simp [_clrc632_transceive, _clrc632_set_rf_mode]
  · have hm2 : (_clrc632_set_rf_mode rf w
        ⟨0, 0, D.RF_PARITY_ENABLE ||| D.RF_TX_CRC ||| D.RF_RX_CRC⟩).2 = false := by
      simpa using hm
    simp only [hm2, Bool.not_false, if_true, Bool.false_eq_true, if_false]
    simp [_clrc632_set_rf_mode]

/-- C14: full select frame.  Every regular exchange in the log of a run of
`_iso14443a_select` is made under the mode with no partial last byte, no
receive alignment and the flags parity, TX CRC and RX CRC, and transmits seven
bytes whose NVB is `0x70`.  At a cascade level whose anti-collision part ended
without collision, the select part sets that mode and, when this succeeds,
transmits the select code, `0x70` and the five UID-buffer bytes; when the
select exchange fails, the code from the label `cascade:` on returns 0 without
another call of the RF service. -/
theorem select_full_frame (D : Decls) (rf : Rf σ) (dev : σ) (c : RandCtx) (wup : Int)
    (fuel : Nat) (n : Nat) (loc : SelectLocals) (w : World σ) (c1 : RandCtx)
    (hlen : loc.acf.uid_bits.length = 5)
    (hp : (level_anticol D rf n loc w c1).1.res = Res.ret 1) :
    (∀ m tx a b t f,
        (m, RfCall.transceive FrameKind.regular tx a b t f) ∈
            exchanges (_iso14443a_select D rf fuel ⟨dev, []⟩ c wup).w.log →
          m = some ⟨0, 0, D.RF_PARITY_ENABLE ||| D.RF_TX_CRC ||| D.RF_RX_CRC⟩ ∧
            tx.length = 7 ∧ tx.getD 1 0 = 0x70 ∧ a = 7 ∧ b = 3 ∧ t = TIMEOUT ∧ f = 0) ∧
      (level_select D rf n loc w c1).1.w.log =
        (level_anticol D rf n loc w c1).1.w.log ++
          RfCall.set_rf_mode ⟨0, 0, D.RF_PARITY_ENABLE ||| D.RF_TX_CRC ||| D.RF_RX_CRC⟩ ::
            (if (_clrc632_set_rf_mode rf (level_anticol D rf n loc w c1).1.w
                  ⟨0, 0, D.RF_PARITY_ENABLE ||| D.RF_TX_CRC ||| D.RF_RX_CRC⟩).2 then
              [RfCall.transceive FrameKind.regular
                (loc.acf.sel_code :: 0x70 :: (level_anticol D rf n loc w c1).1.acf.uid_bits)
                7 3 TIMEOUT 0]
             else []) ∧
      (level_anticol D rf n loc w c1).1.acf.uid_bits.length = 5 ∧
      ((level_select D rf n loc w c1).1.ret = 0 →
        (cascade D rf (n + 1) loc w c1).res = Res.ret 0 ∧
          (cascade D rf (n + 1) loc w c1).w = (level_select D rf n loc w c1).1.w) := by
  refine ⟨?_, ?_, (anticol_phase_wf D rf n w c1 loc.acf hlen).1, ?_⟩
  · intro m tx a b t f hx
    have hok := select_exchanges_ok D rf fuel dev c wup _ hx
    simpa only [exchange_ok] using hok
  · have hk := (anticol_phase_keeps D rf n w c1 loc.acf).1
    simp only [level_select, level_anticol, select_phase_log, hk]
  · intro hs
    rw [cascade_select_fails D rf n loc w c1 hp hs]
    exact ⟨rfl, rfl⟩

theorem select_full_frame_witness :
    (locals_cl1 decls_iso [0x44, 0]).acf.uid_bits.length = 5 ∧
      (level_anticol decls_iso (script_rf card_double) 4 (locals_cl1 decls_iso [0x44, 0])
        ⟨1, []⟩ randctx_init).1.res = Res.ret 1 ∧
      (level_select decls_iso (script_rf card_double) 4 (locals_cl1 decls_iso [0x44, 0])
        ⟨1, []⟩ randctx_init).1.w.log =
        [RfCall.set_rf_mode ⟨0, 0, 1⟩,
         RfCall.transceive FrameKind.acf [0x93, 0x20] 2 64 0x32 0,
         RfCall.get_error,
         RfCall.set_rf_mode ⟨0, 0, 7⟩,
         RfCall.transceive FrameKind.regular [0x93, 0x70, 0x88, 0x01, 0x02, 0x03, 0x88]
           7 3 TIMEOUT 0] :=
  ⟨by decide, by decide,
    (select_full_frame decls_iso (script_rf card_double) 0 randctx_init 0 5 4
      (locals_cl1 decls_iso [0x44, 0]) ⟨1, []⟩ randctx_init (by decide) (by decide)).2.1.trans
      (by decide)⟩

/-! ### C15: the anti-collision frame -/

theorem acf_mode_eq (D : Decls) (nvb : Nat) :
    acf_mode D nvb = ⟨nvb_tx_last_bits nvb, nvb_tx_last_bits nvb, D.RF_PARITY_ENABLE⟩ := by
  have hi : nvb_tx_last_bits nvb &&& 7 = nvb_tx_last_bits nvb := and7_idem nvb
  unfold acf_mode
  by_cases hk : nvb_tx_last_bits nvb = 0
  · simp [hk]
  · simp [hk, hi]

theorem acf_total_eq (nvb : Nat) :
    acf_total nvb = if nvb_tx_last_bits nvb = 0 then nvb_tx_bytes nvb else nvb_tx_bytes nvb + 1 := by
  unfold acf_total
  by_cases hk : nvb_tx_last_bits nvb = 0 <;> simp [hk]

theorem sealed_false_nil {ext : List RfCall} (h : Sealed (fun _ => False) ext) :
    ∀ m, exchanges_from m ext = [] := by
  intro m
  rw [List.eq_nil_iff_forall_not_mem]
  intro x hx
  exact h m x hx

/-- The calls of one `_iso14443a_transceive_acf`: one exchange when the mode
could be set, none otherwise. -/
theorem transceive_acf_exch (D : Decls) (rf : Rf σ) (w : World σ) (acf : iso14443a_anticol_cmd) :
    ∃ ext, (_iso14443a_transceive_acf D rf w acf).w.log = w.log ++ ext ∧
      ∀ m0, exchanges_from m0 ext =
        if (_clrc632_set_rf_mode rf w (acf_mode D acf.nvb)).2 then
          [(some (acf_mode D acf.nvb),
            RfCall.transceive FrameKind.acf
              (if 7 < acf_total acf.nvb then acf_bytes acf
               else (acf_bytes acf).take (acf_total acf.nvb))
              (acf_total acf.nvb) 64 0x32 0)]
        else [] := by
  rw [transceive_acf_eq]
  by_cases hm : (_clrc632_set_rf_mode rf w (acf_mode D acf.nvb)).2 = true
  · simp only [hm, Bool.not_true, Bool.false_eq_true, if_false, if_true]
    by_cases ht : 7 < acf_total acf.nvb
    · simp only [ht, if_true]
      exact ⟨[RfCall.set_rf_mode (acf_mode D acf.nvb),
          RfCall.transceive FrameKind.acf (acf_bytes acf) (acf_total acf.nvb) 64 0x32 0],
        by simp [_clrc632_set_rf_mode], by intro m0; simp [exchanges_from]⟩
    · simp only [ht, if_false]
      have hx : (acf_xcv D rf w acf).1.log = w.log ++
          [RfCall.set_rf_mode (acf_mode D acf.nvb),
            RfCall.transceive FrameKind.acf ((acf_bytes acf).take (acf_total acf.nvb))
              (acf_total acf.nvb) 64 0x32 0] := by
        simp [acf_xcv, _clrc632_transceive, _clrc632_set_rf_mode]
      have hbase : ∃ ext, (acf_xcv D rf w acf).1.log = w.log ++ ext ∧
          ∀ m0, exchanges_from m0 ext =
            [(some (acf_mode D acf.nvb),
              RfCall.transceive FrameKind.acf ((acf_bytes acf).take (acf_total acf.nvb))
                (acf_total acf.nvb) 64 0x32 0)] :=
        ⟨_, hx, by intro m0; simp [exchanges_from]⟩
      split_ifs
      · exact hbase
      · split
        · exact hbase
        · rename_i a _
          obtain ⟨e2, he2, hs2⟩ := ext_acf_collision (fun _ => False) D rf
            (acf_xcv D rf w acf).1 a
          refine ⟨[RfCall.set_rf_mode (acf_mode D acf.nvb),
              RfCall.transceive FrameKind.acf ((acf_bytes acf).take (acf_total acf.nvb))
                (acf_total acf.nvb) 64 0x32 0] ++ e2,
            by rw [he2, hx, List.append_assoc], ?_⟩
          intro m0
          rw [exchanges_from_append, sealed_false_nil hs2]
          simp [exchanges_from]
  · have hm2 : (_clrc632_set_rf_mode rf w (acf_mode D acf.nvb)).2 = false := by simpa using hm
    simp only [hm2, Bool.not_false, if_true, Bool.false_eq_true, if_false]
    exact ⟨[RfCall.set_rf_mode (acf_mode D acf.nvb)], by simp [_clrc632_set_rf_mode],
      by intro m0; simp [exchanges_from]⟩

/-- What follows the probe in the anti-collision part of a level. -/
theorem anticol_phase_after (D : Decls) (rf : Rf σ) (fuel : Nat) (w : World σ) (c : RandCtx)
    (acf : iso14443a_anticol_cmd) (hlen : acf.uid_bits.length = 5) :
    ∃ e2, (anticol_phase D rf fuel w c acf).1.w.log =
        (_iso14443a_transceive_acf D rf w { acf with nvb := 0x20 }).w.log ++ e2 ∧
      ((_clrc632_set_rf_mode rf w (acf_mode D 0x20)).2 = false → e2 = []) := by
  have h20 : 2 ≤ (0x20 : Nat) >>> 4 ∧ (0x20 : Nat) >>> 4 ≤ 7 := by decide
  have h1 : acf_wf { acf with nvb := 0x20 } := ⟨hlen, h20.1, h20.2⟩
  have hk := transceive_acf_wf D rf w _ h1
  have hfail : (_clrc632_set_rf_mode rf w (acf_mode D 0x20)).2 = false →
      (_iso14443a_transceive_acf D rf w { acf with nvb := 0x20 }).res = Res.ret 0 := by
    intro hm
    rw [transceive_acf_eq]
    simp [hm]
  unfold anticol_phase
  simp only [code_nvb_16]
  split
  · rename_i v hv
    split_ifs with h0
    · exact ⟨[], by simp, fun _ => rfl⟩
    · obtain ⟨e2, he2, _⟩ := ext_collision_loop D rf fuel
        (_iso14443a_transceive_acf D rf w { acf with nvb := 0x20 }).w c _
        (_iso14443a_transceive_acf D rf w { acf with nvb := 0x20 }).bit_of_col hk
      refine ⟨e2, he2, fun hm => ?_⟩
      rw [hfail hm] at hv
      simp only [Res.ret.injEq] at hv
      exact absurd hv.symm h0
  · exact ⟨[], by simp, fun _ => rfl⟩

/-- C15: anti-collision frame shape.  For every frame, with `n` the byte count
and `k` the bit count that `_iso14443a_transceive_acf` reads from its NVB, the
call sets the mode `tx_last_bits = k`, `rx_align = k` with the parity flag
alone and, when that succeeds, makes exactly one exchange under it: an
anti-collision transceive of `n` bytes when `k = 0` and of `n + 1` bytes
otherwise, which are the first bytes of the frame when they are at most seven.
The first exchange of the anti-collision part of a cascade level is the probe:
the two bytes select code and `0x20`, under the mode with `rx_align = 0`. -/
theorem transceive_acf_shape (D : Decls) (rf : Rf σ) (w : World σ)
    (acf : iso14443a_anticol_cmd) (fuel : Nat) (c : RandCtx)
    (hlen : acf.uid_bits.length = 5) :
    (∃ ext, (_iso14443a_transceive_acf D rf w acf).w.log = w.log ++ ext ∧
      ∀ m0, exchanges_from m0 ext =
        if (_clrc632_set_rf_mode rf w
            ⟨nvb_tx_last_bits acf.nvb, nvb_tx_last_bits acf.nvb, D.RF_PARITY_ENABLE⟩).2 then
          [(some ⟨nvb_tx_last_bits acf.nvb, nvb_tx_last_bits acf.nvb, D.RF_PARITY_ENABLE⟩,
            RfCall.transceive FrameKind.acf
              (if 7 < (if nvb_tx_last_bits acf.nvb = 0 then nvb_tx_bytes acf.nvb
                       else nvb_tx_bytes acf.nvb + 1) then acf_bytes acf
               else (acf_bytes acf).take
                 (if nvb_tx_last_bits acf.nvb = 0 then nvb_tx_bytes acf.nvb
                  else nvb_tx_bytes acf.nvb + 1))
              (if nvb_tx_last_bits acf.nvb = 0 then nvb_tx_bytes acf.nvb
               else nvb_tx_bytes acf.nvb + 1) 64 0x32 0)]
        else []) ∧
      ((if nvb_tx_last_bits acf.nvb = 0 then nvb_tx_bytes acf.nvb
          else nvb_tx_bytes acf.nvb + 1) ≤ 7 →
        ((acf_bytes acf).take
            (if nvb_tx_last_bits acf.nvb = 0 then nvb_tx_bytes acf.nvb
             else nvb_tx_bytes acf.nvb + 1)).length =
          (if nvb_tx_last_bits acf.nvb = 0 then nvb_tx_bytes acf.nvb
           else nvb_tx_bytes acf.nvb + 1)) ∧
      (∃ ext, (anticol_phase D rf fuel w c acf).1.w.log = w.log ++ ext ∧
        ∀ m0, (exchanges_from m0 ext).head? =
          if (_clrc632_set_rf_mode rf w ⟨0, 0, D.RF_PARITY_ENABLE⟩).2 then
            some (some ⟨0, 0, D.RF_PARITY_ENABLE⟩,
              RfCall.transceive FrameKind.acf [acf.sel_code, 0x20] 2 64 0x32 0)
          else none) := by
  refine ⟨?_, ?_, ?_⟩
  · have h := transceive_acf_exch D rf w acf
    rw [acf_mode_eq, acf_total_eq] at h
    exact h
  · intro h7
    simp only [List.length_take, acf_bytes, List.length_cons, hlen]
    omega
  · obtain ⟨e1, he1, hx1⟩ := transceive_acf_exch D rf w { acf with nvb := 0x20 }
    obtain ⟨e2, he2, hnil⟩ := anticol_phase_after D rf fuel w c acf hlen
    have hmode : acf_mode D 0x20 = ⟨0, 0, D.RF_PARITY_ENABLE⟩ := by
      rw [acf_mode_eq]; rfl
    have htot : acf_total 0x20 = 2 := by decide
    rw [hmode] at hnil
    simp only [hmode, htot] at hx1
    refine ⟨e1 ++ e2, by rw [he2, he1, List.append_assoc], ?_⟩
    intro m0
    rw [exchanges_from_append, hx1]
    by_cases hm : (_clrc632_set_rf_mode rf w ⟨0, 0, D.RF_PARITY_ENABLE⟩).2 = true
    · simp [hm, acf_bytes]
    · have hm2 : (_clrc632_set_rf_mode rf w ⟨0, 0, D.RF_PARITY_ENABLE⟩).2 = false := by
        simpa using hm
      rw [hnil hm2]
      simp [hm2, exchanges_from]

theorem transceive_acf_shape_witness :
    (⟨0x93, 0x33, [0x11, 0x22, 0x33, 0x44, 0x55]⟩ : iso14443a_anticol_cmd).uid_bits.length = 5 ∧
      (∃ ext, (anticol_phase decls_iso (script_rf card_collision) 3 ⟨1, []⟩ randctx_init
            ⟨0x93, 0x33, [0x11, 0x22, 0x33, 0x44, 0x55]⟩).1.w.log = [] ++ ext ∧
        ∀ m0, (exchanges_from m0 ext).head? =
          if (_clrc632_set_rf_mode (script_rf card_collision) ⟨1, []⟩ ⟨0, 0, 1⟩).2 then
            some (some ⟨0, 0, 1⟩, RfCall.transceive FrameKind.acf [0x93, 0x20] 2 64 0x32 0)
          else none) :=
  ⟨by decide,
    (transceive_acf_shape decls_iso (script_rf card_collision) ⟨1, []⟩
      ⟨0x93, 0x33, [0x11, 0x22, 0x33, 0x44, 0x55]⟩ 3 randctx_init (by decide)).2.2⟩

/-! ### C13: the short frame -/

theorem transceive_sf_eq (D : Decls) (rf : Rf σ) (w : World σ) (cmd : Nat) (atqa : List Nat) :
    _iso14443a_transceive_sf D rf w cmd atqa =
      if !(sf_set D rf w).2 then ⟨0, (sf_set D rf w).1, atqa⟩
      else if !(sf_xcv D rf w cmd).2.ok then
        ⟨0, (sf_xcv D rf w cmd).1,
          [rx_byte (sf_xcv D rf w cmd).2.rx_buf 0, rx_byte (sf_xcv D rf w cmd).2.rx_buf 1]⟩
      else if !(sf_err D rf w cmd).2.1 then
        ⟨0, (sf_err D rf w cmd).1,
          [rx_byte (sf_xcv D rf w cmd).2.rx_buf 0, rx_byte (sf_xcv D rf w cmd).2.rx_buf 1]⟩
      else if (sf_err D rf w cmd).2.2 &&& D.RF_ERR_COLLISION ≠ 0 then
        if !(sf_pos D rf w cmd).2.1 then
          ⟨0, (sf_pos D rf w cmd).1,
            [rx_byte (sf_xcv D rf w cmd).2.rx_buf 0, rx_byte (sf_xcv D rf w cmd).2.rx_buf 1]⟩
        else if (sf_xcv D rf w cmd).2.rx_len % 256 ≠ 2 then
          ⟨0, (sf_pos D rf w cmd).1,
            [rx_byte (sf_xcv D rf w cmd).2.rx_buf 0, rx_byte (sf_xcv D rf w cmd).2.rx_buf 1]⟩
        else
          ⟨1, (sf_pos D rf w cmd).1,
            [rx_byte (sf_xcv D rf w cmd).2.rx_buf 0, rx_byte (sf_xcv D rf w cmd).2.rx_buf 1]⟩
      else if (sf_xcv D rf w cmd).2.rx_len % 256 ≠ 2 then
        ⟨0, (sf_err D rf w cmd).1,
          [rx_byte (sf_xcv D rf w cmd).2.rx_buf 0, rx_byte (sf_xcv D rf w cmd).2.rx_buf 1]⟩
      else
        ⟨1, (sf_err D rf w cmd).1,
          [rx_byte (sf_xcv D rf w cmd).2.rx_buf 0, rx_byte (sf_xcv D rf w cmd).2.rx_buf 1]⟩ :=
  rfl

theorem transceive_sf_ret (D : Decls) (rf : Rf σ) (w : World σ) (cmd : Nat) (atqa : List Nat) :
    ((_iso14443a_transceive_sf D rf w cmd atqa).ret = 1 ∨
        (_iso14443a_transceive_sf D rf w cmd atqa).ret = 0) ∧
      ((_iso14443a_transceive_sf D rf w cmd atqa).ret = 1 ↔
        (sf_set D rf w).2 = true ∧ (sf_xcv D rf w cmd).2.ok = true ∧
          (sf_err D rf w cmd).2.1 = true ∧
          ((sf_err D rf w cmd).2.2 &&& D.RF_ERR_COLLISION ≠ 0 → (sf_pos D rf w cmd).2.1 = true) ∧
          (sf_xcv D rf w cmd).2.rx_len % 256 = 2) := by
  rw [transceive_sf_eq]
  split_ifs <;> simp_all

theorem transceive_sf_exch (D : Decls) (rf : Rf σ) (dev : σ) (cmd : Nat) (atqa : List Nat) :
    (_iso14443a_transceive_sf D rf ⟨dev, []⟩ cmd atqa).w.log.head? =
        some (RfCall.set_rf_mode ⟨7, 0, D.RF_PARITY_ENABLE⟩) ∧
      exchanges (_iso14443a_transceive_sf D rf ⟨dev, []⟩ cmd atqa).w.log =
        if (sf_set D rf ⟨dev, []⟩).2 then
          [(some ⟨7, 0, D.RF_PARITY_ENABLE⟩,
            RfCall.transceive FrameKind.sf [cmd % 256] 1 2 D.ISO14443A_FDT_ANTICOL_LAST1 0)]
        else [] := by
  rw [transceive_sf_eq]
  split_ifs <;>
    simp_all [exchanges, exchanges_from, sf_set, sf_xcv, sf_err, sf_pos, _clrc632_set_rf_mode,
      _clrc632_transceive, _clrc632_get_error, _clrc632_get_coll_pos]

theorem sf_cmd_byte (wup : Int) : sf_cmd wup % 256 = if wup ≠ 0 then 0x52 else 0x26 := by
  unfold sf_cmd
  by_cases hw : wup = 0
  · simp only [hw, ne_eq, not_true_eq_false, if_false]; rfl
  · simp only [ne_eq, hw, not_false_eq_true, if_true]; rfl

/-- C13: short frame.  The first call of `_iso14443a_select` is
`_iso14443a_transceive_sf` with the command `0x52` when `wup` is non-zero and
`0x26` otherwise.  That call first sets the mode with 7 bits in the last byte,
no receive alignment and the parity flag alone, and then makes at most one
exchange, of that one command byte.  It returns 1 or 0, and 1 exactly when
setting the mode, the transceive, `_clrc632_get_error` and (when a collision is
flagged) `_clrc632_get_coll_pos` all succeed and two bytes were received.
When it returns 0, `_iso14443a_select` returns 0 with no further call of the
RF service, so that no anti-collision frame is in the log. -/
theorem select_short_frame (D : Decls) (rf : Rf σ) (dev : σ) (c : RandCtx) (wup : Int)
    (fuel : Nat) :
    select_sf D rf ⟨dev, []⟩ wup = _iso14443a_transceive_sf D rf ⟨dev, []⟩ (sf_cmd wup) [0, 0] ∧
      (select_sf D rf ⟨dev, []⟩ wup).w.log <+:
        (_iso14443a_select D rf fuel ⟨dev, []⟩ c wup).w.log ∧
      (select_sf D rf ⟨dev, []⟩ wup).w.log.head? =
        some (RfCall.set_rf_mode ⟨7, 0, D.RF_PARITY_ENABLE⟩) ∧
      exchanges (select_sf D rf ⟨dev, []⟩ wup).w.log =
        (if (sf_set D rf ⟨dev, []⟩).2 then
          [(some ⟨7, 0, D.RF_PARITY_ENABLE⟩,
            RfCall.transceive FrameKind.sf [if wup ≠ 0 then 0x52 else 0x26] 1 2
              D.ISO14443A_FDT_ANTICOL_LAST1 0)]
         else []) ∧
      ((select_sf D rf ⟨dev, []⟩ wup).ret = 1 ∨ (select_sf D rf ⟨dev, []⟩ wup).ret = 0) ∧
      ((select_sf D rf ⟨dev, []⟩ wup).ret = 1 ↔
        (sf_set D rf ⟨dev, []⟩).2 = true ∧ (sf_xcv D rf ⟨dev, []⟩ (sf_cmd wup)).2.ok = true ∧
          (sf_err D rf ⟨dev, []⟩ (sf_cmd wup)).2.1 = true ∧
          ((sf_err D rf ⟨dev, []⟩ (sf_cmd wup)).2.2 &&& D.RF_ERR_COLLISION ≠ 0 →
            (sf_pos D rf ⟨dev, []⟩ (sf_cmd wup)).2.1 = true) ∧
          (sf_xcv D rf ⟨dev, []⟩ (sf_cmd wup)).2.rx_len % 256 = 2) ∧
      ((select_sf D rf ⟨dev, []⟩ wup).ret = 0 →
        (_iso14443a_select D rf fuel ⟨dev, []⟩ c wup).res = Res.ret 0 ∧
          (_iso14443a_select D rf fuel ⟨dev, []⟩ c wup).w = (select_sf D rf ⟨dev, []⟩ wup).w ∧
          frames FrameKind.acf (_iso14443a_select D rf fuel ⟨dev, []⟩ c wup).w.log = []) := by
  have hdef : select_sf D rf ⟨dev, []⟩ wup =
      _iso14443a_transceive_sf D rf ⟨dev, []⟩ (sf_cmd wup) [0, 0] := rfl
  have hex := transceive_sf_exch D rf dev (sf_cmd wup) [0, 0]
  have hret := transceive_sf_ret D rf ⟨dev, []⟩ (sf_cmd wup) [0, 0]
  rw [sf_cmd_byte] at hex
  rw [← hdef] at hex hret
  refine ⟨hdef, ?_, hex.1, hex.2, hret.1, hret.2, ?_⟩
  · rw [select_unfold]
    split_ifs
    · exact List.prefix_refl _
    · exact List.prefix_refl _
    · exact ext_prefix (ext_cascade D rf fuel _ _ _ rfl)
  · intro h0
    rw [select_unfold, if_pos h0]
    refine ⟨rfl, rfl, ?_⟩
    simp only [select_sf, frames_transceive_sf D rf _ _ _ FrameKind.acf (by decide)]
    rfl

/-! ### C12: the collision report -/

/-- C12: collision report.  When `_iso14443a_transceive_acf` returns 1, the
value left in `*bit_of_col` is the sentinel `0xffffffff` exactly when the error
flags read by `_clrc632_get_error` have no collision bit; otherwise it is 16
plus the position read by `_clrc632_get_coll_pos`, a value between 16 and 271
that differs from the sentinel. -/
theorem transceive_acf_collision_report (D : Decls) (rf : Rf σ) (w : World σ)
    (acf : iso14443a_anticol_cmd)
    (h : (_iso14443a_transceive_acf D rf w acf).res = Res.ret 1) :
    ISO14443A_BITOFCOL_NONE = 0xffffffff ∧
      ((_iso14443a_transceive_acf D rf w acf).bit_of_col = ISO14443A_BITOFCOL_NONE ↔
        (acf_err D rf w acf).2.2 &&& D.RF_ERR_COLLISION = 0) ∧
      ((acf_err D rf w acf).2.2 &&& D.RF_ERR_COLLISION ≠ 0 →
        (_iso14443a_transceive_acf D rf w acf).bit_of_col = 16 + (acf_pos D rf w acf).2.2 ∧
          16 ≤ (_iso14443a_transceive_acf D rf w acf).bit_of_col ∧
          (_iso14443a_transceive_acf D rf w acf).bit_of_col ≤ 271 ∧
          (_iso14443a_transceive_acf D rf w acf).bit_of_col ≠ ISO14443A_BITOFCOL_NONE) := by
  obtain ⟨_, _, _, acf1, _, heq⟩ := transceive_acf_success D rf w acf h
  have hpos : (acf_pos D rf w acf).2.2 < 256 := by
    simp only [acf_pos, _clrc632_get_coll_pos]
    exact Nat.mod_lt _ (by decide)
  rw [heq] at h ⊢
  have he : _clrc632_get_error rf (acf_xcv D rf w acf).1 = acf_err D rf w acf := rfl
  have hp : _clrc632_get_coll_pos rf (acf_err D rf w acf).1 = acf_pos D rf w acf := rfl
  unfold acf_collision at h ⊢
  simp only [he, hp] at h ⊢
  refine ⟨rfl, ?_⟩
  by_cases h1 : (acf_err D rf w acf).2.1 = true
  · by_cases h2 : (acf_err D rf w acf).2.2 &&& D.RF_ERR_COLLISION = 0
    · simp [h1, h2]
    · by_cases h3 : (acf_pos D rf w acf).2.1 = true
      · simp only [h1, h2, h3, Bool.not_true, Bool.false_eq_true, if_false, ne_eq,
          not_false_eq_true, if_true, ISO14443A_BITOFCOL_NONE]
        refine ⟨⟨fun hh => by omega, fun hh => hh.elim⟩,
          fun _ => ⟨trivial, by omega, by omega, by omega⟩⟩
      · simp [h1, h2, h3] at h
  · simp [h1] at h

theorem transceive_acf_collision_report_witness :
    (_iso14443a_transceive_acf decls_iso (script_rf card_collision) ⟨1, []⟩
        ⟨0x93, 0x20, [0, 0, 0, 0, 0]⟩).res = Res.ret 1 ∧
      (_iso14443a_transceive_acf decls_iso (script_rf card_collision) ⟨1, []⟩
        ⟨0x93, 0x20, [0, 0, 0, 0, 0]⟩).bit_of_col = 24 :=
  ⟨by decide,
    ((transceive_acf_collision_report decls_iso (script_rf card_collision) ⟨1, []⟩
      ⟨0x93, 0x20, [0, 0, 0, 0, 0]⟩ (by decide)).2.2 (by decide)).1.trans (by decide)⟩

/-! ### C11: what the merge does to the frame -/

theorem merge_result (s nvb u0 u1 u2 u3 u4 : Nat) (rx : List Nat) (rx_len n k : Nat)
    (acf1 : iso14443a_anticol_cmd)
    (hn : nvb_tx_bytes nvb = n) (hk : nvb_tx_last_bits nvb = k) (hlo : 2 ≤ n) (hhi : n ≤ 7)
    (h : acf_merge ⟨s, nvb, [u0, u1, u2, u3, u4]⟩ rx rx_len = some acf1) :
    acf1.sel_code = s ∧ acf1.nvb = nvb ∧ acf1.uid_bits.length = 5 ∧
      (∀ i, i < n - 2 → acf1.uid_bits.getD i 0 = [u0, u1, u2, u3, u4].getD i 0) ∧
      acf1.uid_bits.getD (n - 2) 0 =
        (([u0, u1, u2, u3, u4].getD (n - 2) 0 &&& (0xff >>> (8 - k))) ||| rx_byte rx 0) % 256 ∧
      (∀ j, 1 ≤ j → j < rx_len → acf1.uid_bits.getD (n - 2 + j) 0 = rx_byte rx j) ∧
      (1 ≤ rx_len → n + rx_len ≤ 7) := by
  have hcases : rx_len = 0 ∨ rx_len = 1 ∨ rx_len = 2 ∨ rx_len = 3 ∨ rx_len = 4 ∨ rx_len = 5 ∨
      ∃ m, rx_len = m + 6 := by
    by_cases h : rx_len < 6
    · omega
    · exact Or.inr (Or.inr (Or.inr (Or.inr (Or.inr (Or.inr ⟨rx_len - 6, by omega⟩)))))
  interval_cases n <;>
    rcases hcases with h0 | h0 | h0 | h0 | h0 | h0 | ⟨m, h0⟩ <;>
    subst h0 <;>
    simp [acf_merge, hn, hk, acf_bytes, acf_store, acf_memcpy, rx_byte_mod] at h <;>
    subst h <;>
    refine ⟨rfl, rfl, rfl, ?_, ?_, ?_, ?_⟩ <;>
    first
      | omega
      | (intro i hi; interval_cases i <;> simp)
      | (intro j hj1 hj2; interval_cases j <;> simp)
      | simp

theorem rx_byte_lt (rx : List Nat) (i : Nat) : rx_byte rx i < 256 := by
  unfold rx_byte
  exact Nat.mod_lt _ (by decide)

/-- The bits of the split byte after the merge: those from position `k` on are
the bits of the received byte, the `k` low ones are the old bits or-ed with
the received ones. -/
theorem split_byte_bits (old r k : Nat) (hk : k ≤ 7) (hr : r < 256) :
    (∀ i, k ≤ i →
        (((old &&& (0xff >>> (8 - k))) ||| r) % 256).testBit i = r.testBit i) ∧
      (∀ i, i < k →
        (((old &&& (0xff >>> (8 - k))) ||| r) % 256).testBit i
          = (old.testBit i || r.testBit i)) ∧
      (r % 2 ^ k = 0 →
        (((old &&& (0xff >>> (8 - k))) ||| r) % 256) % 2 ^ k = old % 2 ^ k) := by
  have hmask : (0xff : Nat) >>> (8 - k) = 2 ^ k - 1 := by
    interval_cases k <;> rfl
  have h256 : (256 : Nat) = 2 ^ 8 := rfl
  have hhigh : ∀ i, 8 ≤ i → r.testBit i = false := by
    intro i hi
    apply Nat.testBit_eq_false_of_lt
    calc r < 2 ^ 8 := hr
      _ ≤ 2 ^ i := Nat.pow_le_pow_right (by decide) hi
  rw [hmask, h256]
  refine ⟨?_, ?_, ?_⟩
  · intro i hi
    simp only [Nat.testBit_mod_two_pow, Nat.testBit_or, Nat.testBit_and,
      Nat.testBit_two_pow_sub_one]
    by_cases h8 : i < 8
    · have : ¬ i < k := by omega
      simp [h8, this]
    · simp [h8, hhigh i (by omega)]
  · intro i hi
    simp only [Nat.testBit_mod_two_pow, Nat.testBit_or, Nat.testBit_and,
      Nat.testBit_two_pow_sub_one]
    have h8 : i < 8 := by omega
    simp [h8, hi]
  · intro hz
    apply Nat.eq_of_testBit_eq
    intro i
    have hri : (decide (i < k) && r.testBit i) = false := by
      have := congrArg (fun x => x.testBit i) hz
      simpa [Nat.testBit_mod_two_pow] using this
    simp only [Nat.testBit_mod_two_pow, Nat.testBit_or, Nat.testBit_and,
      Nat.testBit_two_pow_sub_one]
    by_cases hik : i < k
    · have h8 : i < 8 := by omega
      simp only [hik, decide_True, Bool.true_and] at hri
      simp [hik, h8, hri]
    · simp [hik]

/-- C11, counterexample: with NVB `0x31` (byte count 3, bit count 1) and the
split byte `uid_bits[1] = 0`, a response whose first byte is `0x01` makes the
call return 1 and leaves `uid_bits[1] = 1`: the low bit, known from the
request, has changed.  With NVB `0x10` (byte count 1) the call returns 1 and
the NVB itself has been overwritten by the first received byte. -/
theorem merge_alters_known_bit :
    (_iso14443a_transceive_acf decls_iso (script_rf [answer [0x01]]) ⟨0, []⟩
        ⟨0x93, 0x31, [0xAA, 0, 0, 0, 0]⟩).res = Res.ret 1 ∧
      nvb_tx_bytes 0x31 = 3 ∧ nvb_tx_last_bits 0x31 = 1 ∧
      ([0xAA, 0, 0, 0, 0] : List Nat).getD (3 - 2) 0 % 2 ^ 1 = 0 ∧
      (_iso14443a_transceive_acf decls_iso (script_rf [answer [0x01]]) ⟨0, []⟩
        ⟨0x93, 0x31, [0xAA, 0, 0, 0, 0]⟩).acf.uid_bits.getD (3 - 2) 0 % 2 ^ 1 = 1 ∧
      (_iso14443a_transceive_acf decls_iso (script_rf [answer [0x01]]) ⟨0, []⟩
        ⟨0x93, 0x10, [0xAA, 0, 0, 0, 0]⟩).res = Res.ret 1 ∧
      nvb_tx_bytes 0x10 = 1 ∧
      (_iso14443a_transceive_acf decls_iso (script_rf [answer [0x01]]) ⟨0, []⟩
        ⟨0x93, 0x10, [0xAA, 0, 0, 0, 0]⟩).acf.nvb = 0x01 := by
  decide

/-- C11, amended: after a successful `_iso14443a_transceive_acf` on a frame
whose NVB has a byte count `n` of at least 2 and the bit count `k`, (1) the
select code, the NVB and the UID-buffer bytes below index `n - 2` are
unchanged; (2) the split byte `uid_bits[n - 2]` is
`(old & (0xff >> (8 - k))) | rx[0]`: its bits from position `k` on are those of
the first received byte, each of its `k` low bits is the old bit or-ed with
the received one, so the low bits keep their values when the first received
byte has none of them set; (3) the received bytes after the first are stored
from `uid_bits[n - 1]` on, and they fit the frame. -/
theorem merge_known_bits (D : Decls) (rf : Rf σ) (w : World σ) (acf : iso14443a_anticol_cmd)
    (hlen : acf.uid_bits.length = 5) (hn : 2 ≤ nvb_tx_bytes acf.nvb)
    (h : (_iso14443a_transceive_acf D rf w acf).res = Res.ret 1) :
    (_iso14443a_transceive_acf D rf w acf).acf.sel_code = acf.sel_code ∧
      (_iso14443a_transceive_acf D rf w acf).acf.nvb = acf.nvb ∧
      (∀ i, i < nvb_tx_bytes acf.nvb - 2 →
        (_iso14443a_transceive_acf D rf w acf).acf.uid_bits.getD i 0 = acf.uid_bits.getD i 0) ∧
      (_iso14443a_transceive_acf D rf w acf).acf.uid_bits.getD (nvb_tx_bytes acf.nvb - 2) 0 =
        ((acf.uid_bits.getD (nvb_tx_bytes acf.nvb - 2) 0 &&&
              (0xff >>> (8 - nvb_tx_last_bits acf.nvb))) |||
            rx_byte (acf_xcv D rf w acf).2.rx_buf 0) % 256 ∧
      (∀ i, nvb_tx_last_bits acf.nvb ≤ i →
        ((_iso14443a_transceive_acf D rf w acf).acf.uid_bits.getD
            (nvb_tx_bytes acf.nvb - 2) 0).testBit i
          = (rx_byte (acf_xcv D rf w acf).2.rx_buf 0).testBit i) ∧
      (∀ i, i < nvb_tx_last_bits acf.nvb →
        ((_iso14443a_transceive_acf D rf w acf).acf.uid_bits.getD
            (nvb_tx_bytes acf.nvb - 2) 0).testBit i
          = ((acf.uid_bits.getD (nvb_tx_bytes acf.nvb - 2) 0).testBit i ||
              (rx_byte (acf_xcv D rf w acf).2.rx_buf 0).testBit i)) ∧
      (rx_byte (acf_xcv D rf w acf).2.rx_buf 0 % 2 ^ nvb_tx_last_bits acf.nvb = 0 →
        (_iso14443a_transceive_acf D rf w acf).acf.uid_bits.getD (nvb_tx_bytes acf.nvb - 2) 0
            % 2 ^ nvb_tx_last_bits acf.nvb
          = acf.uid_bits.getD (nvb_tx_bytes acf.nvb - 2) 0 % 2 ^ nvb_tx_last_bits acf.nvb) ∧
      (∀ j, 1 ≤ j → j < (acf_xcv D rf w acf).2.rx_len % 256 →
        (_iso14443a_transceive_acf D rf w acf).acf.uid_bits.getD
            (nvb_tx_bytes acf.nvb - 2 + j) 0
          = rx_byte (acf_xcv D rf w acf).2.rx_buf j) ∧
      (1 ≤ (acf_xcv D rf w acf).2.rx_len % 256 →
        nvb_tx_bytes acf.nvb + (acf_xcv D rf w acf).2.rx_len % 256 ≤ 7) := by
  obtain ⟨_, _, _, acf1, hmerge, heq⟩ := transceive_acf_success D rf w acf h
  have hacf : (_iso14443a_transceive_acf D rf w acf).acf = acf1 := by
    rw [heq, acf_collision_acf]
  have hk7 : nvb_tx_last_bits acf.nvb ≤ 7 := by
    unfold nvb_tx_last_bits
    exact Nat.and_le_right
  have hn7 : nvb_tx_bytes acf.nvb ≤ 7 := by
    unfold nvb_tx_bytes
    exact Nat.and_le_right
  obtain ⟨s, nvb, bits⟩ := acf
  obtain ⟨u0, u1, u2, u3, u4, hb⟩ := list_length_five hlen
  simp only at hb hn hk7 hn7
  subst hb
  obtain ⟨r1, r2, _, r4, r5, r6, r7⟩ := merge_result s nvb u0 u1 u2 u3 u4 _ _
    (nvb_tx_bytes nvb) (nvb_tx_last_bits nvb) acf1 rfl rfl hn hn7 hmerge
  have hbits := split_byte_bits ([u0, u1, u2, u3, u4].getD (nvb_tx_bytes nvb - 2) 0)
    (rx_byte (acf_xcv D rf w ⟨s, nvb, [u0, u1, u2, u3, u4]⟩).2.rx_buf 0)
    (nvb_tx_last_bits nvb) hk7 (rx_byte_lt _ _)
  rw [hacf]
  simp only
  rw [r5]
  exact ⟨r1, r2, r4, rfl, hbits.1, hbits.2.1, hbits.2.2, r6, r7⟩

theorem merge_known_bits_witness :
    (⟨0x93, 0x31, [0xAA, 0x01, 0, 0, 0]⟩ : iso14443a_anticol_cmd).uid_bits.length = 5 ∧
      2 ≤ nvb_tx_bytes 0x31 ∧
      (_iso14443a_transceive_acf decls_iso (script_rf [answer [0xB2, 0xCC]]) ⟨0, []⟩
        ⟨0x93, 0x31, [0xAA, 0x01, 0, 0, 0]⟩).res = Res.ret 1 ∧
      (_iso14443a_transceive_acf decls_iso (script_rf [answer [0xB2, 0xCC]]) ⟨0, []⟩
        ⟨0x93, 0x31, [0xAA, 0x01, 0, 0, 0]⟩).acf = ⟨0x93, 0x31, [0xAA, 0xB3, 0xCC, 0, 0]⟩ ∧
      (_iso14443a_transceive_acf decls_iso (script_rf [answer [0xB2, 0xCC]]) ⟨0, []⟩
        ⟨0x93, 0x31, [0xAA, 0x01, 0, 0, 0]⟩).acf.sel_code = 0x93 :=
  ⟨by decide, by decide, by decide, by decide,
    (merge_known_bits decls_iso (script_rf [answer [0xB2, 0xCC]]) ⟨0, []⟩
      ⟨0x93, 0x31, [0xAA, 0x01, 0, 0, 0]⟩ (by decide) (by decide) (by decide)).1⟩

/-! ### C20: the random toggle -/

theorem random_bit_le (D : Decls) (c : RandCtx) : (random_bit D c).1 ≤ 1 := by
  unfold random_bit
  exact Nat.and_le_right

theorem getD_set (l : List Nat) (i j v : Nat) :
    (l.set i v).getD j 0 = if i = j ∧ i < l.length then v else l.getD j 0 := by
  simp only [List.getD_eq_getElem?_getD, List.getElem?_set]
  by_cases hij : i = j
  · subst hij
    by_cases hl : i < l.length
    · simp [hl]
    · simp [hl, List.getElem?_eq_none (Nat.le_of_not_lt hl)]
  · simp [hij]

theorem getD_lt_of_mem (l : List Nat) (h : ∀ b ∈ l, b < 256) (i : Nat) : l.getD i 0 < 256 := by
  rw [List.getD_eq_getElem?_getD]
  cases hi : l[i]? with
  | none => simp
  | some v => exact h v (List.getElem?_mem hi)

theorem toggle_byte (old r s : Nat) (hold : old < 256) (hr : r ≤ 1) (hs : s < 8) :
    (old ^^^ (r <<< s) % 2 ^ 32) % 256 = old ^^^ (r <<< s) ∧
      ∀ j, (old ^^^ (r <<< s)).testBit j = (old.testBit j ^^ (decide (j = s) && decide (r = 1))) := by
  have hm : r <<< s < 256 := by
    interval_cases r <;> interval_cases s <;> decide
  have h1 : r <<< s % 2 ^ 32 = r <<< s := Nat.mod_eq_of_lt (by omega)
  have h2 : old ^^^ (r <<< s) < 2 ^ 8 := Nat.xor_lt_two_pow hold hm
  refine ⟨by rw [h1]; exact Nat.mod_eq_of_lt h2, ?_⟩
  intro j
  rw [Nat.testBit_xor, Nat.testBit_shiftLeft]
  interval_cases r
  · simp
  · by_cases hj : j = s
    · subst hj; simp
    · by_cases hge : j ≥ s
      · have hne : j - s ≠ 0 := by omega
        have hf : Nat.testBit 1 (j - s) = false := by
          cases hb : Nat.testBit 1 (j - s) with
          | false => rfl
          | true => exact absurd (Nat.testBit_one_eq_true_iff_self_eq_zero.mp hb) hne
        simp [hj, hge, hf]
      · simp [hj, hge]

/-- C20: `rnd_toggle_bit_in_field` numbers the bits from 1.  On a field of
`size` bytes: when `1 ≤ bit ≤ 8 * size` it draws one random bit `r` (0 or 1)
and XORs `r << ((bit - 1) % 8)` into the byte `(bit - 1) / 8`, so that bit
`(bit - 1) % 8` of that byte is flipped exactly when `r = 1`, every other bit
and byte stays, and the field is unchanged when `r = 0`; when `bit = 0` or
`bit > 8 * size` the field and the random context are unchanged. -/
theorem rnd_toggle_spec (D : Decls) (bitfield : List Nat) (size bit : Nat) (c : RandCtx)
    (hsz : size * 8 < 2 ^ 32) (hlen : bitfield.length = size)
    (hbytes : ∀ b ∈ bitfield, b < 256) :
    (random_bit D c).1 ≤ 1 ∧
      (1 ≤ bit ∧ bit ≤ 8 * size →
        (rnd_toggle_bit_in_field D bitfield size bit c).2 = (random_bit D c).2 ∧
          (rnd_toggle_bit_in_field D bitfield size bit c).1.length = size ∧
          (∀ i, i ≠ (bit - 1) / 8 →
            (rnd_toggle_bit_in_field D bitfield size bit c).1.getD i 0 = bitfield.getD i 0) ∧
          (rnd_toggle_bit_in_field D bitfield size bit c).1.getD ((bit - 1) / 8) 0 =
            bitfield.getD ((bit - 1) / 8) 0 ^^^ ((random_bit D c).1 <<< ((bit - 1) % 8)) ∧
          (∀ j, ((rnd_toggle_bit_in_field D bitfield size bit c).1.getD ((bit - 1) / 8) 0).testBit j =
            ((bitfield.getD ((bit - 1) / 8) 0).testBit j ^^
              (decide (j = (bit - 1) % 8) && decide ((random_bit D c).1 = 1)))) ∧
          ((random_bit D c).1 = 0 →
            (rnd_toggle_bit_in_field D bitfield size bit c).1 = bitfield)) ∧
      (bit = 0 ∨ 8 * size < bit →
        rnd_toggle_bit_in_field D bitfield size bit c = (bitfield, c)) := by
  have hr := random_bit_le D c
  have hmod : (size * 8) % 2 ^ 32 = size * 8 := Nat.mod_eq_of_lt hsz
  refine ⟨hr, ?_, ?_⟩
  · rintro ⟨h1, h2⟩
    have hguard : bit ≠ 0 ∧ bit ≤ (size * 8) % 2 ^ 32 := ⟨by omega, by rw [hmod]; omega⟩
    have hbyte : (bit - 1) / 8 < bitfield.length := by
      rw [hlen]
      omega
    have hs : (bit - 1) % 8 < 8 := Nat.mod_lt _ (by decide)
    have hold := getD_lt_of_mem bitfield hbytes ((bit - 1) / 8)
    obtain ⟨hval, hbits⟩ := toggle_byte (bitfield.getD ((bit - 1) / 8) 0) (random_bit D c).1
      ((bit - 1) % 8) hold hr hs
    unfold rnd_toggle_bit_in_field
    rw [if_pos hguard]
    simp only [hval]
    refine ⟨trivial, by rw [List.length_set]; exact hlen, ?_, ?_, ?_, ?_⟩
    · intro i hi
      rw [getD_set]
      have : ¬ ((bit - 1) / 8 = i ∧ (bit - 1) / 8 < bitfield.length) := fun h => hi h.1.symm
      rw [if_neg this]
    · rw [getD_set, if_pos ⟨rfl, hbyte⟩]
    · intro j
      rw [getD_set, if_pos ⟨rfl, hbyte⟩]
      exact hbits j
    · intro h0
      rw [h0]
      apply List.ext_getElem?
      intro i
      rw [List.getElem?_set]
      by_cases hi : (bit - 1) / 8 = i
      · subst hi
        simp [hbyte, List.getD_eq_getElem?_getD, List.getElem?_eq_getElem hbyte]
      · simp [hi]
  · intro h
    have hguard : ¬ (bit ≠ 0 ∧ bit ≤ (size * 8) % 2 ^ 32) := by
      rw [hmod]
      omega
    unfold rnd_toggle_bit_in_field
    rw [if_neg hguard]

theorem rnd_toggle_spec_witness :
    5 * 8 < 2 ^ 32 ∧ ([0x0F, 0, 0, 0, 0] : List Nat).length = 5 ∧
      (∀ b ∈ ([0x0F, 0, 0, 0, 0] : List Nat), b < 256) ∧
      (1 ≤ 3 ∧ 3 ≤ 8 * 5) ∧ (random_bit decls_iso randctx_init).1 = 1 ∧
      (rnd_toggle_bit_in_field decls_iso [0x0F, 0, 0, 0, 0] 5 3 randctx_init).1.getD ((3 - 1) / 8) 0
        = 0x0B :=
  ⟨by decide, by decide, by decide, by decide, by decide,
    ((rnd_toggle_spec decls_iso [0x0F, 0, 0, 0, 0] 5 3 randctx_init (by decide) (by decide)
      (by decide)).2.1 (by decide)).2.2.2.1.trans (by decide)⟩

/-! ### C17: where the random bit goes -/

theorem code_nvb_bits_val (nvb p : Nat) (h16 : 16 ≤ p) (h64 : p < 64) :
    (iso14443a_code_nvb_bits nvb p).2 = (iso14443a_code_nvb_bits 0 p).2 := by
  have hb : ¬ (p / 8 < 2 ∨ p / 8 > 7) := by omega
  simp [iso14443a_code_nvb_bits, hb]

theorem retry_total (p : Nat) (h16 : 16 ≤ p) (h64 : p < 64) :
    2 ≤ acf_total (iso14443a_code_nvb_bits 0 p).2 ∧
      acf_total (iso14443a_code_nvb_bits 0 p).2 - 2 < (p - 1) / 8 := by
  interval_cases p <;> decide

/-- The frame that the collision loop re-issues after a collision at frame
bit `p` is the same whatever the random bit: the byte that
`rnd_toggle_bit_in_field` changes lies behind the bytes that are transmitted. -/
theorem toggle_not_transmitted (D : Decls) (acf : iso14443a_anticol_cmd) (p : Nat) (c : RandCtx)
    (h16 : 16 ≤ p) (h64 : p < 64) :
    (acf_bytes ⟨acf.sel_code, (iso14443a_code_nvb_bits acf.nvb p).2,
        (rnd_toggle_bit_in_field D acf.uid_bits 5 p c).1⟩).take
        (acf_total (iso14443a_code_nvb_bits acf.nvb p).2) =
      (acf_bytes ⟨acf.sel_code, (iso14443a_code_nvb_bits acf.nvb p).2, acf.uid_bits⟩).take
        (acf_total (iso14443a_code_nvb_bits acf.nvb p).2) := by
  rw [code_nvb_bits_val acf.nvb p h16 h64]
  obtain ⟨h2, hlt⟩ := retry_total p h16 h64
  obtain ⟨m, hm⟩ : ∃ m, acf_total (iso14443a_code_nvb_bits 0 p).2 = m + 2 :=
    ⟨acf_total (iso14443a_code_nvb_bits 0 p).2 - 2, by omega⟩
  rw [hm] at hlt ⊢
  have hlt2 : m < (p - 1) / 8 := by omega
  unfold rnd_toggle_bit_in_field
  split_ifs
  · simp only [acf_bytes, List.take_succ_cons, List.take_set_of_lt _ _ hlt2]
  · rfl

/-- C17: the random bit does not go to the colliding bit.  After the probe
`93 20` was answered `01 02 03 04 04` with a collision at frame bit 24 (the
eighth bit of `uid_bits`), the NVB is re-encoded to `0x30`, so that the retry
transmits three bytes ending with the colliding bit, bit 7 of `uid_bits[0]`.
The random bit drawn is 1, and it is XOR-ed into bit 24 of `uid_bits`, bit 7 of
`uid_bits[2]`; `uid_bits[0]` is as before and the retry is `93 30 01`.  For a
collision at frame bit 48 no bit is changed and no random bit is drawn. -/
theorem toggle_misses_colliding_bit :
    (_iso14443a_transceive_acf decls_iso (script_rf card_collision) ⟨1, []⟩
        ⟨0x93, 0x20, [0, 0, 0, 0, 0]⟩).acf = ⟨0x93, 0x20, [0x01, 0x02, 0x03, 0x04, 0x04]⟩ ∧
      (_iso14443a_transceive_acf decls_iso (script_rf card_collision) ⟨1, []⟩
        ⟨0x93, 0x20, [0, 0, 0, 0, 0]⟩).bit_of_col = 24 ∧
      (iso14443a_code_nvb_bits 0x20 24).2 = 0x30 ∧
      8 * nvb_tx_bytes 0x30 + nvb_tx_last_bits 0x30 = 24 ∧
      (random_bit decls_iso randctx_init).1 = 1 ∧
      (rnd_toggle_bit_in_field decls_iso [0x01, 0x02, 0x03, 0x04, 0x04] 5 24 randctx_init).1
        = [0x01, 0x02, 0x83, 0x04, 0x04] ∧
      frames FrameKind.acf
          (_iso14443a_select decls_iso (script_rf card_collision) 5 ⟨0, []⟩ randctx_init 0).w.log
        = [[0x93, 0x20], [0x93, 0x30, 0x01]] ∧
      rnd_toggle_bit_in_field decls_iso [0x01, 0x02, 0x03, 0x04, 0x04] 5 48 randctx_init
        = ([0x01, 0x02, 0x03, 0x04, 0x04], randctx_init) := by
  decide

/-! ### C19: the split byte and the frame -/

/-- With a byte count of 7 the split byte `uid_bits[5]` is outside the frame,
whatever was received. -/
theorem merge_byte_count_seven (acf : iso14443a_anticol_cmd) (rx : List Nat) (n : Nat)
    (hlen : acf.uid_bits.length = 5) (h : nvb_tx_bytes acf.nvb = 7) :
    acf_merge acf rx n = none := by
  obtain ⟨s, nvb, bits⟩ := acf
  obtain ⟨u0, u1, u2, u3, u4, hb⟩ := list_length_five hlen
  simp only at hb h
  subst hb
  simp [acf_merge, h, acf_bytes]

/-- C19: the split byte can lie outside the frame.  When the front end reports
the collision of the probe at its position 40, `bit_of_col` is 56, the NVB is
re-encoded to `0x70` and the retry is sent with a byte count of 7; its answer
is merged at `uid_bits[7 - 2] = uid_bits[5]`, which is not one of the five
bytes of the UID buffer: the run leaves the frame. -/
theorem merge_outside_frame :
    (_iso14443a_select decls_iso (script_rf card_overrun) 5 ⟨0, []⟩ randctx_init 0).res
        = Res.fault ∧
      frames FrameKind.acf
          (_iso14443a_select decls_iso (script_rf card_overrun) 5 ⟨0, []⟩ randctx_init 0).w.log
        = [[0x93, 0x20], [0x93, 0x70, 0x01, 0x02, 0x03, 0x04, 0x04]] ∧
      (_iso14443a_transceive_acf decls_iso (script_rf card_overrun) ⟨1, []⟩
        ⟨0x93, 0x20, [0, 0, 0, 0, 0]⟩).bit_of_col = 56 ∧
      (iso14443a_code_nvb_bits 0x20 56).2 = 0x70 ∧
      nvb_tx_bytes 0x70 - 2 = 5 ∧
      ([0x01, 0x02, 0x03, 0x04, 0x04] : List Nat).length = 5 ∧
      acf_merge ⟨0x93, 0x70, [0x01, 0x02, 0x03, 0x04, 0x04]⟩ [0xFF] 1 = none ∧
      (_iso14443a_transceive_acf decls_iso (script_rf card_overrun) ⟨2, []⟩
        ⟨0x93, 0x70, [0x01, 0x02, 0x03, 0x04, 0x04]⟩).res = Res.fault := by
  decide

/-! ### C18: length and placement of the UID -/

theorem uid_copy_length (bits : List Nat) (n : Nat) :
    ∀ (uid : List Nat) (dst src : Nat), (uid_copy uid dst bits src n).length = uid.length := by
  induction n with
  | zero => intro uid dst src; rfl
  | succ k ih =>
    intro uid dst src
    rw [uid_copy, ih, List.length_set]

theorem list_length_ten {l : List Nat} (h : l.length = 10) :
    ∃ v0 v1 v2 v3 v4 v5 v6 v7 v8 v9, l = [v0, v1, v2, v3, v4, v5, v6, v7, v8, v9] := by
  match l, h with
  | [v0, v1, v2, v3, v4, v5, v6, v7, v8, v9], _ =>
    exact ⟨v0, v1, v2, v3, v4, v5, v6, v7, v8, v9, rfl⟩

/-- Where the four bytes of the terminal level go. -/
theorem uid_copy_place (uid bits : List Nat) (huid : uid.length = 10) (hbits : bits.length = 5) :
    (uid_copy uid 0 bits 0 4).take 4 = bits.take 4 ∧
      ((uid_copy uid 3 bits 0 4).drop 3).take 4 = bits.take 4 ∧
      ((uid_copy uid 6 bits 0 4).drop 6).take 4 = bits.take 4 ∧
      (uid_copy uid 3 bits 0 4).take 3 = uid.take 3 ∧
      (uid_copy uid 6 bits 0 4).take 6 = uid.take 6 := by
  obtain ⟨v0, v1, v2, v3, v4, v5, v6, v7, v8, v9, rfl⟩ := list_length_ten huid
  obtain ⟨u0, u1, u2, u3, u4, rfl⟩ := list_length_five hbits
  simp [uid_copy, List.set]

theorem cascade_uid_placed (D : Decls) (rf : Rf σ) (hD : D.sel_codes_ok) (fuel : Nat) :
    ∀ (loc : SelectLocals) (w : World σ) (c : RandCtx), cascade_inv D loc →
      (cascade D rf fuel loc w c).res = Res.ret 1 →
      uid_placed D (cascade D rf fuel loc w c).loc := by
  obtain ⟨h12, h13, h23, hl1, hl2, hl3⟩ := hD
  induction fuel with
  | zero =>
    intro loc w c _ h
    rw [cascade] at h
    exact absurd h (by simp)
  | succ n ih =>
    intro loc w c hinv h
    obtain ⟨hu, hb, hlev⟩ := hinv
    have hwf := anticol_phase_wf D rf n w c loc.acf hb
    have hbits : (level_anticol D rf n loc w c).1.acf.uid_bits.length = 5 := hwf.1
    by_cases hp : (level_anticol D rf n loc w c).1.res = Res.ret 1
    · by_cases hs : (level_select D rf n loc w c).1.ret = 0
      · rw [cascade_select_fails D rf n loc w c hp hs] at h
        exact absurd h (by simp)
      · by_cases hk : (level_select D rf n loc w c).1.rx_buf.getD 0 0 &&& 0x04 = 0
        · rw [cascade_terminal D rf n loc w c hp hs hk]
          have hpl := uid_copy_place loc.uid (level_anticol D rf n loc w c).1.acf.uid_bits hu hbits
          have hsc := level_locals_sel_code D rf n loc w c
          refine ⟨?_, ?_, ?_⟩
          · rw [select_finish_uid]
            simp only []
            split_ifs <;> first | exact hu | (rw [uid_copy_length]; exact hu)
          · rw [select_finish_acf]
            exact hbits
          · rw [select_finish_uid, select_finish_uid_len, select_finish_acf]
            have hacf : (level_locals D rf n loc w c).acf.uid_bits
                = (level_anticol D rf n loc w c).1.acf.uid_bits := rfl
            have hlv : (level_locals D rf n loc w c).level = loc.level := rfl
            simp only [hsc, hacf, hlv]
            rcases hlev with ⟨e1, e2⟩ | ⟨e1, e2⟩ | ⟨e1, e2⟩
            · left
              simp only [e1, e2, if_true]
              exact ⟨trivial, trivial, hpl.1⟩
            · right; left
              simp only [e1, e2, h12.symm, if_false, if_true]
              exact ⟨trivial, by decide, hpl.2.1⟩
            · right; right
              simp only [e1, e2, h13.symm, h23.symm, if_false, if_true]
              exact ⟨trivial, by decide, hpl.2.2.1⟩
        · rcases hlev with ⟨e1, e2⟩ | ⟨e1, e2⟩ | ⟨e1, e2⟩
          · by_cases h88 : (level_anticol D rf n loc w c).1.acf.uid_bits.getD 0 0 = 0x88
            · rw [cascade_cl1_step D rf n loc w c e2 hp hs hk h88] at h ⊢
              refine ih _ _ _ ⟨?_, level_next_length D rf n loc w c _ _ _ hb, ?_⟩ h
              · simp only [level_next]
                rw [uid_copy_length]
                exact hu
              · right; left
                exact ⟨rfl, Nat.mod_eq_of_lt hl2⟩
            · rw [cascade_cl1_bad_tag D rf n loc w c e2 hp hs hk h88] at h
              exact absurd h (by simp)
          · rw [cascade_cl2_step D rf n loc w c e2 h12 hp hs hk] at h ⊢
            refine ih _ _ _ ⟨?_, level_next_length D rf n loc w c _ _ _ hb, ?_⟩ h
            · simp only [level_next]
              rw [uid_copy_length]
              exact hu
            · right; right
              exact ⟨rfl, Nat.mod_eq_of_lt hl3⟩
          · rw [cascade_too_deep D rf n loc w c (by rw [e2]; exact h13.symm)
              (by rw [e2]; exact h23.symm) hp hs hk] at h
            exact absurd h (by simp)
    · rw [(cascade_anticol_stop D rf n loc w c hp).2.1] at h
      exact absurd h hp

/-- A run through three cascade levels. -/
theorem three_level_exact (D : Decls) (rf : Rf σ) (w : World σ) (c : RandCtx) (wup : Int)
    (fuel : Nat) (a b c' t d e f g h i j : Nat) (hD : D.sel_codes_ok) :
    let sf := select_sf D rf w wup
    let l1 := locals_cl1 D sf.atqa
    let a1 := level_anticol D rf (fuel + 2) l1 sf.w c
    let s1 := level_select D rf (fuel + 2) l1 sf.w c
    let l2 := level_next D rf (fuel + 2) l1 sf.w c 0 D.ISO14443A_AC_SEL_CODE_CL2
      ISO14443A_LEVEL_CL2
    let a2 := level_anticol D rf (fuel + 1) l2 s1.1.w a1.2
    let s2 := level_select D rf (fuel + 1) l2 s1.1.w a1.2
    let l3 := level_next D rf (fuel + 1) l2 s1.1.w a1.2 3 D.ISO14443A_AC_SEL_CODE_CL3
      ISO14443A_LEVEL_CL3
    let a3 := level_anticol D rf fuel l3 s2.1.w a2.2
    let s3 := level_select D rf fuel l3 s2.1.w a2.2
    sf.ret ≠ 0 → D.bf_anticol (sf.atqa.getD 0 0) (sf.atqa.getD 1 0) ≠ 0 →
    a1.1.res = Res.ret 1 → a1.1.acf.uid_bits.take 4 = [0x88, a, b, c'] →
    s1.1.ret ≠ 0 → s1.1.rx_buf.getD 0 0 &&& 0x04 ≠ 0 →
    a2.1.res = Res.ret 1 → a2.1.acf.uid_bits.take 4 = [t, d, e, f] →
    s2.1.ret ≠ 0 → s2.1.rx_buf.getD 0 0 &&& 0x04 ≠ 0 →
    a3.1.res = Res.ret 1 → a3.1.acf.uid_bits.take 4 = [g, h, i, j] →
    s3.1.ret ≠ 0 → s3.1.rx_buf.getD 0 0 &&& 0x04 = 0 →
    (_iso14443a_select D rf (fuel + 3) w c wup).res = Res.ret 1 ∧
      (_iso14443a_select D rf (fuel + 3) w c wup).loc.uid_len = 10 ∧
      (_iso14443a_select D rf (fuel + 3) w c wup).loc.uid = [a, b, c', d, e, f, g, h, i, j] := by
  intro sf l1 a1 s1 l2 a2 s2 l3 a3 s3 hsf hbf hp1 hu1 hs1 hk1 hp2 hu2 hs2 hk2 hp3 hu3 hs3 hk3
  obtain ⟨h12, h13, h23, hl1, hl2, hl3⟩ := hD
  have hm1 : D.ISO14443A_AC_SEL_CODE_CL1 % 256 = D.ISO14443A_AC_SEL_CODE_CL1 :=
    Nat.mod_eq_of_lt hl1
  have hm2 : D.ISO14443A_AC_SEL_CODE_CL2 % 256 = D.ISO14443A_AC_SEL_CODE_CL2 :=
    Nat.mod_eq_of_lt hl2
  have hm3 : D.ISO14443A_AC_SEL_CODE_CL3 % 256 = D.ISO14443A_AC_SEL_CODE_CL3 :=
    Nat.mod_eq_of_lt hl3
  obtain ⟨g0, g1, g2, g3⟩ := take4_getD hu1
  obtain ⟨k0, k1, k2, k3⟩ := take4_getD hu2
  obtain ⟨m0, m1, m2, m3⟩ := take4_getD hu3
  have hsel1 : l1.acf.sel_code = D.ISO14443A_AC_SEL_CODE_CL1 := hm1
  have hsel2 : l2.acf.sel_code = D.ISO14443A_AC_SEL_CODE_CL2 := hm2
  have hsel3 : l3.acf.sel_code = D.ISO14443A_AC_SEL_CODE_CL3 := hm3
  have step1 : cascade D rf (fuel + 3) l1 sf.w c = cascade D rf (fuel + 2) l2 s1.1.w a1.2 :=
    cascade_cl1_step D rf (fuel + 2) l1 sf.w c hsel1 hp1 hs1 hk1 g0
  have step2 : cascade D rf (fuel + 2) l2 s1.1.w a1.2 = cascade D rf (fuel + 1) l3 s2.1.w a2.2 :=
    cascade_cl2_step D rf (fuel + 1) l2 s1.1.w a1.2 hsel2 h12 hp2 hs2 hk2
  have step3 := cascade_terminal D rf fuel l3 s2.1.w a2.2 hp3 hs3 hk3
  have hrun : _iso14443a_select D rf (fuel + 3) w c wup = _ :=
    (select_unfold D rf (fuel + 3) w c wup).trans
      ((if_neg hsf).trans ((if_neg hbf).trans (step1.trans (step2.trans step3))))
  rw [hrun, select_finish_res, select_finish_uid, select_finish_uid_len]
  have hlev3 : (level_locals D rf fuel l3 s2.1.w a2.2).level = ISO14443A_LEVEL_CL3 := rfl
  have h31 : ¬ D.ISO14443A_AC_SEL_CODE_CL3 = D.ISO14443A_AC_SEL_CODE_CL1 := fun e => h13 e.symm
  have h32 : ¬ D.ISO14443A_AC_SEL_CODE_CL3 = D.ISO14443A_AC_SEL_CODE_CL2 := fun e => h23 e.symm
  have huid1 : l1.uid = [0, 0, 0, 0, 0, 0, 0, 0, 0, 0] := rfl
  have huid2 : l2.uid = [a, b, c', 0, 0, 0, 0, 0, 0, 0] := by
    have e2 : l2.uid = uid_copy l1.uid 0 a1.1.acf.uid_bits 1 3 := rfl
    rw [e2, huid1]
    simp only [uid_copy, List.set, g1, g2, g3]
  have huid3 : l3.uid = [a, b, c', d, e, f, 0, 0, 0, 0] := by
    have e3 : l3.uid = uid_copy l2.uid 3 a2.1.acf.uid_bits 1 3 := rfl
    rw [e3, huid2]
    simp only [uid_copy, List.set, k1, k2, k3]
  have huid4 : uid_copy l3.uid 6 a3.1.acf.uid_bits 0 4 = [a, b, c', d, e, f, g, h, i, j] := by
    rw [huid3]
    simp only [uid_copy, List.set, m0, m1, m2, m3]
  refine ⟨rfl, ?_, ?_⟩
  · rw [if_neg (by rw [hlev3]; decide), if_neg (by rw [hlev3]; decide)]
  · show (if l3.acf.sel_code = D.ISO14443A_AC_SEL_CODE_CL1 then _ else _) = _
    rw [hsel3, if_neg h31, if_neg h32, if_pos rfl]
    exact huid4

/-- C18: UID length and placement.  On every run of `_iso14443a_select` that
returns 1 the UID has ten bytes of which `uid_len` count, and by the select
code of the terminal level: `uid_len = 4` and the first four UID-buffer bytes
are at offset 0 (CL1), `uid_len = 7` and they are at offset 3 (CL2),
`uid_len = 10` and they are at offset 6 (CL3).  When three levels end with the
UID buffers `88 a b c`, `t d e f` and `g h i j`, the cascade bit being set in
the first two SAKs and clear in the third, the run returns 1 with
`uid_len = 10` and the UID `a b c d e f g h i j`. -/
theorem select_uid_placement (D : Decls) (rf : Rf σ) (w : World σ) (c : RandCtx) (wup : Int)
    (F fuel extra : Nat) (a b c' t d e f g h i j : Nat) (hD : D.sel_codes_ok) :
    ((_iso14443a_select D rf F w c wup).res = Res.ret 1 →
      (_iso14443a_select D rf F w c wup).loc.uid.length = 10 ∧
        (_iso14443a_select D rf F w c wup).loc.acf.uid_bits.length = 5 ∧
        (((_iso14443a_select D rf F w c wup).loc.acf.sel_code = D.ISO14443A_AC_SEL_CODE_CL1 ∧
            (_iso14443a_select D rf F w c wup).loc.uid_len = 4 ∧
            (_iso14443a_select D rf F w c wup).loc.uid.take 4 =
              (_iso14443a_select D rf F w c wup).loc.acf.uid_bits.take 4) ∨
          ((_iso14443a_select D rf F w c wup).loc.acf.sel_code = D.ISO14443A_AC_SEL_CODE_CL2 ∧
            (_iso14443a_select D rf F w c wup).loc.uid_len = 7 ∧
            ((_iso14443a_select D rf F w c wup).loc.uid.drop 3).take 4 =
              (_iso14443a_select D rf F w c wup).loc.acf.uid_bits.take 4) ∨
          ((_iso14443a_select D rf F w c wup).loc.acf.sel_code = D.ISO14443A_AC_SEL_CODE_CL3 ∧
            (_iso14443a_select D rf F w c wup).loc.uid_len = 10 ∧
            ((_iso14443a_select D rf F w c wup).loc.uid.drop 6).take 4 =
              (_iso14443a_select D rf F w c wup).loc.acf.uid_bits.take 4))) ∧
      (let sf := select_sf D rf w wup
       let l1 := locals_cl1 D sf.atqa
       let a1 := level_anticol D rf (fuel + 2) l1 sf.w c
       let s1 := level_select D rf (fuel + 2) l1 sf.w c
       let l2 := level_next D rf (fuel + 2) l1 sf.w c 0 D.ISO14443A_AC_SEL_CODE_CL2
         ISO14443A_LEVEL_CL2
       let a2 := level_anticol D rf (fuel + 1) l2 s1.1.w a1.2
       let s2 := level_select D rf (fuel + 1) l2 s1.1.w a1.2
       let l3 := level_next D rf (fuel + 1) l2 s1.1.w a1.2 3 D.ISO14443A_AC_SEL_CODE_CL3
         ISO14443A_LEVEL_CL3
       let a3 := level_anticol D rf fuel l3 s2.1.w a2.2
       let s3 := level_select D rf fuel l3 s2.1.w a2.2
       sf.ret ≠ 0 → D.bf_anticol (sf.atqa.getD 0 0) (sf.atqa.getD 1 0) ≠ 0 →
       a1.1.res = Res.ret 1 → a1.1.acf.uid_bits.take 4 = [0x88, a, b, c'] →
       s1.1.ret ≠ 0 → s1.1.rx_buf.getD 0 0 &&& 0x04 ≠ 0 →
       a2.1.res = Res.ret 1 → a2.1.acf.uid_bits.take 4 = [t, d, e, f] →
       s2.1.ret ≠ 0 → s2.1.rx_buf.getD 0 0 &&& 0x04 ≠ 0 →
       a3.1.res = Res.ret 1 → a3.1.acf.uid_bits.take 4 = [g, h, i, j] →
       s3.1.ret ≠ 0 → s3.1.rx_buf.getD 0 0 &&& 0x04 = 0 →
       (_iso14443a_select D rf (fuel + 3 + extra) w c wup).res = Res.ret 1 ∧
         (_iso14443a_select D rf (fuel + 3 + extra) w c wup).loc.uid_len = 10 ∧
         (_iso14443a_select D rf (fuel + 3 + extra) w c wup).loc.uid
           = [a, b, c', d, e, f, g, h, i, j]) := by
  constructor
  · intro hres
    rw [select_unfold] at hres ⊢
    split_ifs at hres ⊢ with h1 h2
    · exact absurd hres (by simp)
    · exact absurd hres (by simp)
    · exact cascade_uid_placed D rf hD F _ _ _
        ⟨rfl, rfl, Or.inl ⟨rfl, Nat.mod_eq_of_lt hD.2.2.2.1⟩⟩ hres
  · intro sf l1 a1 s1 l2 a2 s2 l3 a3 s3 hsf hbf hp1 hu1 hs1 hk1 hp2 hu2 hs2 hk2 hp3 hu3 hs3 hk3
    have hx := three_level_exact D rf w c wup fuel a b c' t d e f g h i j hD hsf hbf hp1 hu1
      hs1 hk1 hp2 hu2 hs2 hk2 hp3 hu3 hs3 hk3
    have hm := select_mono D rf (fuel + 3) w c wup (by rw [hx.1]; simp) extra
    rw [hm]
    exact hx

theorem select_uid_placement_witness :
    decls_iso.sel_codes_ok ∧
      (_iso14443a_select decls_iso (script_rf card_triple) 5 world0 randctx_init 0).res
        = Res.ret 1 ∧
      (_iso14443a_select decls_iso (script_rf card_triple) 5 world0 randctx_init 0).loc.uid_len
        = 10 ∧
      (_iso14443a_select decls_iso (script_rf card_triple) 5 world0 randctx_init 0).loc.uid
        = [0x01, 0x02, 0x03, 0x04, 0x05, 0x06, 0x07, 0x08, 0x09, 0x0a] :=
  ⟨by decide,
    (select_uid_placement decls_iso (script_rf card_triple) world0 randctx_init 0 5 0 2
      0x01 0x02 0x03 0x88 0x04 0x05 0x06 0x07 0x08 0x09 0x0a (by decide)).2
      (by decide) (by decide) (by decide) (by decide) (by decide) (by decide) (by decide)
      (by decide) (by decide) (by decide) (by decide) (by decide) (by decide) (by decide)⟩

end Iso14443a
